import Mathlib

/-!
# Opus packet framing: a shallow embedding of `opus_analyzer`

The definitions below transcribe `src/src/opus_types.h`, `src/src/opus_utils.cpp`
and `src/src/opus_frame_parser.cpp`.

Conventions of the embedding.

* A `const uint8_t*` is a list of bytes (`Fin 256`); `data + k` is `data.drop k`
  and `data[i]` is `rd data i`.  The `length` argument of the C functions is kept
  as an explicit argument, so that `parseOpusPacket data data.length` is the call
  on a whole buffer.
* A function returning `bool` and writing its results through reference
  parameters returns an `Option` of the written values (`none` is `false`).
* `size_t` is taken to be 64 bits wide and buffers have fewer than `2^64` bytes:
  `size_t` sums are computed in `Nat`, a `size_t` difference that the code has
  guarded is a `Nat` difference, and one that can wrap is `subSize`.
* `uint32_t` variables are reduced with `u32` at every assignment whose value is
  not bounded by construction.
-/

namespace OpusAnalyzer

/-- One octet of the bitstream. -/
abbrev Byte := Fin 256

/-- The read `data[i]` through a byte pointer, as a number. -/
def rd (data : List Byte) (i : Nat) : Nat := (data.getD i 0).val

/-- Conversion to `uint32_t`. -/
def u32 (n : Nat) : Nat := n % 4294967296

/-- Subtraction of two `size_t` values (64 bits, wrapping). -/
def subSize (a b : Nat) : Nat := (a + 18446744073709551616 - b) % 18446744073709551616

/-- The `enum class OpusMode`. -/
inductive OpusMode where
  | SILK_ONLY
  | HYBRID
  | CELT_ONLY
  deriving DecidableEq, Repr

/-- The `enum class OpusBandwidth`. -/
inductive OpusBandwidth where
  | NB
  | MB
  | WB
  | SWB
  | FB
  deriving DecidableEq, Repr

/-- The `enum class OpusFrameSize`. -/
inductive OpusFrameSize where
  | FRAME_2_5_MS
  | FRAME_5_MS
  | FRAME_10_MS
  | FRAME_20_MS
  | FRAME_40_MS
  | FRAME_60_MS
  deriving DecidableEq, Repr

/-- The `struct OpusFrameInfo`. -/
structure OpusFrameInfo where
  toc_byte : Nat
  config : Nat
  mode : OpusMode
  bandwidth : OpusBandwidth
  frame_size : OpusFrameSize
  stereo : Bool
  frame_count_code : Nat
  frame_count : Nat
  frame_sizes : List Nat
  total_size : Nat
  data_offset : Nat
  is_self_delimiting : Bool
  is_cbr : Bool
  has_padding : Bool
  padding_size : Nat
  deriving DecidableEq, Repr

/-- The record after `memset(&frame_info, 0, sizeof(frame_info))` and
`frame_sizes.clear()`: every field is zero, every enum its first value. -/
def zeroFrameInfo : OpusFrameInfo :=
  { toc_byte := 0, config := 0, mode := OpusMode.SILK_ONLY, bandwidth := OpusBandwidth.NB,
    frame_size := OpusFrameSize.FRAME_2_5_MS, stereo := false, frame_count_code := 0,
    frame_count := 0, frame_sizes := [], total_size := 0, data_offset := 0,
    is_self_delimiting := false, is_cbr := false, has_padding := false, padding_size := 0 }

/-- The function `parseTOC`: the outputs are `(config, stereo, frame_count_code)`. -/
def parseTOC (toc : Nat) : Option (Nat × Bool × Nat) :=
  some ((toc >>> 3) &&& 0x1F, ((toc >>> 2) &&& 0x01) != 0, toc &&& 0x03)

/-- The function `getConfigInfo`: the outputs are `(mode, bandwidth, frame_size)`. -/
def getConfigInfo (config : Nat) : Option (OpusMode × OpusBandwidth × OpusFrameSize) :=
  if config > 31 then none
  else if config ≥ 0 ∧ config ≤ 3 then
    match config with
    | 0 => some (OpusMode.SILK_ONLY, OpusBandwidth.NB, OpusFrameSize.FRAME_10_MS)
    | 1 => some (OpusMode.SILK_ONLY, OpusBandwidth.NB, OpusFrameSize.FRAME_20_MS)
    | 2 => some (OpusMode.SILK_ONLY, OpusBandwidth.NB, OpusFrameSize.FRAME_40_MS)
    | 3 => some (OpusMode.SILK_ONLY, OpusBandwidth.NB, OpusFrameSize.FRAME_60_MS)
    | _ => none
  else if config ≥ 4 ∧ config ≤ 7 then
    match config with
    | 4 => some (OpusMode.SILK_ONLY, OpusBandwidth.MB, OpusFrameSize.FRAME_10_MS)
    | 5 => some (OpusMode.SILK_ONLY, OpusBandwidth.MB, OpusFrameSize.FRAME_20_MS)
    | 6 => some (OpusMode.SILK_ONLY, OpusBandwidth.MB, OpusFrameSize.FRAME_40_MS)
    | 7 => some (OpusMode.SILK_ONLY, OpusBandwidth.MB, OpusFrameSize.FRAME_60_MS)
    | _ => none
  else if config ≥ 8 ∧ config ≤ 11 then
    match config with
    | 8 => some (OpusMode.SILK_ONLY, OpusBandwidth.WB, OpusFrameSize.FRAME_10_MS)
    | 9 => some (OpusMode.SILK_ONLY, OpusBandwidth.WB, OpusFrameSize.FRAME_20_MS)
    | 10 => some (OpusMode.SILK_ONLY, OpusBandwidth.WB, OpusFrameSize.FRAME_40_MS)
    | 11 => some (OpusMode.SILK_ONLY, OpusBandwidth.WB, OpusFrameSize.FRAME_60_MS)
    | _ => none
  else if config ≥ 12 ∧ config ≤ 13 then
    match config with
    | 12 => some (OpusMode.HYBRID, OpusBandwidth.SWB, OpusFrameSize.FRAME_10_MS)
    | 13 => some (OpusMode.HYBRID, OpusBandwidth.SWB, OpusFrameSize.FRAME_20_MS)
    | _ => none
  else if config ≥ 14 ∧ config ≤ 15 then
    match config with
    | 14 => some (OpusMode.HYBRID, OpusBandwidth.FB, OpusFrameSize.FRAME_10_MS)
    | 15 => some (OpusMode.HYBRID, OpusBandwidth.FB, OpusFrameSize.FRAME_20_MS)
    | _ => none
  else if config ≥ 16 ∧ config ≤ 19 then
    match config with
    | 16 => some (OpusMode.CELT_ONLY, OpusBandwidth.NB, OpusFrameSize.FRAME_2_5_MS)
    | 17 => some (OpusMode.CELT_ONLY, OpusBandwidth.NB, OpusFrameSize.FRAME_5_MS)
    | 18 => some (OpusMode.CELT_ONLY, OpusBandwidth.NB, OpusFrameSize.FRAME_10_MS)
    | 19 => some (OpusMode.CELT_ONLY, OpusBandwidth.NB, OpusFrameSize.FRAME_20_MS)
    | _ => none
  else if config ≥ 20 ∧ config ≤ 23 then
    match config with
    | 20 => some (OpusMode.CELT_ONLY, OpusBandwidth.WB, OpusFrameSize.FRAME_2_5_MS)
    | 21 => some (OpusMode.CELT_ONLY, OpusBandwidth.WB, OpusFrameSize.FRAME_5_MS)
    | 22 => some (OpusMode.CELT_ONLY, OpusBandwidth.WB, OpusFrameSize.FRAME_10_MS)
    | 23 => some (OpusMode.CELT_ONLY, OpusBandwidth.WB, OpusFrameSize.FRAME_20_MS)
    | _ => none
  else if config ≥ 24 ∧ config ≤ 27 then
    match config with
    | 24 => some (OpusMode.CELT_ONLY, OpusBandwidth.SWB, OpusFrameSize.FRAME_2_5_MS)
    | 25 => some (OpusMode.CELT_ONLY, OpusBandwidth.SWB, OpusFrameSize.FRAME_5_MS)
    | 26 => some (OpusMode.CELT_ONLY, OpusBandwidth.SWB, OpusFrameSize.FRAME_10_MS)
    | 27 => some (OpusMode.CELT_ONLY, OpusBandwidth.SWB, OpusFrameSize.FRAME_20_MS)
    | _ => none
  else if config ≥ 28 ∧ config ≤ 31 then
    match config with
    | 28 => some (OpusMode.CELT_ONLY, OpusBandwidth.FB, OpusFrameSize.FRAME_2_5_MS)
    | 29 => some (OpusMode.CELT_ONLY, OpusBandwidth.FB, OpusFrameSize.FRAME_5_MS)
    | 30 => some (OpusMode.CELT_ONLY, OpusBandwidth.FB, OpusFrameSize.FRAME_10_MS)
    | 31 => some (OpusMode.CELT_ONLY, OpusBandwidth.FB, OpusFrameSize.FRAME_20_MS)
    | _ => none
  else none

/-- The function `parseFrameSizeEncoding`: the outputs are `(frame_size, bytes_read)`.
The sum `data[1] * 4 + data[0]` is at most `1275`, so its conversion to `uint32_t`
is exact. -/
def parseFrameSizeEncoding (data : List Byte) (length : Nat) : Option (Nat × Nat) :=
  if length < 1 then none
  else if rd data 0 = 0 then some (0, 1)
  else if rd data 0 ≥ 1 ∧ rd data 0 ≤ 251 then some (rd data 0, 1)
  else if rd data 0 ≥ 252 ∧ rd data 0 ≤ 255 then
    if length < 2 then none
    else some (rd data 1 * 4 + rd data 0, 2)
  else none

/-- Case 0 of the `switch` in `parseOpusPacket` (one frame); `offset` is `1` on entry. -/
def parseCode0 (data : List Byte) (length : Nat) (frame_info : OpusFrameInfo) :
    Option OpusFrameInfo :=
  let offset := 1
  let frame_info := { frame_info with frame_count := 1 }
  if offset ≥ length then
    some { frame_info with frame_sizes := [0], total_size := 1 }
  else
    let plain : Option OpusFrameInfo :=
      let frame_size := u32 (length - offset)
      if frame_size > 1275 then none
      else some { frame_info with frame_sizes := [frame_size], total_size := u32 length }
    match parseFrameSizeEncoding (data.drop offset) (length - offset) with
    | some (frame_size, bytes_read) =>
      if frame_size > 0 ∧ offset + bytes_read + frame_size ≤ length then
        some { frame_info with
          is_self_delimiting := true
          frame_sizes := [frame_size]
          data_offset := offset + bytes_read
          total_size := offset + bytes_read + frame_size }
      else plain
    | none => plain

/-- Case 1 of the `switch` in `parseOpusPacket` (two frames of one size). -/
def parseCode1 (data : List Byte) (length : Nat) (frame_info : OpusFrameInfo) :
    Option OpusFrameInfo :=
  let offset := 1
  if length < 2 then none
  else
    let plain : Option OpusFrameInfo :=
      let remaining := u32 (length - offset)
      if remaining % 2 ≠ 0 then none
      else
        let frame_size := remaining / 2
        if frame_size > 1275 then none
        else some { frame_info with
          frame_sizes := [frame_size, frame_size]
          total_size := u32 length
          frame_count := 2 }
    match parseFrameSizeEncoding (data.drop offset) (length - offset) with
    | some (frame_size, bytes_read) =>
      if frame_size > 0 ∧ offset + bytes_read + frame_size * 2 ≤ length then
        some { frame_info with
          is_self_delimiting := true
          frame_sizes := [frame_size, frame_size]
          data_offset := offset + bytes_read
          total_size := offset + bytes_read + frame_size * 2
          frame_count := 2 }
      else plain
    | none => plain

/-- Case 2 of the `switch` in `parseOpusPacket` (two frames, the first size explicit).
The plain branch leaves `data_offset` at the value `1` written before the `switch`. -/
def parseCode2 (data : List Byte) (length : Nat) (frame_info : OpusFrameInfo) :
    Option OpusFrameInfo :=
  let offset := 1
  if offset ≥ length then none
  else
    match parseFrameSizeEncoding (data.drop offset) (length - offset) with
    | none => none
    | some (frame1_size, bytes_read) =>
      let offset := offset + bytes_read
      let plain : Option OpusFrameInfo :=
        if frame1_size > 1275 then none
        else if offset + frame1_size > length then none
        else
          let frame2_size := u32 (length - offset - frame1_size)
          if frame2_size > 1275 then none
          else some { frame_info with
            frame_sizes := [frame1_size, frame2_size]
            total_size := u32 length
            frame_count := 2 }
      if offset < length then
        match parseFrameSizeEncoding (data.drop offset) (length - offset) with
        | some (frame2_size, bytes_read2) =>
          if frame1_size > 0 ∧ frame2_size > 0 ∧
              offset + bytes_read2 + frame1_size + frame2_size ≤ length then
            some { frame_info with
              is_self_delimiting := true
              frame_sizes := [frame1_size, frame2_size]
              data_offset := offset + bytes_read2
              total_size := offset + bytes_read2 + frame1_size + frame2_size
              frame_count := 2 }
          else plain
        | none => plain
      else plain

/-- The `do ... while (p == 255)` loop of case 3 that decodes the padding length.
The state is `(padding_offset, length, padding_size)`; the first argument bounds the
number of iterations (the caller passes the buffer length, which the loop cannot
exhaust because `padding_offset` grows by one per iteration and stays below
`length`). -/
def paddingLoop (data : List Byte) : Nat → Nat → Nat → Nat → Option (Nat × Nat × Nat)
  | 0, _, _, _ => none
  | fuel + 1, padding_offset, length, padding_size =>
    if padding_offset ≥ length then none
    else
      let p := rd data padding_offset
      let padding_offset := padding_offset + 1
      let tmp := if p = 255 then 254 else p
      if length < padding_offset + tmp then none
      else
        let length := length - tmp
        let padding_size := u32 (padding_size + tmp)
        if p = 255 then paddingLoop data fuel padding_offset length padding_size
        else some (padding_offset, length, padding_size)

/-- The `for` loop of the VBR branch of case 3, with `n` iterations left.  The state
is `(offset, last_size, frame_sizes)`.  `frame_size < 0` is never true of an unsigned
value and is left out. -/
def vbrLoop (data : List Byte) (length : Nat) :
    Nat → Nat → Nat → List Nat → Option (Nat × Nat × List Nat)
  | 0, offset, last_size, frame_sizes => some (offset, last_size, frame_sizes)
  | n + 1, offset, last_size, frame_sizes =>
    if offset ≥ length then none
    else
      match parseFrameSizeEncoding (data.drop offset) (length - offset) with
      | none => none
      | some (frame_size, bytes_read) =>
        if frame_size > length - offset then none
        else if frame_size > 1275 then none
        else
          vbrLoop data length n (offset + bytes_read)
            (u32 (subSize last_size (bytes_read + frame_size)))
            (frame_sizes ++ [frame_size])

/-- The boundary search `for (try_size = min_packet_size; ...)` of the CBR branch:
the value of `packet_size` after the loop (`0` when no candidate matched), with `n`
candidates left to try. -/
def searchLoop (data : List Byte)
    (current_toc current_frame_count_byte max_packet_size original_length : Nat) :
    Nat → Nat → Nat
  | 0, _ => 0
  | n + 1, try_size =>
    if try_size ≤ max_packet_size ∧ try_size < original_length then
      if try_size + 1 < original_length ∧ rd data try_size = current_toc ∧
          rd data (try_size + 1) = current_frame_count_byte then
        try_size
      else
        searchLoop data current_toc current_frame_count_byte max_packet_size
          original_length n (try_size + 1)
    else 0

/-- The CBR branch of case 3, entered with the `offset`, `length` and `padding_size`
left by the padding decoder. -/
def parseCbr (data : List Byte) (offset length padding_size frame_count : Nat)
    (frame_info : OpusFrameInfo) : Option OpusFrameInfo :=
  let min_packet_size := u32 (offset + frame_count * 10 + padding_size)
  let max_packet_size := u32 (offset + frame_count * 1275 + padding_size)
  let original_length := length + padding_size
  let finish (packet_size effective_data_size : Nat) : Option OpusFrameInfo :=
    let frame_size := effective_data_size / frame_count
    if u32 (frame_size * frame_count) ≠ effective_data_size then none
    else if frame_size > 1275 then none
    else some { frame_info with
      frame_sizes := List.replicate frame_count frame_size
      total_size := u32 packet_size
      data_offset := u32 offset }
  if original_length ≥ min_packet_size ∧ original_length ≤ max_packet_size then
    finish original_length (u32 (length - offset))
  else if original_length > max_packet_size then
    let packet_size :=
      searchLoop data (rd data 0) (rd data 1) max_packet_size original_length
        (max_packet_size + 1 - min_packet_size) min_packet_size
    if packet_size = 0 then none
    else finish packet_size (u32 (subSize (subSize packet_size offset) padding_size))
  else none

/-- The VBR branch of case 3, entered with the `offset` and `length` left by the
padding decoder.  `total_size` is not written on this branch. -/
def parseVbr (data : List Byte) (offset length frame_count : Nat)
    (frame_info : OpusFrameInfo) : Option OpusFrameInfo :=
  match vbrLoop data length (frame_count - 1) offset (u32 (length - offset)) [] with
  | none => none
  | some (offset, last_size, frame_sizes) =>
    if last_size > 1275 then none
    else some { frame_info with
      frame_sizes := frame_sizes ++ [last_size]
      data_offset := u32 offset }

/-- The padding step of case 3: the `(offset, length, padding_size)` with which the
frame sizes are then decoded.  Without the padding flag nothing is read. -/
def code3Padding (data : List Byte) (length offset : Nat) (has_padding : Bool) :
    Option (Nat × Nat × Nat) :=
  if has_padding then paddingLoop data length offset length 0
  else some (offset, length, 0)

/-- Case 3 of the `switch` in `parseOpusPacket` (frame count in a second byte).
`frame_info.padding_size` is written only when the padding flag is set; it is zero
from the `memset` otherwise, as is the local `padding_size`. -/
def parseCode3 (data : List Byte) (length : Nat) (frame_info : OpusFrameInfo) :
    Option OpusFrameInfo :=
  let offset := 1
  if offset ≥ length then none
  else
    let frame_count_byte := rd data offset
    let offset := offset + 1
    let is_vbr := ((frame_count_byte >>> 7) &&& 0x01) != 0
    let has_padding := ((frame_count_byte >>> 6) &&& 0x01) != 0
    let frame_count := frame_count_byte &&& 0x3F
    if frame_count = 0 then none
    else
      let frame_info := { frame_info with
        is_cbr := !is_vbr
        has_padding := has_padding
        frame_count := frame_count }
      match code3Padding data length offset has_padding with
      | none => none
      | some (offset, length, padding_size) =>
        let frame_info :=
          if has_padding then { frame_info with padding_size := padding_size }
          else frame_info
        if is_vbr then parseVbr data offset length frame_count frame_info
        else parseCbr data offset length padding_size frame_count frame_info

/-- The fields of `frame_info` that `parseOpusPacket` writes before the `switch`,
on top of the zeroed record. -/
def headerInfo (toc config : Nat) (stereo : Bool) (frame_count_code : Nat)
    (mode : OpusMode) (bandwidth : OpusBandwidth) (frame_size : OpusFrameSize) :
    OpusFrameInfo :=
  { zeroFrameInfo with
    toc_byte := toc
    config := config
    stereo := stereo
    frame_count_code := frame_count_code
    data_offset := 1
    mode := mode
    bandwidth := bandwidth
    frame_size := frame_size }

/-- The function `parseOpusPacket`; the result is the `frame_info` written on
success. -/
def parseOpusPacket (data : List Byte) (length : Nat) : Option OpusFrameInfo :=
  if length < 1 then none
  else
    let toc := rd data 0
    match parseTOC toc with
    | none => none
    | some (config, stereo, frame_count_code) =>
      match getConfigInfo config with
      | none => none
      | some (mode, bandwidth, frame_size) =>
        let frame_info :=
          headerInfo toc config stereo frame_count_code mode bandwidth frame_size
        match frame_count_code with
        | 0 => parseCode0 data length frame_info
        | 1 => parseCode1 data length frame_info
        | 2 => parseCode2 data length frame_info
        | 3 => parseCode3 data length frame_info
        | _ => none

/-- The frame-length decoder in the words of the specification (section 4.3): a first
byte `b0` of `0` gives size `0` with one byte consumed, `1 ≤ b0 ≤ 251` gives size `b0`
with one byte consumed, and `252 ≤ b0 ≤ 255` needs a second byte `b1` and gives
`b1 * 4 + b0` with two bytes consumed; it fails when a needed byte is absent. -/
def refFrameLength : List Byte → Option (Nat × Nat)
  | [] => none
  | b0 :: rest =>
    if b0.val = 0 then some (0, 1)
    else if 1 ≤ b0.val ∧ b0.val ≤ 251 then some (b0.val, 1)
    else
      match rest with
      | [] => none
      | b1 :: _ => some (b1.val * 4 + b0.val, 2)

/-- The sizes announced by `k` consecutive frame-length codes of `data` from `offset`
on, inside the first `length` bytes, together with the offset after the last code. -/
def frameLengthCodes (data : List Byte) (length : Nat) : Nat → Nat → Option (List Nat × Nat)
  | 0, offset => some ([], offset)
  | k + 1, offset =>
    match parseFrameSizeEncoding (data.drop offset) (length - offset) with
    | none => none
    | some (frame_size, bytes_read) =>
      match frameLengthCodes data length k (offset + bytes_read) with
      | none => none
      | some (rest, last_offset) => some (frame_size :: rest, last_offset)

/-- The loop `while (offset < length && data[offset] == 0xFF)` of `parsePaddingLength`:
the `(offset, padding_size)` after the loop.  The first argument bounds the number of
iterations; the caller passes `length`, after which `offset < length` is false. -/
def paddingScan (data : List Byte) (length : Nat) : Nat → Nat → Nat → Nat × Nat
  | 0, offset, padding_size => (offset, padding_size)
  | fuel + 1, offset, padding_size =>
    if offset < length ∧ rd data offset = 0xFF then
      paddingScan data length fuel (offset + 1) (u32 (padding_size + 0xFF))
    else (offset, padding_size)

/-- The function `parsePaddingLength`: the outputs are `(padding_size, bytes_read)`. -/
def parsePaddingLength (data : List Byte) (length : Nat) : Option (Nat × Nat) :=
  if length < 1 then none
  else
    let (offset, padding_size) := paddingScan data length length 0 0
    if offset ≥ length then none
    else some (u32 (padding_size + rd data offset), offset + 1)

/-- The duration of the `i`-th config of a SILK-only group, in the words of the
specification: 10, 20, 40, 60 ms. -/
def silkDuration : Nat → OpusFrameSize
  | 0 => OpusFrameSize.FRAME_10_MS
  | 1 => OpusFrameSize.FRAME_20_MS
  | 2 => OpusFrameSize.FRAME_40_MS
  | _ => OpusFrameSize.FRAME_60_MS

/-- The duration of the `i`-th config of a Hybrid group, in the words of the
specification: 10, 20 ms. -/
def hybridDuration : Nat → OpusFrameSize
  | 0 => OpusFrameSize.FRAME_10_MS
  | _ => OpusFrameSize.FRAME_20_MS

/-- The duration of the `i`-th config of a CELT-only group, in the words of the
specification: 2.5, 5, 10, 20 ms. -/
def celtDuration : Nat → OpusFrameSize
  | 0 => OpusFrameSize.FRAME_2_5_MS
  | 1 => OpusFrameSize.FRAME_5_MS
  | 2 => OpusFrameSize.FRAME_10_MS
  | _ => OpusFrameSize.FRAME_20_MS

/-- The configuration table in the words of the specification: configs 0-3, 4-7 and
8-11 are SILK-only NB, MB and WB; 12-13 and 14-15 are Hybrid SWB and FB; 16-19, 20-23,
24-27 and 28-31 are CELT-only NB, WB, SWB and FB; a config above 31 has no entry. -/
def refConfigTable (config : Nat) : Option (OpusMode × OpusBandwidth × OpusFrameSize) :=
  if config ≤ 3 then some (OpusMode.SILK_ONLY, OpusBandwidth.NB, silkDuration config)
  else if config ≤ 7 then
    some (OpusMode.SILK_ONLY, OpusBandwidth.MB, silkDuration (config - 4))
  else if config ≤ 11 then
    some (OpusMode.SILK_ONLY, OpusBandwidth.WB, silkDuration (config - 8))
  else if config ≤ 13 then
    some (OpusMode.HYBRID, OpusBandwidth.SWB, hybridDuration (config - 12))
  else if config ≤ 15 then
    some (OpusMode.HYBRID, OpusBandwidth.FB, hybridDuration (config - 14))
  else if config ≤ 19 then
    some (OpusMode.CELT_ONLY, OpusBandwidth.NB, celtDuration (config - 16))
  else if config ≤ 23 then
    some (OpusMode.CELT_ONLY, OpusBandwidth.WB, celtDuration (config - 20))
  else if config ≤ 27 then
    some (OpusMode.CELT_ONLY, OpusBandwidth.SWB, celtDuration (config - 24))
  else if config ≤ 31 then
    some (OpusMode.CELT_ONLY, OpusBandwidth.FB, celtDuration (config - 28))
  else none

/-- The function `findNextPacket`: the result is the `next_offset` written on
success.  The sum `current_offset + frame_info.total_size` is a `size_t` sum. -/
def findNextPacket (data : List Byte) (length current_offset : Nat) : Option Nat :=
  if length = 0 ∨ current_offset ≥ length then none
  else
    match parseOpusPacket (data.drop current_offset) (length - current_offset) with
    | none => none
    | some frame_info =>
      if frame_info.total_size > 0 ∧ current_offset + frame_info.total_size ≤ length then
        some (current_offset + frame_info.total_size)
      else none

/-! ## The sweep of the sample program -/

/-- The constant `BUFSIZE` of `main` in `opus_sample.cpp`; the number `sz` of bytes in
the buffer never exceeds it. -/
def BUFSIZE : Nat := 32 * 1024 * 1024

/-- The probing loop `for (size_t i = 0; i < 1000 && next_offset < sz; i++)` of the
sample program, with `n` iterations left: `some next_offset` when a probe decoded
(`found_next`), `none` otherwise. -/
def probeLoop (p : List Byte) (sz : Nat) : Nat → Nat → Option Nat
  | 0, _ => none
  | n + 1, next_offset =>
    if next_offset < sz then
      match parseOpusPacket (p.drop next_offset) (sz - next_offset) with
      | some _ => some next_offset
      | none => probeLoop p sz n (next_offset + 1)
    else none

/-- One run of the body of `while (current_offset < sz)` in the sample program,
entered with `current_offset < sz`: the new `current_offset` and `packet_count`, and
whether the body left the loop through one of its `break` statements.  The product
`frame_sizes[0] * frame_count` is a `uint32_t` product; printing is left out. -/
def sweepBody (p : List Byte) (sz current_offset packet_count : Nat) : Nat × Nat × Bool :=
  match parseOpusPacket (p.drop current_offset) (sz - current_offset) with
  | some frame_info =>
    let packet_count := packet_count + 1
    let current_offset :=
      if frame_info.total_size > 0 then current_offset + frame_info.total_size
      else
        let data_end := current_offset + frame_info.data_offset +
          (if frame_info.frame_sizes.isEmpty then 0
            else u32 (frame_info.frame_sizes.headD 0 * frame_info.frame_count))
        match probeLoop p sz 1000 data_end with
        | some next_offset => next_offset
        | none => current_offset + 1
    (current_offset, packet_count, decide (current_offset ≥ sz))
  | none =>
    let current_offset := current_offset + 1
    (current_offset, packet_count, decide (current_offset ≥ sz))

/-- The loop `while (current_offset < sz)` of the sample program: the final
`current_offset` and `packet_count`.  The first argument bounds the number of runs of
the body; `none` means that the bound was reached with the loop still running. -/
def sweep (p : List Byte) (sz : Nat) : Nat → Nat → Nat → Option (Nat × Nat)
  | fuel, current_offset, packet_count =>
    if current_offset < sz then
      match fuel with
      | 0 => none
      | fuel + 1 =>
        let r := sweepBody p sz current_offset packet_count
        if r.2.2 then some (r.1, r.2.1) else sweep p sz fuel r.1 r.2.1
    else some (current_offset, packet_count)

/-! ## The parser with every read checked against the buffer

The definitions of this section repeat the parser with `data[i]` read through
`readAt`, which faults outside the list; `data + k` is still `data.drop k`, so an index
is outside the buffer exactly when it is outside the list. -/

/-- The outcome of a run with checked reads: `fault` when a byte outside the buffer
was read, `ret r` when the run returned `r` and every read was inside. -/
inductive Checked (α : Type) where
  | fault : Checked α
  | ret : α → Checked α
  deriving DecidableEq, Repr

/-- Sequencing of checked runs: a fault stops the run. -/
def Checked.bind {α β : Type} : Checked α → (α → Checked β) → Checked β
  | Checked.fault, _ => Checked.fault
  | Checked.ret a, f => f a

/-- The access `data[i]`, checked. -/
def readAt (data : List Byte) (i : Nat) : Checked Nat :=
  match data[i]? with
  | some b => Checked.ret b.val
  | none => Checked.fault

/-- The function `parseFrameSizeEncoding` with checked reads. -/
def parseFrameSizeEncodingChecked (data : List Byte) (length : Nat) :
    Checked (Option (Nat × Nat)) :=
  if length < 1 then Checked.ret none
  else
    (readAt data 0).bind fun d0 =>
      if d0 = 0 then Checked.ret (some (0, 1))
      else if d0 ≥ 1 ∧ d0 ≤ 251 then Checked.ret (some (d0, 1))
      else if d0 ≥ 252 ∧ d0 ≤ 255 then
        if length < 2 then Checked.ret none
        else (readAt data 1).bind fun d1 => Checked.ret (some (d1 * 4 + d0, 2))
      else Checked.ret none

/-- Case 0 of the `switch` with checked reads. -/
def parseCode0Checked (data : List Byte) (length : Nat) (frame_info : OpusFrameInfo) :
    Checked (Option OpusFrameInfo) :=
  let offset := 1
  let frame_info := { frame_info with frame_count := 1 }
  if offset ≥ length then
    Checked.ret (some { frame_info with frame_sizes := [0], total_size := 1 })
  else
    let plain : Option OpusFrameInfo :=
      let frame_size := u32 (length - offset)
      if frame_size > 1275 then none
      else some { frame_info with frame_sizes := [frame_size], total_size := u32 length }
    (parseFrameSizeEncodingChecked (data.drop offset) (length - offset)).bind fun r =>
      match r with
      | some (frame_size, bytes_read) =>
        if frame_size > 0 ∧ offset + bytes_read + frame_size ≤ length then
          Checked.ret (some { frame_info with
            is_self_delimiting := true
            frame_sizes := [frame_size]
            data_offset := offset + bytes_read
            total_size := offset + bytes_read + frame_size })
        else Checked.ret plain
      | none => Checked.ret plain

/-- Case 1 of the `switch` with checked reads. -/
def parseCode1Checked (data : List Byte) (length : Nat) (frame_info : OpusFrameInfo) :
    Checked (Option OpusFrameInfo) :=
  let offset := 1
  if length < 2 then Checked.ret none
  else
    let plain : Option OpusFrameInfo :=
      let remaining := u32 (length - offset)
      if remaining % 2 ≠ 0 then none
      else
        let frame_size := remaining / 2
        if frame_size > 1275 then none
        else some { frame_info with
          frame_sizes := [frame_size, frame_size]
          total_size := u32 length
          frame_count := 2 }
    (parseFrameSizeEncodingChecked (data.drop offset) (length - offset)).bind fun r =>
      match r with
      | some (frame_size, bytes_read) =>
        if frame_size > 0 ∧ offset + bytes_read + frame_size * 2 ≤ length then
          Checked.ret (some { frame_info with
            is_self_delimiting := true
            frame_sizes := [frame_size, frame_size]
            data_offset := offset + bytes_read
            total_size := offset + bytes_read + frame_size * 2
            frame_count := 2 })
        else Checked.ret plain
      | none => Checked.ret plain

/-- Case 2 of the `switch` with checked reads. -/
def parseCode2Checked (data : List Byte) (length : Nat) (frame_info : OpusFrameInfo) :
    Checked (Option OpusFrameInfo) :=
  let offset := 1
  if offset ≥ length then Checked.ret none
  else
    (parseFrameSizeEncodingChecked (data.drop offset) (length - offset)).bind fun r =>
      match r with
      | none => Checked.ret none
      | some (frame1_size, bytes_read) =>
        let offset := offset + bytes_read
        let plain : Option OpusFrameInfo :=
          if frame1_size > 1275 then none
          else if offset + frame1_size > length then none
          else
            let frame2_size := u32 (length - offset - frame1_size)
            if frame2_size > 1275 then none
            else some { frame_info with
              frame_sizes := [frame1_size, frame2_size]
              total_size := u32 length
              frame_count := 2 }
        if offset < length then
          (parseFrameSizeEncodingChecked (data.drop offset) (length - offset)).bind fun r2 =>
            match r2 with
            | some (frame2_size, bytes_read2) =>
              if frame1_size > 0 ∧ frame2_size > 0 ∧
                  offset + bytes_read2 + frame1_size + frame2_size ≤ length then
                Checked.ret (some { frame_info with
                  is_self_delimiting := true
                  frame_sizes := [frame1_size, frame2_size]
                  data_offset := offset + bytes_read2
                  total_size := offset + bytes_read2 + frame1_size + frame2_size
                  frame_count := 2 })
              else Checked.ret plain
            | none => Checked.ret plain
        else Checked.ret plain

/-- The padding loop of case 3 with checked reads. -/
def paddingLoopChecked (data : List Byte) :
    Nat → Nat → Nat → Nat → Checked (Option (Nat × Nat × Nat))
  | 0, _, _, _ => Checked.ret none
  | fuel + 1, padding_offset, length, padding_size =>
    if padding_offset ≥ length then Checked.ret none
    else
      (readAt data padding_offset).bind fun p =>
        let padding_offset := padding_offset + 1
        let tmp := if p = 255 then 254 else p
        if length < padding_offset + tmp then Checked.ret none
        else
          let length := length - tmp
          let padding_size := u32 (padding_size + tmp)
          if p = 255 then paddingLoopChecked data fuel padding_offset length padding_size
          else Checked.ret (some (padding_offset, length, padding_size))

/-- The `for` loop of the VBR branch with checked reads. -/
def vbrLoopChecked (data : List Byte) (length : Nat) :
    Nat → Nat → Nat → List Nat → Checked (Option (Nat × Nat × List Nat))
  | 0, offset, last_size, frame_sizes => Checked.ret (some (offset, last_size, frame_sizes))
  | n + 1, offset, last_size, frame_sizes =>
    if offset ≥ length then Checked.ret none
    else
      (parseFrameSizeEncodingChecked (data.drop offset) (length - offset)).bind fun r =>
        match r with
        | none => Checked.ret none
        | some (frame_size, bytes_read) =>
          if frame_size > length - offset then Checked.ret none
          else if frame_size > 1275 then Checked.ret none
          else
            vbrLoopChecked data length n (offset + bytes_read)
              (u32 (subSize last_size (bytes_read + frame_size)))
              (frame_sizes ++ [frame_size])

/-- The boundary search of the CBR branch with checked reads; the `&&` of its test
reads `data[try_size]` only after `try_size + 1 < original_length`, and
`data[try_size + 1]` only after `data[try_size]` matched. -/
def searchLoopChecked (data : List Byte)
    (current_toc current_frame_count_byte max_packet_size original_length : Nat) :
    Nat → Nat → Checked Nat
  | 0, _ => Checked.ret 0
  | n + 1, try_size =>
    if try_size ≤ max_packet_size ∧ try_size < original_length then
      if try_size + 1 < original_length then
        (readAt data try_size).bind fun a =>
          if a = current_toc then
            (readAt data (try_size + 1)).bind fun b =>
              if b = current_frame_count_byte then Checked.ret try_size
              else
                searchLoopChecked data current_toc current_frame_count_byte max_packet_size
                  original_length n (try_size + 1)
          else
            searchLoopChecked data current_toc current_frame_count_byte max_packet_size
              original_length n (try_size + 1)
      else
        searchLoopChecked data current_toc current_frame_count_byte max_packet_size
          original_length n (try_size + 1)
    else Checked.ret 0

/-- The CBR branch of case 3 with checked reads. -/
def parseCbrChecked (data : List Byte) (offset length padding_size frame_count : Nat)
    (frame_info : OpusFrameInfo) : Checked (Option OpusFrameInfo) :=
  let min_packet_size := u32 (offset + frame_count * 10 + padding_size)
  let max_packet_size := u32 (offset + frame_count * 1275 + padding_size)
  let original_length := length + padding_size
  let finish (packet_size effective_data_size : Nat) : Option OpusFrameInfo :=
    let frame_size := effective_data_size / frame_count
    if u32 (frame_size * frame_count) ≠ effective_data_size then none
    else if frame_size > 1275 then none
    else some { frame_info with
      frame_sizes := List.replicate frame_count frame_size
      total_size := u32 packet_size
      data_offset := u32 offset }
  if original_length ≥ min_packet_size ∧ original_length ≤ max_packet_size then
    Checked.ret (finish original_length (u32 (length - offset)))
  else if original_length > max_packet_size then
    (readAt data 0).bind fun current_toc =>
      (readAt data 1).bind fun current_frame_count_byte =>
        (searchLoopChecked data current_toc current_frame_count_byte max_packet_size
          original_length (max_packet_size + 1 - min_packet_size) min_packet_size).bind
          fun packet_size =>
            if packet_size = 0 then Checked.ret none
            else
              Checked.ret
                (finish packet_size (u32 (subSize (subSize packet_size offset) padding_size)))
  else Checked.ret none

/-- The VBR branch of case 3 with checked reads. -/
def parseVbrChecked (data : List Byte) (offset length frame_count : Nat)
    (frame_info : OpusFrameInfo) : Checked (Option OpusFrameInfo) :=
  (vbrLoopChecked data length (frame_count - 1) offset (u32 (length - offset)) []).bind
    fun r =>
      match r with
      | none => Checked.ret none
      | some (offset, last_size, frame_sizes) =>
        if last_size > 1275 then Checked.ret none
        else Checked.ret (some { frame_info with
          frame_sizes := frame_sizes ++ [last_size]
          data_offset := u32 offset })

/-- The padding step of case 3 with checked reads. -/
def code3PaddingChecked (data : List Byte) (length offset : Nat) (has_padding : Bool) :
    Checked (Option (Nat × Nat × Nat)) :=
  if has_padding then paddingLoopChecked data length offset length 0
  else Checked.ret (some (offset, length, 0))

/-- Case 3 of the `switch` with checked reads. -/
def parseCode3Checked (data : List Byte) (length : Nat) (frame_info : OpusFrameInfo) :
    Checked (Option OpusFrameInfo) :=
  let offset := 1
  if offset ≥ length then Checked.ret none
  else
    (readAt data offset).bind fun frame_count_byte =>
      let offset := offset + 1
      let is_vbr := ((frame_count_byte >>> 7) &&& 0x01) != 0
      let has_padding := ((frame_count_byte >>> 6) &&& 0x01) != 0
      let frame_count := frame_count_byte &&& 0x3F
      if frame_count = 0 then Checked.ret none
      else
        let frame_info := { frame_info with
          is_cbr := !is_vbr
          has_padding := has_padding
          frame_count := frame_count }
        (code3PaddingChecked data length offset has_padding).bind fun r =>
          match r with
          | none => Checked.ret none
          | some (offset, length, padding_size) =>
            let frame_info :=
              if has_padding then { frame_info with padding_size := padding_size }
              else frame_info
            if is_vbr then parseVbrChecked data offset length frame_count frame_info
            else parseCbrChecked data offset length padding_size frame_count frame_info

/-- The function `parseOpusPacket` with checked reads. -/
def parseOpusPacketChecked (data : List Byte) (length : Nat) :
    Checked (Option OpusFrameInfo) :=
  if length < 1 then Checked.ret none
  else
    (readAt data 0).bind fun toc =>
      match parseTOC toc with
      | none => Checked.ret none
      | some (config, stereo, frame_count_code) =>
        match getConfigInfo config with
        | none => Checked.ret none
        | some (mode, bandwidth, frame_size) =>
          let frame_info :=
            headerInfo toc config stereo frame_count_code mode bandwidth frame_size
          match frame_count_code with
          | 0 => parseCode0Checked data length frame_info
          | 1 => parseCode1Checked data length frame_info
          | 2 => parseCode2Checked data length frame_info
          | 3 => parseCode3Checked data length frame_info
          | _ => Checked.ret none

/-! ## Example buffers -/

/-- A code-2 packet that is not self-delimited: TOC `0x02`, the one-byte length code
`1` of frame 1, one byte of frame 1, one byte of frame 2. -/
def code2Plain : List Byte := [0x02, 0x01, 0xAA, 0xBB]

/-- A VBR code-3 packet of three frames of 2, 3 and 3 bytes (count byte `0x83`). -/
def vbrThree : List Byte := [0x03, 0x83, 2, 3, 0, 0, 0, 0, 0, 0, 0, 0]

/-- A VBR code-3 packet of one frame of 5 bytes (count byte `0x81`). -/
def vbrOne : List Byte := [0x03, 0x81, 0, 0, 0, 0, 0]

/-- A CBR code-3 packet of four frames of 10 bytes (count byte `0x04`). -/
def cbrFour : List Byte := [0x03, 0x04] ++ List.replicate 40 0

/-- A CBR code-3 header announcing one frame, followed by 5 bytes only. -/
def cbrShort : List Byte := [0x03, 0x01, 0, 0, 0, 0, 0]

/-- A stream of CBR code-3 packets of two frames: the first packet has 22 payload
bytes, and the bytes `0x03 0x02` of the next packet stand at offset 24. -/
def cbrStream : List Byte :=
  [0x03, 0x02] ++ List.replicate 22 0 ++ [0x03, 0x02] ++ List.replicate 2600 0

/-- A stream as `cbrStream` in which the bytes `0x03 0x02` come back at offset 23,
after 21 payload bytes. -/
def cbrOddStream : List Byte :=
  [0x03, 0x02] ++ List.replicate 21 0 ++ [0x03, 0x02] ++ List.replicate 2600 0

/-- A buffer of `2^32 + 100` bytes that starts a VBR code-3 packet of one frame. -/
def vbrLong : List Byte := 0x03 :: 0x81 :: List.replicate 4294967394 0

/-- A buffer of `4311878621` bytes: TOC `0x03`, count byte `0x41` (CBR, padding, one
frame), a padding-length code of `16909320` bytes `0xFF` closed by `6` (a padding of
`2^32 - 10` bytes), then the bytes `0x03 0x41` again and zeros. -/
def cbrWrapped : List Byte :=
  0x03 :: 0x41 :: (List.replicate 16909320 0xFF ++
    0x06 :: 0x03 :: 0x41 :: List.replicate 4294969296 0)

/-- The record that `parseOpusPacket` writes on `vbrThree`. -/
def vbrThreeInfo : OpusFrameInfo :=
  { zeroFrameInfo with
    toc_byte := 3, frame_size := OpusFrameSize.FRAME_10_MS, frame_count_code := 3,
    frame_count := 3, frame_sizes := [2, 3, 3], data_offset := 4 }

/-- The record that `parseOpusPacket` writes on `cbrFour`. -/
def cbrFourInfo : OpusFrameInfo :=
  { zeroFrameInfo with
    toc_byte := 3, frame_size := OpusFrameSize.FRAME_10_MS, frame_count_code := 3,
    frame_count := 4, frame_sizes := [10, 10, 10, 10], total_size := 42, data_offset := 2,
    is_cbr := true }

/-- The record that `parseOpusPacket` writes on `cbrStream`. -/
def cbrStreamInfo : OpusFrameInfo :=
  { zeroFrameInfo with
    toc_byte := 3, frame_size := OpusFrameSize.FRAME_10_MS, frame_count_code := 3,
    frame_count := 2, frame_sizes := [11, 11], total_size := 24, data_offset := 2,
    is_cbr := true }

/-- A code-0 buffer of three bytes whose bytes after the TOC are not a frame-length
code followed by that many bytes. -/
def code0Plain : List Byte := [0x00, 0x02, 0x02]

/-- A code-0 buffer whose byte after the TOC is the frame-length code of size `0`. -/
def code0Zero : List Byte := [0x00, 0x00]

/-- A code-0 buffer whose bytes after the TOC are the frame-length code `2` and two
bytes of frame data. -/
def code0Self : List Byte := [0x00, 0x02, 0xAA, 0xBB]

/-- A code-1 buffer with three bytes after the TOC. -/
def code1Odd : List Byte := [0x01, 0x05, 0xAA, 0xBB]

/-- A code-1 buffer of the TOC byte alone. -/
def code1TocOnly : List Byte := [0x01]

/-- A code-1 buffer with four bytes after the TOC. -/
def code1Even : List Byte := [0x01, 0x05, 0xAA, 0xBB, 0xCC]

/-- A code-2 buffer of `2^32 + 8` bytes: TOC `0x02`, the frame-length code `1`, and
zeros. -/
def code2Long : List Byte := 0x02 :: 0x01 :: List.replicate 4294967302 0

/-- A CBR code-3 buffer whose count byte announces `49` frames, with `490` bytes of
frame data. -/
def cbrFortyNine : List Byte := [0x03, 49] ++ List.replicate 490 0

/-- A VBR code-3 buffer with one frame of three bytes and a padding-length code of
one byte `0xFF` closed by `2`, that is `256` bytes of padding. -/
def vbrPadded : List Byte := [0x03, 0xC1, 0xFF, 2, 9, 9, 9] ++ List.replicate 256 0

/-- A code-3 buffer with the padding flag set whose bytes after the count byte are all
`0xFF`. -/
def vbrUnterminated : List Byte := [0x03, 0xC1, 0xFF, 0xFF]

/-- The padding-length code of the two bytes `(255, 1)`. -/
def paddingCode255 : List Byte := [0xFF, 0x01]

/-- The one-byte buffer `[0x04]`. -/
def tocStereo : List Byte := [0x04]

/-- The record that `parseOpusPacket` writes on `tocStereo`. -/
def tocStereoInfo : OpusFrameInfo :=
  { zeroFrameInfo with
    toc_byte := 4, config := 0, stereo := true, frame_count_code := 0,
    mode := OpusMode.SILK_ONLY, bandwidth := OpusBandwidth.NB,
    frame_size := OpusFrameSize.FRAME_10_MS,
    frame_count := 1, frame_sizes := [0], total_size := 1, data_offset := 1 }

/-- A code-1 buffer of `2^32 + 1` bytes: TOC `0x01` and zeros. -/
def code1Long : List Byte := 0x01 :: List.replicate 4294967296 0

/-- Two self-delimited code-0 packets in a row, of 4 and 3 bytes. -/
def twoPackets : List Byte := [0x00, 0x02, 0xAA, 0xBB, 0x00, 0x01, 0xCC]

/-- A byte read is below 256. -/
theorem rd_lt (data : List Byte) (i : Nat) : rd data i < 256 := by
  unfold rd; exact (data.getD i 0).isLt

/-- The masks and shifts of the parser as remainders and quotients. -/
theorem and3_eq (x : Nat) : x &&& 3 = x % 4 := Nat.and_pow_two_sub_one_eq_mod x 2
theorem and63_eq (x : Nat) : x &&& 63 = x % 64 := Nat.and_pow_two_sub_one_eq_mod x 6
theorem and31_eq (x : Nat) : x &&& 31 = x % 32 := Nat.and_pow_two_sub_one_eq_mod x 5
theorem shr3_eq (x : Nat) : x >>> 3 = x / 8 := Nat.shiftRight_eq_div_pow x 3
theorem shr2_eq (x : Nat) : x >>> 2 = x / 4 := Nat.shiftRight_eq_div_pow x 2
theorem shr6_eq (x : Nat) : x >>> 6 = x / 64 := Nat.shiftRight_eq_div_pow x 6
theorem shr7_eq (x : Nat) : x >>> 7 = x / 128 := Nat.shiftRight_eq_div_pow x 7

/-- The configuration table answers for each of the 32 values of the 5-bit field. -/
theorem getConfigInfo_isSome : ∀ c, c < 32 → (getConfigInfo c).isSome = true := by
  decide

/-- The parser on a non-empty buffer: the case of the `switch` chosen by the low two
bits of the TOC byte, run on the header record. -/
theorem parseOpusPacket_eq (data : List Byte) (length : Nat) (h : 1 ≤ length) :
    ∃ m b f, getConfigInfo (rd data 0 / 8) = some (m, b, f) ∧
      parseOpusPacket data length =
        (if rd data 0 % 4 = 0 then
          parseCode0 data length
            (headerInfo (rd data 0) (rd data 0 / 8) (rd data 0 / 4 % 2 != 0) 0 m b f)
        else if rd data 0 % 4 = 1 then
          parseCode1 data length
            (headerInfo (rd data 0) (rd data 0 / 8) (rd data 0 / 4 % 2 != 0) 1 m b f)
        else if rd data 0 % 4 = 2 then
          parseCode2 data length
            (headerInfo (rd data 0) (rd data 0 / 8) (rd data 0 / 4 % 2 != 0) 2 m b f)
        else
          parseCode3 data length
            (headerInfo (rd data 0) (rd data 0 / 8) (rd data 0 / 4 % 2 != 0) 3 m b f)) := by
  have hlt := rd_lt data 0
  have hc : rd data 0 / 8 < 32 := by omega
  have hs := getConfigInfo_isSome _ hc
  obtain ⟨⟨m, b, f⟩, hmbf⟩ := Option.isSome_iff_exists.mp hs
  refine ⟨m, b, f, hmbf, ?_⟩
  have h31 : rd data 0 / 8 % 32 = rd data 0 / 8 := Nat.mod_eq_of_lt hc
  unfold parseOpusPacket parseTOC
  simp only [and3_eq, and31_eq, shr3_eq, shr2_eq, Nat.and_one_is_mod, h31, hmbf,
    show ¬ length < 1 from by omega, if_false]
  have h4 : rd data 0 % 4 < 4 := Nat.mod_lt _ (by decide)
  generalize rd data 0 % 4 = k at h4 ⊢
  interval_cases k <;> rfl

/-- A decoded frame-length code is at most 1275 and takes one or two of the available
bytes. -/
theorem parseFrameSizeEncoding_bound {data : List Byte} {length fs br : Nat}
    (h : parseFrameSizeEncoding data length = some (fs, br)) :
    fs ≤ 1275 ∧ 1 ≤ br ∧ br ≤ 2 ∧ br ≤ length := by
  have h0 := rd_lt data 0
  have h1 := rd_lt data 1
  unfold parseFrameSizeEncoding at h
  split_ifs at h <;> simp at h <;> omega

/-- Case 0: sizes are at most 1275 and `total_size` is not 0. -/
theorem parseCode0_facts {data : List Byte} {length : Nat} {fi info : OpusFrameInfo}
    (h : parseCode0 data length fi = some info) :
    (∀ s ∈ info.frame_sizes, s ≤ 1275) ∧ info.total_size ≠ 0 ∧
      info.frame_count_code = fi.frame_count_code := by
  unfold parseCode0 at h
  simp only at h
  rcases hfse : parseFrameSizeEncoding (data.drop 1) (length - 1) with _ | ⟨fs, br⟩
  · rw [hfse] at h
    simp only [u32] at h
    split_ifs at h <;> simp at h <;> subst h <;> (simp; try omega)
  · rw [hfse] at h
    have hb := parseFrameSizeEncoding_bound hfse
    simp only [u32] at h
    split_ifs at h <;> simp at h <;> subst h <;> simp <;> omega

/-- Case 1: sizes are at most 1275 and `total_size` is not 0. -/
theorem parseCode1_facts {data : List Byte} {length : Nat} {fi info : OpusFrameInfo}
    (h : parseCode1 data length fi = some info) :
    (∀ s ∈ info.frame_sizes, s ≤ 1275) ∧ info.total_size ≠ 0 ∧
      info.frame_count_code = fi.frame_count_code := by
  unfold parseCode1 at h
  simp only at h
  rcases hfse : parseFrameSizeEncoding (data.drop 1) (length - 1) with _ | ⟨fs, br⟩
  · rw [hfse] at h
    simp only [u32] at h
    split_ifs at h; simp at h; subst h; simp; omega
  · rw [hfse] at h
    have hb := parseFrameSizeEncoding_bound hfse
    simp only [u32] at h
    split_ifs at h <;> simp at h <;> subst h <;> simp <;> omega

/-- Case 2: sizes are at most 1275 and `total_size` is not 0. -/
theorem parseCode2_facts {data : List Byte} {length : Nat} {fi info : OpusFrameInfo}
    (h : parseCode2 data length fi = some info) :
    (∀ s ∈ info.frame_sizes, s ≤ 1275) ∧ info.total_size ≠ 0 ∧
      info.frame_count_code = fi.frame_count_code := by
  unfold parseCode2 at h
  simp only at h
  rcases hfse : parseFrameSizeEncoding (data.drop 1) (length - 1) with _ | ⟨f1, br⟩
  · rw [hfse] at h
    split_ifs at h
  · rw [hfse] at h
    have hb := parseFrameSizeEncoding_bound hfse
    simp only at h
    rcases hfse2 : parseFrameSizeEncoding (data.drop (1 + br)) (length - (1 + br))
      with _ | ⟨f2, br2⟩
    · rw [hfse2] at h
      simp only [u32] at h
      split_ifs at h <;> simp at h <;> subst h <;> simp <;> omega
    · rw [hfse2] at h
      have hb2 := parseFrameSizeEncoding_bound hfse2
      simp only [u32] at h
      split_ifs at h <;> simp at h <;> subst h <;> simp <;> omega

/-! ## The loops of case 3 -/

/-- What a successful run of the padding loop has read and computed. -/
theorem paddingLoop_spec (data : List Byte) :
    ∀ (fuel po len ps po' len' ps' : Nat),
      paddingLoop data fuel po len ps = some (po', len', ps') →
      po < po' ∧ po' ≤ len' ∧ rd data (po' - 1) < 255 ∧
      (∀ i, po ≤ i → i + 1 < po' → rd data i = 255) ∧
      len' + (254 * (po' - po - 1) + rd data (po' - 1)) = len ∧
      ps' = u32 (ps + (254 * (po' - po - 1) + rd data (po' - 1))) := by
  intro fuel
  induction fuel with
  | zero => intro po len ps po' len' ps' h; simp [paddingLoop] at h
  | succ fuel ih =>
    intro po len ps po' len' ps' h
    unfold paddingLoop at h
    simp only at h
    have hb := rd_lt data po
    by_cases hp : rd data po = 255
    · simp only [hp, if_true] at h
      split_ifs at h
      obtain ⟨h1, h2, h3, h4, h5, h6⟩ := ih _ _ _ _ _ _ h
      refine ⟨by omega, h2, h3, ?_, by omega, ?_⟩
      · intro i hi1 hi2
        rcases Nat.eq_or_lt_of_le hi1 with heq | hlt
        · rw [← heq]; exact hp
        · exact h4 i (by omega) hi2
      · rw [h6]; unfold u32; omega
    · simp only [hp, if_false] at h
      split_ifs at h
      simp only [Option.some.injEq, Prod.mk.injEq] at h
      obtain ⟨rfl, rfl, rfl⟩ := h
      refine ⟨by omega, by omega, ?_, ?_, ?_, ?_⟩
      · simp only [Nat.add_sub_cancel]; omega
      · intro i hi1 hi2; omega
      · simp only [Nat.add_sub_cancel]; omega
      · simp only [Nat.add_sub_cancel]
        have : po + 1 - po - 1 = 0 := by omega
        rw [this, Nat.mul_zero, Nat.zero_add]

/-- The padding loop on a run of `r` bytes `0xFF` closed by a byte `v < 255`. -/
theorem paddingLoop_run (data : List Byte) :
    ∀ (r fuel po len ps v : Nat),
      (∀ i, i < r → rd data (po + i) = 255) → rd data (po + r) = v → v < 255 →
      r < fuel → po + r + 1 + 254 * r + v ≤ len →
      paddingLoop data fuel po len ps =
        some (po + r + 1, len - (254 * r + v), u32 (ps + (254 * r + v))) := by
  intro r
  induction r with
  | zero =>
    intro fuel po len ps v _ hv hv255 hfuel hlen
    obtain ⟨fuel, rfl⟩ : ∃ f, fuel = f + 1 := ⟨fuel - 1, by omega⟩
    unfold paddingLoop
    simp only [Nat.add_zero] at hv
    have hne : ¬ rd data po = 255 := by omega
    simp only [hv, show ¬ v = 255 from by omega, if_false]
    rw [if_neg (by omega), if_neg (by omega)]
    simp
  | succ r ih =>
    intro fuel po len ps v hrun hv hv255 hfuel hlen
    obtain ⟨fuel, rfl⟩ : ∃ f, fuel = f + 1 := ⟨fuel - 1, by omega⟩
    unfold paddingLoop
    have h0 : rd data po = 255 := by simpa using hrun 0 (by omega)
    simp only [h0, if_true]
    rw [if_neg (by omega), if_neg (by omega)]
    rw [ih fuel (po + 1) (len - 254) (u32 (ps + 254)) v ?_ ?_ hv255 (by omega) (by omega)]
    · simp only [Option.some.injEq, Prod.mk.injEq]
      refine ⟨by omega, by omega, ?_⟩
      unfold u32; omega
    · intro i hi
      have := hrun (i + 1) (by omega)
      rwa [show po + (i + 1) = po + 1 + i from by omega] at this
    · rwa [show po + (r + 1) = po + 1 + r from by omega] at hv

/-- The boundary search: a non-zero result is the first matching candidate. -/
theorem searchLoop_found (data : List Byte) (toc fcb mx orig : Nat) :
    ∀ (n t0 : Nat), searchLoop data toc fcb mx orig n t0 ≠ 0 →
      t0 ≤ searchLoop data toc fcb mx orig n t0 ∧
      searchLoop data toc fcb mx orig n t0 < t0 + n ∧
      searchLoop data toc fcb mx orig n t0 ≤ mx ∧
      searchLoop data toc fcb mx orig n t0 + 1 < orig ∧
      rd data (searchLoop data toc fcb mx orig n t0) = toc ∧
      rd data (searchLoop data toc fcb mx orig n t0 + 1) = fcb ∧
      ∀ t, t0 ≤ t → t < searchLoop data toc fcb mx orig n t0 →
        ¬ (t + 1 < orig ∧ rd data t = toc ∧ rd data (t + 1) = fcb) := by
  intro n
  induction n with
  | zero => intro t0 h; simp [searchLoop] at h
  | succ n ih =>
    intro t0 h
    unfold searchLoop at h ⊢
    by_cases hc : t0 ≤ mx ∧ t0 < orig
    · simp only [hc, and_self, if_true] at h ⊢
      by_cases hm : t0 + 1 < orig ∧ rd data t0 = toc ∧ rd data (t0 + 1) = fcb
      · simp only [hm, and_self, if_true] at h ⊢
        refine ⟨le_refl _, by omega, hc.1, trivial, trivial, trivial, ?_⟩
        intro t h1 h2; omega
      · rw [if_neg hm] at h ⊢
        obtain ⟨h1, h2, h3, h4, h5, h6, h7⟩ := ih (t0 + 1) h
        refine ⟨by omega, by omega, h3, h4, h5, h6, ?_⟩
        intro t ht1 ht2
        rcases Nat.eq_or_lt_of_le ht1 with heq | hlt
        · rw [← heq]; exact hm
        · exact h7 t (by omega) ht2
    · rw [if_neg hc] at h
      exact absurd rfl h

/-- The boundary search: a zero result means that no candidate matched. -/
theorem searchLoop_none (data : List Byte) (toc fcb mx orig : Nat) :
    ∀ (n t0 : Nat), 0 < t0 → searchLoop data toc fcb mx orig n t0 = 0 →
      ∀ t, t0 ≤ t → t < t0 + n → t ≤ mx →
        ¬ (t + 1 < orig ∧ rd data t = toc ∧ rd data (t + 1) = fcb) := by
  intro n
  induction n with
  | zero => intro t0 _ _ t h1 h2; omega
  | succ n ih =>
    intro t0 hpos h t ht1 ht2 ht3
    unfold searchLoop at h
    by_cases hc : t0 ≤ mx ∧ t0 < orig
    · simp only [hc, and_self, if_true] at h
      by_cases hm : t0 + 1 < orig ∧ rd data t0 = toc ∧ rd data (t0 + 1) = fcb
      · simp only [hm, and_self, if_true] at h; omega
      · rw [if_neg hm] at h
        rcases Nat.eq_or_lt_of_le ht1 with heq | hlt
        · rw [← heq]; exact hm
        · exact ih (t0 + 1) (by omega) h t (by omega) (by omega) ht3
    · intro hmatch; omega

/-! ## The CBR branch -/

/-- Conversion to `uint32_t` is exact below `2^32`. -/
theorem u32_of_lt {n : Nat} (h : n < 4294967296) : u32 n = n := Nat.mod_eq_of_lt h

/-- A `uint32_t` is below `2^32`. -/
theorem u32_lt (n : Nat) : u32 n < 4294967296 := Nat.mod_lt _ (by decide)

/-- The divisibility test `frame_size * frame_count == effective_data_size`. -/
theorem div_mul_eq_iff_dvd (e c : Nat) : e / c * c = e ↔ c ∣ e :=
  ⟨fun h => Dvd.intro_left _ h, fun h => Nat.div_mul_cancel h⟩

/-- The CBR branch when the restored length lies in the plausible range and the
32-bit bounds do not wrap. -/
theorem parseCbr_in_range (data : List Byte) (offset lred P c : Nat) (fi : OpusFrameInfo)
    (hc : c ≠ 0) (hol : offset ≤ lred) (hmax : offset + c * 1275 + P < 4294967296)
    (hlo : offset + c * 10 + P ≤ lred + P) (hhi : lred + P ≤ offset + c * 1275 + P) :
    parseCbr data offset lred P c fi =
      if c ∣ (lred - offset) then
        some { fi with
          frame_sizes := List.replicate c ((lred - offset) / c)
          total_size := lred + P
          data_offset := offset }
      else none := by
  have hpos : 0 < c := Nat.pos_of_ne_zero hc
  have hfs : (lred - offset) / c ≤ 1275 := by
    apply Nat.div_le_of_le_mul; rw [Nat.mul_comm]; omega
  have hmul : (lred - offset) / c * c ≤ lred - offset := Nat.div_mul_le_self _ _
  unfold parseCbr
  simp only
  rw [u32_of_lt (show offset + c * 10 + P < 4294967296 by omega), u32_of_lt hmax,
    if_pos ⟨hlo, hhi⟩, u32_of_lt (show lred - offset < 4294967296 by omega),
    u32_of_lt (show (lred - offset) / c * c < 4294967296 by omega),
    u32_of_lt (show lred + P < 4294967296 by omega),
    u32_of_lt (show offset < 4294967296 by omega)]
  by_cases hd : c ∣ (lred - offset)
  · rw [if_pos hd, if_neg (by rw [ne_eq, not_not]; exact Nat.div_mul_cancel hd),
      if_neg (by omega)]
  · rw [if_neg hd, if_pos (by rw [ne_eq, div_mul_eq_iff_dvd]; exact hd)]

/-- The CBR branch when the restored length is below the plausible range. -/
theorem parseCbr_too_short (data : List Byte) (offset lred P c : Nat) (fi : OpusFrameInfo)
    (hmax : offset + c * 1275 + P < 4294967296)
    (hlo : lred + P < offset + c * 10 + P) :
    parseCbr data offset lred P c fi = none := by
  unfold parseCbr
  simp only
  rw [u32_of_lt (show offset + c * 10 + P < 4294967296 by omega), u32_of_lt hmax,
    if_neg (by omega), if_neg (by omega)]

/-- The wrapping subtractions of the boundary search are exact when nothing wraps. -/
theorem sub_wrap_eq {r offset P : Nat} (h1 : offset + P ≤ r) (h2 : r < 4294967296) :
    u32 (subSize (subSize r offset) P) = r - offset - P := by
  unfold u32 subSize; omega

/-- The CBR branch when the restored length exceeds the plausible range: the
boundary search decides. -/
theorem parseCbr_search (data : List Byte) (offset lred P c : Nat) (fi : OpusFrameInfo)
    (hc : c ≠ 0) (hmax : offset + c * 1275 + P < 4294967296)
    (hhi : offset + c * 1275 + P < lred + P) :
    parseCbr data offset lred P c fi =
      if searchLoop data (rd data 0) (rd data 1) (offset + c * 1275 + P) (lred + P)
          (c * 1265 + 1) (offset + c * 10 + P) = 0 then none
      else if c ∣ (searchLoop data (rd data 0) (rd data 1) (offset + c * 1275 + P) (lred + P)
          (c * 1265 + 1) (offset + c * 10 + P) - offset - P) then
        some { fi with
          frame_sizes := List.replicate c
            ((searchLoop data (rd data 0) (rd data 1) (offset + c * 1275 + P) (lred + P)
              (c * 1265 + 1) (offset + c * 10 + P) - offset - P) / c)
          total_size := searchLoop data (rd data 0) (rd data 1) (offset + c * 1275 + P)
            (lred + P) (c * 1265 + 1) (offset + c * 10 + P)
          data_offset := offset }
      else none := by
  have hpos : 0 < c := Nat.pos_of_ne_zero hc
  unfold parseCbr
  simp only
  rw [u32_of_lt (show offset + c * 10 + P < 4294967296 by omega), u32_of_lt hmax,
    if_neg (by omega), if_pos (by omega),
    show offset + c * 1275 + P + 1 - (offset + c * 10 + P) = c * 1265 + 1 by omega]
  have hf := searchLoop_found data (rd data 0) (rd data 1) (offset + c * 1275 + P)
      (lred + P) (c * 1265 + 1) (offset + c * 10 + P)
  generalize searchLoop data (rd data 0) (rd data 1) (offset + c * 1275 + P) (lred + P)
          (c * 1265 + 1) (offset + c * 10 + P) = r at hf ⊢
  by_cases h0 : r = 0
  · rw [if_pos h0, if_pos h0]
  · rw [if_neg h0, if_neg h0]
    obtain ⟨h1, h2, h3, -⟩ := hf h0
    have he : r - offset - P ≤ c * 1275 := by omega
    have hfs : (r - offset - P) / c ≤ 1275 := by
      apply Nat.div_le_of_le_mul; omega
    have hmul : (r - offset - P) / c * c ≤ r - offset - P := Nat.div_mul_le_self _ _
    rw [sub_wrap_eq (by omega) (by omega),
      u32_of_lt (show (r - offset - P) / c * c < 4294967296 by omega),
      u32_of_lt (show r < 4294967296 by omega),
      u32_of_lt (show offset < 4294967296 by omega)]
    by_cases hd : c ∣ (r - offset - P)
    · rw [if_pos hd, if_neg (by rw [ne_eq, not_not]; exact Nat.div_mul_cancel hd),
        if_neg (by omega)]
    · rw [if_neg hd, if_pos (by rw [ne_eq, div_mul_eq_iff_dvd]; exact hd)]

/-- What every success of the CBR branch satisfies, with or without 32-bit wrap. -/
theorem parseCbr_facts {data : List Byte} {offset lred P c : Nat} {fi info : OpusFrameInfo}
    (hl : 0 < lred) (h : parseCbr data offset lred P c fi = some info) :
    (∀ s ∈ info.frame_sizes, s ≤ 1275) ∧ info.total_size ≠ 0 ∧
      info.frame_count_code = fi.frame_count_code ∧ info.is_cbr = fi.is_cbr ∧
      info.frame_count = fi.frame_count ∧ info.padding_size = fi.padding_size ∧
      info.has_padding = fi.has_padding ∧ info.data_offset = u32 offset := by
  unfold parseCbr at h
  simp only at h
  have hmx := u32_lt (offset + c * 1275 + P)
  split_ifs at h with h1 h2 h3 h4 h5 h6 h7
  · simp only [Option.some.injEq] at h
    subst h
    refine ⟨?_, ?_, rfl, rfl, rfl, rfl, rfl, rfl⟩
    · intro s hs
      rw [List.mem_replicate] at hs
      omega
    · simp only [u32] at *; omega
  · have hf := searchLoop_found data (rd data 0) (rd data 1) (u32 (offset + c * 1275 + P))
      (lred + P) (u32 (offset + c * 1275 + P) + 1 - u32 (offset + c * 10 + P))
      (u32 (offset + c * 10 + P)) h5
    simp only [Option.some.injEq] at h
    subst h
    refine ⟨?_, ?_, rfl, rfl, rfl, rfl, rfl, rfl⟩
    · intro s hs
      rw [List.mem_replicate] at hs
      omega
    · show u32 _ ≠ 0
      rw [u32_of_lt (by omega)]
      exact h5

/-! ## The VBR branch and the padding step -/

/-- A sum of sizes bounded by `b` is at most `b` times their number. -/
theorem sum_le_of_forall_le (l : List Nat) (b : Nat) (h : ∀ s ∈ l, s ≤ b) :
    l.sum ≤ b * l.length := by
  induction l with
  | nil => simp
  | cons a t ih =>
    have h1 : a ≤ b := h a (List.mem_cons_self _ _)
    have h2 := ih (fun s hs => h s (List.mem_cons_of_mem _ hs))
    simp only [List.sum_cons, List.length_cons, Nat.mul_succ]
    omega

/-- What a completed run of the VBR loop has decoded: the announced sizes are those
of the consecutive frame-length codes, and `last_size` has lost, modulo `2^32`, the
code bytes and the announced sizes. -/
theorem vbrLoop_spec (data : List Byte) (length : Nat) :
    ∀ (n offset last : Nat) (acc : List Nat) (offset' last' : Nat) (sizes' : List Nat),
      vbrLoop data length n offset last acc = some (offset', last', sizes') →
      ∃ sizes, frameLengthCodes data length n offset = some (sizes, offset') ∧
        sizes' = acc ++ sizes ∧ sizes.length = n ∧ (∀ s ∈ sizes, s ≤ 1275) ∧
        offset ≤ offset' ∧ offset' ≤ offset + 2 * n ∧
        (0 < n → offset' ≤ length) ∧
        u32 (last' + (offset' - offset) + sizes.sum) = u32 last ∧
        (last < 4294967296 → last' < 4294967296) := by
  intro n
  induction n with
  | zero =>
    intro offset last acc offset' last' sizes' h
    simp only [vbrLoop, Option.some.injEq, Prod.mk.injEq] at h
    obtain ⟨rfl, rfl, rfl⟩ := h
    exact ⟨[], by simp [frameLengthCodes]⟩
  | succ n ih =>
    intro offset last acc offset' last' sizes' h
    unfold vbrLoop at h
    rcases hfse : parseFrameSizeEncoding (data.drop offset) (length - offset)
      with _ | ⟨fs, br⟩
    · rw [hfse] at h
      split_ifs at h
    · rw [hfse] at h
      have hb := parseFrameSizeEncoding_bound hfse
      simp only at h
      split_ifs at h with h1 h2 h3
      obtain ⟨sizes, e1, e2, e3, e4, e5, e6, e7, e8, e9⟩ := ih _ _ _ _ _ _ h
      refine ⟨fs :: sizes, ?_, ?_, ?_, ?_, by omega, by omega, ?_, ?_, ?_⟩
      · simp only [frameLengthCodes, hfse, e1]
      · rw [e2]; simp
      · simp [e3]
      · intro s hs
        rcases List.mem_cons.mp hs with rfl | hs
        · omega
        · exact e4 s hs
      · intro _
        rcases Nat.eq_zero_or_pos n with hn | hn
        · subst hn; omega
        · exact e7 hn
      · simp only [List.sum_cons]
        unfold u32 subSize at e8
        unfold u32
        omega
      · intro _
        exact e9 (u32_lt _)

/-- What every success of the VBR branch satisfies. -/
theorem parseVbr_facts {data : List Byte} {offset lred c : Nat} {fi info : OpusFrameInfo}
    (h : parseVbr data offset lred c fi = some info) :
    (∀ s ∈ info.frame_sizes, s ≤ 1275) ∧ info.total_size = fi.total_size ∧
      info.frame_count_code = fi.frame_count_code ∧ info.is_cbr = fi.is_cbr ∧
      info.frame_count = fi.frame_count ∧ info.padding_size = fi.padding_size ∧
      info.has_padding = fi.has_padding := by
  unfold parseVbr at h
  rcases hv : vbrLoop data lred (c - 1) offset (u32 (lred - offset)) [] with _ | ⟨o', last, sizes⟩
  · rw [hv] at h; simp at h
  · rw [hv] at h
    simp only at h
    split_ifs at h with h1
    simp only [Option.some.injEq] at h
    subst h
    obtain ⟨sz, -, e2, -, e4, -⟩ := vbrLoop_spec _ _ _ _ _ _ _ _ _ hv
    refine ⟨?_, rfl, rfl, rfl, rfl, rfl, rfl⟩
    intro s hs
    simp only [e2, List.nil_append, List.mem_append, List.mem_singleton] at hs
    rcases hs with hs | rfl
    · exact e4 s hs
    · omega

/-- What the padding step of case 3 returns: the run of `0xFF` bytes it has crossed,
and the padding total `X` that it removed from the length. -/
theorem code3Padding_spec {data : List Byte} {length offset lred P : Nat} {hp : Bool}
    (hl : 1 < length) (h : code3Padding data length 2 hp = some (offset, lred, P)) :
    2 ≤ offset ∧ offset ≤ lred ∧ (∀ i, 2 ≤ i → i + 1 < offset → rd data i = 255) ∧
      (hp = false → offset = 2 ∧ P = 0) ∧
      ∃ X, lred + X = length ∧ P = u32 X ∧ 254 * (offset - 3) ≤ X ∧
        X ≤ 254 * (offset - 3) + 254 := by
  unfold code3Padding at h
  cases hp with
  | false =>
    simp only [Bool.false_eq_true, if_false, Option.some.injEq, Prod.mk.injEq] at h
    obtain ⟨rfl, rfl, rfl⟩ := h
    refine ⟨le_refl _, by omega, fun i h1 h2 => by omega, fun _ => ⟨rfl, rfl⟩, 0, ?_⟩
    simp [u32]
  | true =>
    simp only [if_true] at h
    obtain ⟨h1, h2, h3, h4, h5, h6⟩ := paddingLoop_spec _ _ _ _ _ _ _ _ h
    refine ⟨by omega, h2, h4, fun hf => by simp at hf,
      254 * (offset - 2 - 1) + rd data (offset - 1), h5, ?_, ?_, ?_⟩
    · rw [h6, Nat.zero_add]
    · have : offset - 2 - 1 = offset - 3 := by omega
      rw [this]; omega
    · have : offset - 2 - 1 = offset - 3 := by omega
      rw [this]; omega

/-! ## Case 3 as a whole -/

/-- Case 3 once the frame-count byte and the padding are read. -/
theorem parseCode3_eq (data : List Byte) (length : Nat) (fi : OpusFrameInfo)
    (offset lred P : Nat) (hl : 1 < length) (hc : rd data 1 % 64 ≠ 0)
    (hfi : fi.padding_size = 0)
    (hpad : code3Padding data length 2 (rd data 1 / 64 % 2 != 0) = some (offset, lred, P)) :
    parseCode3 data length fi =
      if (rd data 1 / 128 % 2 != 0) = true then
        parseVbr data offset lred (rd data 1 % 64)
          { fi with
            is_cbr := !(rd data 1 / 128 % 2 != 0)
            has_padding := (rd data 1 / 64 % 2 != 0)
            frame_count := rd data 1 % 64
            padding_size := P }
      else
        parseCbr data offset lred P (rd data 1 % 64)
          { fi with
            is_cbr := !(rd data 1 / 128 % 2 != 0)
            has_padding := (rd data 1 / 64 % 2 != 0)
            frame_count := rd data 1 % 64
            padding_size := P } := by
  unfold parseCode3
  simp only [shr7_eq, shr6_eq, Nat.and_one_is_mod, and63_eq, Nat.reduceAdd]
  rw [if_neg (by omega), if_neg hc, hpad]
  simp only
  cases hp : (rd data 1 / 64 % 2 != 0) with
  | true => simp only [if_true]
  | false =>
    rw [hp] at hpad
    simp only [code3Padding, Bool.false_eq_true, if_false, Option.some.injEq,
      Prod.mk.injEq] at hpad
    obtain ⟨-, -, rfl⟩ := hpad
    simp only [Bool.false_eq_true, if_false]
    cases fi
    simp only at hfi
    subst hfi
    rfl

/-- Case 3 fails when the padding decoder fails. -/
theorem parseCode3_padding_none (data : List Byte) (length : Nat) (fi : OpusFrameInfo)
    (hpad : code3Padding data length 2 (rd data 1 / 64 % 2 != 0) = none) :
    parseCode3 data length fi = none := by
  unfold parseCode3
  simp only [shr7_eq, shr6_eq, Nat.and_one_is_mod, and63_eq, Nat.reduceAdd]
  by_cases h1 : 1 ≥ length
  · rw [if_pos h1]
  · by_cases h2 : rd data 1 % 64 = 0
    · rw [if_neg h1, if_pos h2]
    · rw [if_neg h1, if_neg h2, hpad]

/-- What every success of case 3 went through. -/
theorem parseCode3_inv {data : List Byte} {length : Nat} {fi info : OpusFrameInfo}
    (h : parseCode3 data length fi = some info) :
    1 < length ∧ rd data 1 % 64 ≠ 0 ∧
      ∃ offset lred P,
        code3Padding data length 2 (rd data 1 / 64 % 2 != 0) = some (offset, lred, P) := by
  have hl : 1 < length := by
    by_contra hl
    unfold parseCode3 at h
    simp only at h
    rw [if_pos (by omega)] at h
    exact absurd h (by simp)
  have hc : rd data 1 % 64 ≠ 0 := by
    intro hc
    unfold parseCode3 at h
    simp only [and63_eq, Nat.reduceAdd] at h
    rw [if_neg (by omega), if_pos hc] at h
    exact absurd h (by simp)
  refine ⟨hl, hc, ?_⟩
  rcases hpad : code3Padding data length 2 (rd data 1 / 64 % 2 != 0) with _ | ⟨o, l, P⟩
  · rw [parseCode3_padding_none data length fi hpad] at h
    exact absurd h (by simp)
  · exact ⟨o, l, P, rfl⟩

/-- An accepted buffer is not empty. -/
theorem parseOpusPacket_length_pos {data : List Byte} {length : Nat} {info : OpusFrameInfo}
    (h : parseOpusPacket data length = some info) : 1 ≤ length := by
  by_contra hl
  unfold parseOpusPacket at h
  rw [if_pos (by omega)] at h
  exact absurd h (by simp)

/-- Everything that holds of a success of case 3 whatever the length. -/
theorem parseCode3_facts {data : List Byte} {length : Nat} {fi info : OpusFrameInfo}
    (hfi : fi.padding_size = 0) (hft : fi.total_size = 0)
    (h : parseCode3 data length fi = some info) :
    (∀ s ∈ info.frame_sizes, s ≤ 1275) ∧
      info.frame_count_code = fi.frame_count_code ∧
      info.is_cbr = (!(rd data 1 / 128 % 2 != 0)) ∧
      (info.total_size = 0 ↔ info.is_cbr = false) := by
  obtain ⟨hl, hc, offset, lred, P, hpad⟩ := parseCode3_inv h
  rw [parseCode3_eq data length fi offset lred P hl hc hfi hpad] at h
  obtain ⟨ho2, hol, -⟩ := code3Padding_spec hl hpad
  cases hv : (rd data 1 / 128 % 2 != 0) with
  | true =>
    rw [hv] at h
    simp only [if_true] at h
    obtain ⟨f1, f2, f3, f4, -⟩ := parseVbr_facts h
    refine ⟨f1, f3, ?_, ?_⟩
    · rw [f4]
    · rw [f2, f4]; simp [hft]
  | false =>
    rw [hv] at h
    simp only [Bool.false_eq_true, if_false] at h
    obtain ⟨f1, f2, f3, f4, -⟩ := parseCbr_facts (by omega) h
    refine ⟨f1, f3, ?_, ?_⟩
    · rw [f4]
    · rw [f4]; simp [f2]

/-- A read past the end of the list gives the default 0. -/
theorem rd_of_length_le {data : List Byte} {i : Nat} (h : data.length ≤ i) : rd data i = 0 := by
  unfold rd
  rw [List.getD_eq_default _ _ h]
  rfl

/-- A code-3 buffer whose count byte has the VBR bit clear and a non-zero count is
decoded by the CBR branch, on the record written so far. -/
theorem parseOpusPacket_cbr (data : List Byte) (length offset lred P : Nat)
    (hl : 1 < length) (hcode : rd data 0 % 4 = 3) (hcbr : rd data 1 / 128 % 2 = 0)
    (hcount : rd data 1 % 64 ≠ 0)
    (hpad : code3Padding data length 2 (rd data 1 / 64 % 2 != 0) = some (offset, lred, P)) :
    ∃ fi : OpusFrameInfo, fi.frame_count = rd data 1 % 64 ∧ fi.padding_size = P ∧
      fi.is_cbr = true ∧ fi.frame_count_code = 3 ∧ fi.is_self_delimiting = false ∧
      fi.has_padding = (rd data 1 / 64 % 2 != 0) ∧
      parseOpusPacket data length = parseCbr data offset lred P (rd data 1 % 64) fi := by
  obtain ⟨m, b, f, -, heq⟩ := parseOpusPacket_eq data length (by omega)
  rw [if_neg (by omega), if_neg (by omega), if_neg (by omega)] at heq
  rw [parseCode3_eq data length _ offset lred P hl hcount rfl hpad] at heq
  have hv : (rd data 1 / 128 % 2 != 0) = false := by simp [hcbr]
  rw [hv] at heq
  simp only [Bool.false_eq_true, if_false] at heq
  exact ⟨_, rfl, rfl, rfl, rfl, rfl, rfl, heq⟩

/-- A code-3 buffer whose count byte has the VBR bit set and a non-zero count is
decoded by the VBR branch, on the record written so far. -/
theorem parseOpusPacket_vbr (data : List Byte) (length offset lred P : Nat)
    (hl : 1 < length) (hcode : rd data 0 % 4 = 3) (hvbr : rd data 1 / 128 % 2 = 1)
    (hcount : rd data 1 % 64 ≠ 0)
    (hpad : code3Padding data length 2 (rd data 1 / 64 % 2 != 0) = some (offset, lred, P)) :
    ∃ fi : OpusFrameInfo, fi.frame_count = rd data 1 % 64 ∧ fi.padding_size = P ∧
      fi.is_cbr = false ∧ fi.frame_count_code = 3 ∧ fi.total_size = 0 ∧
      fi.is_self_delimiting = false ∧ fi.has_padding = (rd data 1 / 64 % 2 != 0) ∧
      parseOpusPacket data length = parseVbr data offset lred (rd data 1 % 64) fi := by
  obtain ⟨m, b, f, -, heq⟩ := parseOpusPacket_eq data length (by omega)
  rw [if_neg (by omega), if_neg (by omega), if_neg (by omega)] at heq
  rw [parseCode3_eq data length _ offset lred P hl hcount rfl hpad] at heq
  have hv : (rd data 1 / 128 % 2 != 0) = true := by simp [hvbr]
  rw [hv] at heq
  simp only [if_true] at heq
  exact ⟨_, rfl, rfl, rfl, rfl, rfl, rfl, rfl, heq⟩

/-- A code-3 buffer is rejected when it has no count byte, a zero count, or a padding
run that the decoder rejects. -/
theorem parseOpusPacket_code3_inv {data : List Byte} {length : Nat} {info : OpusFrameInfo}
    (hcode : rd data 0 % 4 = 3) (h : parseOpusPacket data length = some info) :
    1 < length ∧ rd data 1 % 64 ≠ 0 ∧
      ∃ offset lred P,
        code3Padding data length 2 (rd data 1 / 64 % 2 != 0) = some (offset, lred, P) := by
  obtain ⟨m, b, f, -, heq⟩ := parseOpusPacket_eq data length (parseOpusPacket_length_pos h)
  rw [if_neg (by omega), if_neg (by omega), if_neg (by omega)] at heq
  rw [heq] at h
  exact parseCode3_inv h

/-! ## Buffers shorter than `2^32` bytes -/

/-- In a buffer shorter than `2^32` bytes the padding total is exact and the length
that the padding step leaves, plus the padding, is the buffer length. -/
theorem code3Padding_exact {data : List Byte} {length offset lred P : Nat} {hp : Bool}
    (hl : 1 < length) (hlen : length < 4294967296)
    (h : code3Padding data length 2 hp = some (offset, lred, P)) :
    2 ≤ offset ∧ offset ≤ lred ∧ lred + P = length ∧ P ≤ 254 * (offset - 3) + 254 ∧
      (∀ i, 2 ≤ i → i + 1 < offset → rd data i = 255) := by
  obtain ⟨h1, h2, h3, -, X, h5, h6, -, h8⟩ := code3Padding_spec hl h
  have hX : u32 X = X := u32_of_lt (by omega)
  rw [hX] at h6
  subst h6
  exact ⟨h1, h2, h5, h8, h3⟩

/-- The CBR branch rejects every buffer shorter than `2^32` bytes whose plausible
maximum does not fit 32 bits: the wrapped search range lies inside the padding run,
where no byte can equal a CBR count byte. -/
theorem parseCbr_wrapped_none (data : List Byte) (offset lred P c : Nat) (fi : OpusFrameInfo)
    (hc : c < 64) (hol : offset ≤ lred) (hlen : lred + P < 4294967296)
    (hP : P ≤ 254 * (offset - 3) + 254)
    (hrun : ∀ i, 2 ≤ i → i + 1 < offset → rd data i = 255)
    (hcbr : rd data 1 / 128 % 2 = 0)
    (hwrap : 4294967296 ≤ offset + c * 1275 + P) :
    parseCbr data offset lred P c fi = none := by
  have hmx : u32 (offset + c * 1275 + P) = offset + c * 1275 + P - 4294967296 := by
    unfold u32; omega
  have hmn := u32_lt (offset + c * 10 + P)
  unfold parseCbr
  simp only
  rw [hmx, if_neg (by omega), if_pos (by omega)]
  have hf := searchLoop_found data (rd data 0) (rd data 1)
    (offset + c * 1275 + P - 4294967296) (lred + P)
    (offset + c * 1275 + P - 4294967296 + 1 - u32 (offset + c * 10 + P))
    (u32 (offset + c * 10 + P))
  generalize searchLoop data (rd data 0) (rd data 1)
    (offset + c * 1275 + P - 4294967296) (lred + P)
    (offset + c * 1275 + P - 4294967296 + 1 - u32 (offset + c * 10 + P))
    (u32 (offset + c * 10 + P)) = r at hf
  by_cases h0 : r = 0
  · rw [if_pos h0]
  · obtain ⟨-, -, f3, -, -, f6, -⟩ := hf h0
    have h255 := hrun (r + 1) (by omega) (by omega)
    have hb := rd_lt data 1
    omega

/-- What an accepted VBR code-3 buffer shorter than `2^32` bytes reports. -/
theorem parseVbr_spec {data : List Byte} {offset lred c : Nat} {fi info : OpusFrameInfo}
    (hc : c < 64) (hol : offset ≤ lred) (hlen : lred < 4294967296)
    (h : parseVbr data offset lred c fi = some info) :
    ∃ sizes, frameLengthCodes data lred (c - 1) offset = some (sizes, info.data_offset) ∧
      sizes.length = c - 1 ∧
      info.data_offset + sizes.sum ≤ lred ∧
      info.frame_sizes = sizes ++ [lred - info.data_offset - sizes.sum] ∧
      (∀ s ∈ info.frame_sizes, s ≤ 1275) ∧
      info.frame_count = fi.frame_count ∧ info.padding_size = fi.padding_size := by
  have hfacts := parseVbr_facts h
  unfold parseVbr at h
  rcases hv : vbrLoop data lred (c - 1) offset (u32 (lred - offset)) [] with _ | ⟨o', last, sz⟩
  · rw [hv] at h; simp at h
  · rw [hv] at h
    simp only at h
    split_ifs at h with h1
    simp only [Option.some.injEq] at h
    obtain ⟨sizes, e1, e2, e3, e4, e5, e6, e7, e8, -⟩ := vbrLoop_spec _ _ _ _ _ _ _ _ _ hv
    have hsum := sum_le_of_forall_le sizes 1275 e4
    rw [e3] at hsum
    have hcong : last + o' + sizes.sum = lred := by
      unfold u32 at e8
      omega
    have ho : u32 o' = o' := u32_of_lt (by omega)
    subst h
    refine ⟨sizes, ?_, e3, ?_, ?_, hfacts.1, rfl, rfl⟩
    · show frameLengthCodes data lred (c - 1) offset = some (sizes, u32 o')
      rw [ho]; exact e1
    · show u32 o' + sizes.sum ≤ lred
      rw [ho]; omega
    · show sz ++ [last] = sizes ++ [lred - u32 o' - sizes.sum]
      have : lred - o' - sizes.sum = last := by omega
      rw [ho, e2, List.nil_append, this]

/-! ## Two buffers longer than `2^32` bytes -/

/-- Reads past the first two bytes. -/
theorem rd_cons_cons (a b : Byte) (l : List Byte) (i : Nat) :
    rd (a :: b :: l) (2 + i) = rd l i := by
  unfold rd
  rw [show 2 + i = (i + 1) + 1 by omega, List.getD_cons_succ, List.getD_cons_succ]

/-- Reads inside a run of equal bytes. -/
theorem rd_replicate_append_left (r : Nat) (x : Byte) (t : List Byte) (i : Nat) (hi : i < r) :
    rd (List.replicate r x ++ t) i = x.val := by
  unfold rd
  rw [List.getD_eq_getElem?_getD, List.getElem?_append_left (by simpa using hi)]
  simp [List.getElem?_replicate, hi]

/-- Reads after a run of equal bytes. -/
theorem rd_replicate_append_right (r : Nat) (x : Byte) (t : List Byte) (j : Nat) :
    rd (List.replicate r x ++ t) (r + j) = rd t j := by
  unfold rd
  rw [List.getD_eq_getElem?_getD, List.getD_eq_getElem?_getD,
    List.getElem?_append_right (by simp)]
  simp

/-- The CBR packet with a padding total of `2^32 - 10`, on any buffer that starts with
TOC `0x03`, count byte `0x41`, `16909320` bytes `0xFF` and the byte `6`, and repeats
the first two bytes right after. -/
theorem parseOpusPacket_wrapped_padding (data : List Byte)
    (h0 : rd data 0 = 3) (h1 : rd data 1 = 65)
    (hrun : ∀ i, i < 16909320 → rd data (2 + i) = 255)
    (hv : rd data (2 + 16909320) = 6)
    (ha : rd data 16909323 = 3) (hb : rd data (16909323 + 1) = 65)
    (hL : data.length = 4311878621) :
    code3Padding data data.length 2 (rd data 1 / 64 % 2 != 0) =
        some (16909323, 16911335, 4294967286) ∧
      ∃ info, parseOpusPacket data data.length = some info ∧
        info.total_size = 16909323 ∧ info.frame_sizes = [10] ∧
        info.data_offset = 16909323 ∧ info.padding_size = 4294967286 ∧
        info.frame_count = 1 := by
  have hpad : code3Padding data data.length 2 (rd data 1 / 64 % 2 != 0) =
      some (16909323, 16911335, 4294967286) := by
    have hp : (rd data 1 / 64 % 2 != 0) = true := by rw [h1]; decide
    unfold code3Padding
    rw [hp, if_pos rfl,
      paddingLoop_run data 16909320 data.length 2 data.length 0 6 hrun hv (by decide)
        (by omega) (by omega), hL]
    rfl
  refine ⟨hpad, ?_⟩
  obtain ⟨fi, e1, e2, -, -, -, -, heq⟩ := parseOpusPacket_cbr data data.length
    16909323 16911335 4294967286 (by omega) (by rw [h0]) (by rw [h1]) (by rw [h1]; decide) hpad
  have hc : rd data 1 % 64 = 1 := by rw [h1]
  rw [hc] at heq e1
  have hs : searchLoop data (rd data 0) (rd data 1) 16910588 4311878621 1266 16909323 =
      16909323 := by
    rw [show (1266 : Nat) = 1265 + 1 from rfl, searchLoop, if_pos (by decide),
      if_pos ⟨by decide, by rw [ha, h0], by rw [hb, h1]⟩]
  have hcbr : parseCbr data 16909323 16911335 4294967286 1 fi =
      some { fi with
        frame_sizes := List.replicate 1 10
        total_size := 16909323
        data_offset := 16909323 } := by
    unfold parseCbr
    simp only
    rw [show u32 (16909323 + 1 * 10 + 4294967286) = 16909323 from rfl,
      show u32 (16909323 + 1 * 1275 + 4294967286) = 16910588 from rfl,
      if_neg (by decide), if_pos (by decide),
      show 16910588 + 1 - 16909323 = 1266 from rfl,
      show 16911335 + 4294967286 = 4311878621 from rfl, hs, if_neg (by decide)]
    rfl
  rw [hcbr] at heq
  exact ⟨_, heq, rfl, rfl, rfl, e2, e1⟩

/-- The one-frame VBR packet without padding in a buffer of `2^32 + 100` bytes. -/
theorem parseOpusPacket_vbr_long (data : List Byte)
    (h0 : rd data 0 = 3) (h1 : rd data 1 = 129) (hL : data.length = 4294967396) :
    ∃ info, parseOpusPacket data data.length = some info ∧
      info.frame_sizes = [100 - 2] ∧ info.data_offset = 2 ∧ info.padding_size = 0 ∧
      info.frame_count = 1 := by
  have hpad : code3Padding data data.length 2 (rd data 1 / 64 % 2 != 0) =
      some (2, data.length, 0) := by
    rw [h1]; rfl
  obtain ⟨fi, e1, e2, -, -, -, -, -, heq⟩ := parseOpusPacket_vbr data data.length
    2 data.length 0 (by omega) (by rw [h0]) (by rw [h1]) (by rw [h1]; decide) hpad
  have hc : rd data 1 % 64 = 1 := by rw [h1]
  rw [hc] at heq e1
  have hv : parseVbr data 2 data.length 1 fi =
      some { fi with frame_sizes := [] ++ [98], data_offset := 2 } := by
    unfold parseVbr
    rw [hL]
    simp only [Nat.sub_self, vbrLoop]
    rw [show u32 (4294967396 - 2) = 98 from rfl, if_neg (by decide)]
    rfl
  rw [hv] at heq
  exact ⟨_, heq, rfl, rfl, e2, e1⟩

/-! ## The iteration bounds -/

/-- The iteration bound of `paddingLoop` is never reached: once it exceeds
`length - padding_offset`, more fuel does not change the result.  The caller passes
the buffer length. -/
theorem paddingLoop_fuel (data : List Byte) :
    ∀ (fuel po len ps : Nat), len - po < fuel →
      paddingLoop data (fuel + 1) po len ps = paddingLoop data fuel po len ps := by
  intro fuel
  induction fuel with
  | zero => intro po len ps h; omega
  | succ fuel ih =>
    intro po len ps h
    conv_lhs => rw [paddingLoop]
    conv_rhs => rw [paddingLoop]
    simp only
    split_ifs with h1 h2 h3 <;> first | exact ih _ _ _ (by omega) | rfl

/-- The padding step gives the same result with any larger iteration bound than the
buffer length that `code3Padding` passes. -/
theorem paddingLoop_fuel_add (data : List Byte) (length offset : Nat) (h : 0 < offset)
    (hl : 0 < length) :
    ∀ k, paddingLoop data (length + k) offset length 0 =
      paddingLoop data length offset length 0 := by
  intro k
  induction k with
  | zero => rfl
  | succ k ih =>
    rw [← ih, ← Nat.add_assoc]
    exact paddingLoop_fuel data (length + k) offset length 0 (by omega)

/-- The iteration bound of `searchLoop` is the number of candidates up to
`max_packet_size`: more fuel does not change the result. -/
theorem searchLoop_fuel (data : List Byte) (toc fcb mx orig : Nat) :
    ∀ (n t0 : Nat), mx + 1 - t0 ≤ n →
      searchLoop data toc fcb mx orig (n + 1) t0 = searchLoop data toc fcb mx orig n t0 := by
  intro n
  induction n with
  | zero =>
    intro t0 h
    rw [searchLoop, searchLoop, if_neg (by omega)]
  | succ n ih =>
    intro t0 h
    conv_lhs => rw [searchLoop]
    conv_rhs => rw [searchLoop]
    split_ifs with h1 h2
    · rfl
    · exact ih _ (by omega)
    · rfl

/-! ## The size invariant -/

/-- The size invariant in case 0. -/
theorem parseCode0_sum {data : List Byte} {length : Nat} {fi info : OpusFrameInfo}
    (hoff : fi.data_offset = 1) (hpadz : fi.padding_size = 0) (hlen : length < 4294967296)
    (h : parseCode0 data length fi = some info) :
    info.frame_sizes.sum + info.data_offset + info.padding_size = info.total_size := by
  unfold parseCode0 at h
  simp only at h
  rcases hfse : parseFrameSizeEncoding (data.drop 1) (length - 1) with _ | ⟨fs, br⟩
  · rw [hfse] at h
    simp only [u32] at h
    split_ifs at h <;> simp at h <;> subst h <;> (simp [hoff, hpadz]; try omega)
  · rw [hfse] at h
    simp only [u32] at h
    split_ifs at h <;> simp at h <;> subst h <;> simp [hoff, hpadz] <;> omega

/-- The size invariant in case 1. -/
theorem parseCode1_sum {data : List Byte} {length : Nat} {fi info : OpusFrameInfo}
    (hoff : fi.data_offset = 1) (hpadz : fi.padding_size = 0) (hlen : length < 4294967296)
    (h : parseCode1 data length fi = some info) :
    info.frame_sizes.sum + info.data_offset + info.padding_size = info.total_size := by
  unfold parseCode1 at h
  simp only at h
  rcases hfse : parseFrameSizeEncoding (data.drop 1) (length - 1) with _ | ⟨fs, br⟩
  · rw [hfse] at h
    simp only [u32] at h
    split_ifs at h; simp at h; subst h; simp [hoff, hpadz]; omega
  · rw [hfse] at h
    simp only [u32] at h
    split_ifs at h <;> simp at h <;> subst h <;> simp [hoff, hpadz] <;> omega

/-- Case 2: the self-delimited branch records the offset of the frame data, the
plain branch leaves `data_offset = 1` and misses the `bytes_read` bytes of the
frame-length code. -/
theorem parseCode2_sum {data : List Byte} {length : Nat} {fi info : OpusFrameInfo}
    (hoff : fi.data_offset = 1) (hpadz : fi.padding_size = 0) (hsd : fi.is_self_delimiting = false)
    (hlen : length < 4294967296)
    (h : parseCode2 data length fi = some info) :
    (info.is_self_delimiting = true ∧
        info.frame_sizes.sum + info.data_offset + info.padding_size = info.total_size) ∨
      (info.is_self_delimiting = false ∧ info.data_offset = 1 ∧
        ∃ fs br, parseFrameSizeEncoding (data.drop 1) (length - 1) = some (fs, br) ∧
          info.frame_sizes.sum + info.data_offset + br + info.padding_size =
            info.total_size) := by
  unfold parseCode2 at h
  simp only at h
  rcases hfse : parseFrameSizeEncoding (data.drop 1) (length - 1) with _ | ⟨f1, br⟩
  · rw [hfse] at h
    split_ifs at h
  · rw [hfse] at h
    have hb := parseFrameSizeEncoding_bound hfse
    simp only at h
    rcases hfse2 : parseFrameSizeEncoding (data.drop (1 + br)) (length - (1 + br))
      with _ | ⟨f2, br2⟩
    · rw [hfse2] at h
      simp only [u32] at h
      split_ifs at h <;> simp at h <;> subst h <;> right <;>
        refine ⟨hsd, hoff, f1, br, rfl, ?_⟩ <;> simp [hoff, hpadz] <;> omega
    · rw [hfse2] at h
      simp only [u32] at h
      split_ifs at h <;> simp at h <;> subst h
      · left; simp [hpadz]; omega
      all_goals
        right
        refine ⟨hsd, hoff, f1, br, rfl, ?_⟩
        simp [hoff, hpadz]
        omega

/-- The sum of `c` copies of `x`. -/
theorem sum_replicate_nat (c x : Nat) : (List.replicate c x).sum = c * x := by
  induction c with
  | zero => simp
  | succ c ih => rw [List.replicate_succ, List.sum_cons, ih, Nat.succ_mul]; omega

/-- The size invariant on the CBR branch, in a buffer shorter than `2^32` bytes. -/
theorem parseCbr_sum {data : List Byte} {offset lred P c : Nat} {fi info : OpusFrameInfo}
    (hc0 : c ≠ 0) (hc : c < 64) (hol : offset ≤ lred) (hlen : lred + P < 4294967296)
    (hP : P ≤ 254 * (offset - 3) + 254)
    (hrun : ∀ i, 2 ≤ i → i + 1 < offset → rd data i = 255)
    (hcbr : rd data 1 / 128 % 2 = 0) (hfp : fi.padding_size = P)
    (h : parseCbr data offset lred P c fi = some info) :
    info.frame_sizes.sum + info.data_offset + info.padding_size = info.total_size := by
  by_cases hw : offset + c * 1275 + P < 4294967296
  · by_cases hshort : lred + P < offset + c * 10 + P
    · rw [parseCbr_too_short data offset lred P c fi hw hshort] at h
      exact absurd h (by simp)
    · by_cases hbig : offset + c * 1275 + P < lred + P
      · rw [parseCbr_search data offset lred P c fi hc0 hw hbig] at h
        have hf := searchLoop_found data (rd data 0) (rd data 1) (offset + c * 1275 + P)
          (lred + P) (c * 1265 + 1) (offset + c * 10 + P)
        generalize searchLoop data (rd data 0) (rd data 1) (offset + c * 1275 + P)
          (lred + P) (c * 1265 + 1) (offset + c * 10 + P) = r at hf h
        split_ifs at h with h0 hd
        simp only [Option.some.injEq] at h
        subst h
        obtain ⟨f1, -⟩ := hf h0
        show (List.replicate c ((r - offset - P) / c)).sum + offset + fi.padding_size = r
        rw [sum_replicate_nat, Nat.mul_div_cancel' hd, hfp]
        omega
      · rw [parseCbr_in_range data offset lred P c fi hc0 hol hw (by omega) (by omega)] at h
        split_ifs at h with hd
        simp only [Option.some.injEq] at h
        subst h
        show (List.replicate c ((lred - offset) / c)).sum + offset + fi.padding_size = lred + P
        rw [sum_replicate_nat, Nat.mul_div_cancel' hd, hfp]
        omega
  · rw [parseCbr_wrapped_none data offset lred P c fi hc hol hlen hP hrun hcbr (by omega)] at h
    exact absurd h (by simp)

/-- The size invariant `sum(frame_sizes) + data_offset + padding_size = total_size`
on every accepted buffer shorter than `2^32` bytes: it fails to apply to VBR code-3
packets, whose `total_size` is 0, and it is broken by the plain code-2 packets, where
`data_offset` is 1 and the bytes of the first frame-length code are missing from the
sum; it holds of every other accepted packet. -/
theorem size_sum_of_accepted (data : List Byte) (info : OpusFrameInfo)
    (hlen : data.length < 4294967296)
    (hacc : parseOpusPacket data data.length = some info) :
    (info.frame_count_code = 3 ∧ info.is_cbr = false ∧ info.total_size = 0) ∨
      (info.frame_count_code = 2 ∧ info.is_self_delimiting = false ∧ info.data_offset = 1 ∧
        ∃ fs br, parseFrameSizeEncoding (data.drop 1) (data.length - 1) = some (fs, br) ∧
          info.frame_sizes.sum + info.data_offset + br + info.padding_size =
            info.total_size) ∨
      info.frame_sizes.sum + info.data_offset + info.padding_size = info.total_size := by
  obtain ⟨m, b, f, -, heq⟩ :=
    parseOpusPacket_eq data data.length (parseOpusPacket_length_pos hacc)
  have h4 : rd data 0 % 4 < 4 := Nat.mod_lt _ (by decide)
  by_cases h0 : rd data 0 % 4 = 0
  · rw [if_pos h0] at heq
    rw [heq] at hacc
    exact Or.inr (Or.inr (parseCode0_sum rfl rfl hlen hacc))
  · by_cases h1 : rd data 0 % 4 = 1
    · rw [if_neg h0, if_pos h1] at heq
      rw [heq] at hacc
      exact Or.inr (Or.inr (parseCode1_sum rfl rfl hlen hacc))
    · by_cases h2 : rd data 0 % 4 = 2
      · rw [if_neg h0, if_neg h1, if_pos h2] at heq
        rw [heq] at hacc
        have hcode := (parseCode2_facts hacc).2.2
        rcases parseCode2_sum rfl rfl rfl hlen hacc with ⟨-, hs⟩ | ⟨a1, a2, a3⟩
        · exact Or.inr (Or.inr hs)
        · exact Or.inr (Or.inl ⟨hcode, a1, a2, a3⟩)
      · have h3 : rd data 0 % 4 = 3 := by omega
        obtain ⟨hl, hcount, offset, lred, P, hpad⟩ := parseOpusPacket_code3_inv h3 hacc
        obtain ⟨ho2, hol, hLP, hP, hrun⟩ := code3Padding_exact hl hlen hpad
        have hc63 : rd data 1 % 64 < 64 := Nat.mod_lt _ (by decide)
        have hv2 : rd data 1 / 128 % 2 < 2 := Nat.mod_lt _ (by decide)
        by_cases hv : rd data 1 / 128 % 2 = 0
        · obtain ⟨fi, e1, e2, -, -, -, -, heq2⟩ := parseOpusPacket_cbr data data.length
            offset lred P hl h3 hv hcount hpad
          rw [heq2] at hacc
          exact Or.inr (Or.inr (parseCbr_sum hcount hc63 hol (by omega) hP hrun hv e2 hacc))
        · obtain ⟨fi, e1, e2, e3, e4, e5, -, -, heq2⟩ := parseOpusPacket_vbr data data.length
            offset lred P hl h3 (by omega) hcount hpad
          rw [heq2] at hacc
          obtain ⟨-, f2, f3, f4, -⟩ := parseVbr_facts hacc
          exact Or.inl ⟨by rw [f3, e4], by rw [f4, e3], by rw [f2, e5]⟩

/-- The length of `cbrStream`. -/
theorem cbrStream_length : cbrStream.length = 2626 := by
  unfold cbrStream
  rw [List.length_append, List.length_append, List.length_append, List.length_replicate,
    List.length_replicate]
  rfl

/-- The length of `cbrOddStream`. -/
theorem cbrOddStream_length : cbrOddStream.length = 2625 := by
  unfold cbrOddStream
  rw [List.length_append, List.length_append, List.length_append, List.length_replicate,
    List.length_replicate]
  rfl

/-! ## The header fields -/

/-- Case 0 keeps the fields written from the TOC byte. -/
theorem parseCode0_header {data : List Byte} {length : Nat} {fi info : OpusFrameInfo}
    (h : parseCode0 data length fi = some info) :
    info.toc_byte = fi.toc_byte ∧ info.config = fi.config ∧ info.stereo = fi.stereo ∧
      info.mode = fi.mode ∧ info.bandwidth = fi.bandwidth ∧
      info.frame_size = fi.frame_size := by
  unfold parseCode0 at h
  simp only at h
  rcases hfse : parseFrameSizeEncoding (data.drop 1) (length - 1) with _ | ⟨fs, br⟩
  · rw [hfse] at h
    split_ifs at h <;> simp at h <;> subst h <;> simp
  · rw [hfse] at h
    simp only at h
    split_ifs at h <;> simp at h <;> subst h <;> simp

/-- Case 1 keeps the fields written from the TOC byte. -/
theorem parseCode1_header {data : List Byte} {length : Nat} {fi info : OpusFrameInfo}
    (h : parseCode1 data length fi = some info) :
    info.toc_byte = fi.toc_byte ∧ info.config = fi.config ∧ info.stereo = fi.stereo ∧
      info.mode = fi.mode ∧ info.bandwidth = fi.bandwidth ∧
      info.frame_size = fi.frame_size := by
  unfold parseCode1 at h
  simp only at h
  rcases hfse : parseFrameSizeEncoding (data.drop 1) (length - 1) with _ | ⟨fs, br⟩
  · rw [hfse] at h
    split_ifs at h; simp at h; subst h; simp
  · rw [hfse] at h
    simp only at h
    split_ifs at h <;> simp at h <;> subst h <;> simp

/-- Case 2 keeps the fields written from the TOC byte. -/
theorem parseCode2_header {data : List Byte} {length : Nat} {fi info : OpusFrameInfo}
    (h : parseCode2 data length fi = some info) :
    info.toc_byte = fi.toc_byte ∧ info.config = fi.config ∧ info.stereo = fi.stereo ∧
      info.mode = fi.mode ∧ info.bandwidth = fi.bandwidth ∧
      info.frame_size = fi.frame_size := by
  unfold parseCode2 at h
  simp only at h
  rcases hfse : parseFrameSizeEncoding (data.drop 1) (length - 1) with _ | ⟨f1, br⟩
  · rw [hfse] at h
    split_ifs at h
  · rw [hfse] at h
    simp only at h
    rcases hfse2 : parseFrameSizeEncoding (data.drop (1 + br)) (length - (1 + br))
      with _ | ⟨f2, br2⟩
    · rw [hfse2] at h
      split_ifs at h <;> simp at h <;> subst h <;> simp
    · rw [hfse2] at h
      simp only at h
      split_ifs at h <;> simp at h <;> subst h <;> simp

/-- The CBR branch keeps the fields written from the TOC byte. -/
theorem parseCbr_header {data : List Byte} {offset lred P c : Nat} {fi info : OpusFrameInfo}
    (h : parseCbr data offset lred P c fi = some info) :
    info.toc_byte = fi.toc_byte ∧ info.config = fi.config ∧ info.stereo = fi.stereo ∧
      info.mode = fi.mode ∧ info.bandwidth = fi.bandwidth ∧
      info.frame_size = fi.frame_size := by
  unfold parseCbr at h
  simp only at h
  split_ifs at h <;> simp only [Option.some.injEq] at h <;> subst h <;>
    exact ⟨rfl, rfl, rfl, rfl, rfl, rfl⟩

/-- The VBR branch keeps the fields written from the TOC byte. -/
theorem parseVbr_header {data : List Byte} {offset lred c : Nat} {fi info : OpusFrameInfo}
    (h : parseVbr data offset lred c fi = some info) :
    info.toc_byte = fi.toc_byte ∧ info.config = fi.config ∧ info.stereo = fi.stereo ∧
      info.mode = fi.mode ∧ info.bandwidth = fi.bandwidth ∧
      info.frame_size = fi.frame_size := by
  unfold parseVbr at h
  rcases hv : vbrLoop data lred (c - 1) offset (u32 (lred - offset)) [] with _ | ⟨o', last, sizes⟩
  · rw [hv] at h; simp at h
  · rw [hv] at h
    simp only at h
    split_ifs at h
    simp only [Option.some.injEq] at h
    subst h
    exact ⟨rfl, rfl, rfl, rfl, rfl, rfl⟩

/-- Case 3 keeps the fields written from the TOC byte. -/
theorem parseCode3_header {data : List Byte} {length : Nat} {fi info : OpusFrameInfo}
    (hfi : fi.padding_size = 0) (h : parseCode3 data length fi = some info) :
    info.toc_byte = fi.toc_byte ∧ info.config = fi.config ∧ info.stereo = fi.stereo ∧
      info.mode = fi.mode ∧ info.bandwidth = fi.bandwidth ∧
      info.frame_size = fi.frame_size := by
  obtain ⟨hl, hc, offset, lred, P, hpad⟩ := parseCode3_inv h
  rw [parseCode3_eq data length fi offset lred P hl hc hfi hpad] at h
  split_ifs at h
  · have := parseVbr_header h
    exact this
  · have := parseCbr_header h
    exact this

/-- What `parseOpusPacket` stores from the TOC byte of an accepted buffer, and the
configuration looked up for it. -/
theorem parseOpusPacket_header {data : List Byte} {length : Nat} {info : OpusFrameInfo}
    (h : parseOpusPacket data length = some info) :
    info.toc_byte = rd data 0 ∧ info.config = rd data 0 / 8 ∧
      info.stereo = (rd data 0 / 4 % 2 != 0) ∧ info.frame_count_code = rd data 0 % 4 ∧
      getConfigInfo (rd data 0 / 8) = some (info.mode, info.bandwidth, info.frame_size) := by
  obtain ⟨m, b, f, hcfg, heq⟩ := parseOpusPacket_eq data length (parseOpusPacket_length_pos h)
  have h4 : rd data 0 % 4 < 4 := Nat.mod_lt _ (by decide)
  rw [heq] at h
  split_ifs at h with h0 h1 h2
  · obtain ⟨a1, a2, a3, a4, a5, a6⟩ := parseCode0_header h
    have a7 := (parseCode0_facts h).2.2
    refine ⟨a1, a2, a3, ?_, ?_⟩
    · rw [a7, h0]; rfl
    · rw [hcfg, a4, a5, a6]; rfl
  · obtain ⟨a1, a2, a3, a4, a5, a6⟩ := parseCode1_header h
    have a7 := (parseCode1_facts h).2.2
    refine ⟨a1, a2, a3, ?_, ?_⟩
    · rw [a7, h1]; rfl
    · rw [hcfg, a4, a5, a6]; rfl
  · obtain ⟨a1, a2, a3, a4, a5, a6⟩ := parseCode2_header h
    have a7 := (parseCode2_facts h).2.2
    refine ⟨a1, a2, a3, ?_, ?_⟩
    · rw [a7, h2]; rfl
    · rw [hcfg, a4, a5, a6]; rfl
  · obtain ⟨a1, a2, a3, a4, a5, a6⟩ := parseCode3_header rfl h
    have a7 := (parseCode3_facts rfl rfl h).2.1
    refine ⟨a1, a2, a3, ?_, ?_⟩
    · rw [a7, show rd data 0 % 4 = 3 by omega]; rfl
    · rw [hcfg, a4, a5, a6]; rfl

/-! ## The count byte and the padding run -/

/-- What an accepted code-3 buffer went through and what it reports of its second
byte, whatever the length. -/
theorem parseOpusPacket_code3_fields {data : List Byte} {length : Nat} {info : OpusFrameInfo}
    (hcode : rd data 0 % 4 = 3) (h : parseOpusPacket data length = some info) :
    1 < length ∧ rd data 1 % 64 ≠ 0 ∧ info.frame_count = rd data 1 % 64 ∧
      info.has_padding = (rd data 1 / 64 % 2 != 0) ∧
      info.is_cbr = (!(rd data 1 / 128 % 2 != 0)) ∧
      ∃ offset lred,
        code3Padding data length 2 (rd data 1 / 64 % 2 != 0) =
          some (offset, lred, info.padding_size) := by
  obtain ⟨hl, hcount, offset, lred, P, hpad⟩ := parseOpusPacket_code3_inv hcode h
  have hv2 : rd data 1 / 128 % 2 < 2 := Nat.mod_lt _ (by decide)
  obtain ⟨ho2, hol, -⟩ := code3Padding_spec hl hpad
  by_cases hv : rd data 1 / 128 % 2 = 0
  · obtain ⟨fi, e1, e2, e3, -, -, e6, heq⟩ := parseOpusPacket_cbr data length offset lred P
      hl hcode hv hcount hpad
    rw [heq] at h
    obtain ⟨-, -, -, f4, f5, f6, f7, -⟩ := parseCbr_facts (by omega) h
    refine ⟨hl, hcount, by rw [f5, e1], by rw [f7, e6], ?_, offset, lred, ?_⟩
    · rw [f4, e3, hv]; rfl
    · rw [f6, e2]; exact hpad
  · obtain ⟨fi, e1, e2, e3, -, -, -, e7, heq⟩ := parseOpusPacket_vbr data length offset lred P
      hl hcode (by omega) hcount hpad
    rw [heq] at h
    obtain ⟨-, -, -, f4, f5, f6, f7⟩ := parseVbr_facts h
    refine ⟨hl, hcount, by rw [f5, e1], by rw [f7, e7], ?_, offset, lred, ?_⟩
    · rw [f4, e3, show rd data 1 / 128 % 2 = 1 by omega]; rfl
    · rw [f6, e2]; exact hpad

/-- A code-3 buffer with a zero frame count is rejected. -/
theorem parseOpusPacket_count_zero (data : List Byte) (length : Nat)
    (hcode : rd data 0 % 4 = 3) (hzero : rd data 1 % 64 = 0) :
    parseOpusPacket data length = none := by
  rcases h : parseOpusPacket data length with _ | info
  · rfl
  · exact absurd hzero (parseOpusPacket_code3_inv hcode h).2.1

/-- Reads in the buffer past its first `k` bytes. -/
theorem rd_drop (data : List Byte) (k i : Nat) : rd (data.drop k) i = rd data (k + i) := by
  unfold rd
  simp [List.getD_eq_getElem?_getD, List.getElem?_drop]

/-- The padding loop rejects a buffer whose bytes from `padding_offset` to the end are
all `0xFF`. -/
theorem paddingLoop_unterminated (data : List Byte) (fuel po len ps : Nat)
    (hrun : ∀ i, po ≤ i → i < len → rd data i = 255) :
    paddingLoop data fuel po len ps = none := by
  rcases h : paddingLoop data fuel po len ps with _ | ⟨po', len', ps'⟩
  · rfl
  · obtain ⟨h1, h2, h3, -, h5, -⟩ := paddingLoop_spec data fuel po len ps po' len' ps' h
    have := hrun (po' - 1) (by omega) (by omega)
    omega

/-! ## The function `parsePaddingLength` -/

/-- Where the scan of `parsePaddingLength` stops: every byte it has crossed is `0xFF`
and inside the buffer, and with enough fuel it stops at the end of the buffer or on
another byte. -/
theorem paddingScan_spec (data : List Byte) (length : Nat) :
    ∀ (fuel offset ps : Nat),
      offset ≤ (paddingScan data length fuel offset ps).1 ∧
      (∀ i, offset ≤ i → i < (paddingScan data length fuel offset ps).1 →
        rd data i = 255 ∧ i < length) ∧
      (length - offset ≤ fuel →
        length ≤ (paddingScan data length fuel offset ps).1 ∨
          rd data (paddingScan data length fuel offset ps).1 ≠ 255) := by
  intro fuel
  induction fuel with
  | zero =>
    intro offset ps
    simp only [paddingScan]
    exact ⟨le_refl _, fun i h1 h2 => by omega, fun h => Or.inl (by omega)⟩
  | succ fuel ih =>
    intro offset ps
    unfold paddingScan
    by_cases hc : offset < length ∧ rd data offset = 0xFF
    · rw [if_pos hc]
      obtain ⟨h1, h2, h3⟩ := ih (offset + 1) (u32 (ps + 0xFF))
      refine ⟨by omega, ?_, fun h => h3 (by omega)⟩
      intro i hi1 hi2
      rcases Nat.eq_or_lt_of_le hi1 with heq | hlt
      · rw [← heq]; exact ⟨hc.2, hc.1⟩
      · exact h2 i (by omega) hi2
    · rw [if_neg hc]
      refine ⟨le_refl _, fun i h1 h2 => by omega, fun _ => ?_⟩
      by_cases hl : offset < length
      · right
        intro h255
        exact hc ⟨hl, h255⟩
      · left; omega

/-- The scan of `parsePaddingLength` over a run of `r` bytes `0xFF` that ends inside
the buffer on another byte: each `0xFF` adds 255. -/
theorem paddingScan_run (data : List Byte) (length : Nat) :
    ∀ (r fuel offset ps : Nat),
      (∀ i, i < r → rd data (offset + i) = 255) → rd data (offset + r) ≠ 255 →
      offset + r < length → r ≤ fuel →
      paddingScan data length fuel offset ps = (offset + r, u32 (ps + 255 * r)) ∨
        (r = 0 ∧ paddingScan data length fuel offset ps = (offset, ps)) := by
  intro r
  induction r with
  | zero =>
    intro fuel offset ps _ hv hlen _
    right
    refine ⟨rfl, ?_⟩
    cases fuel with
    | zero => rfl
    | succ fuel =>
      unfold paddingScan
      rw [if_neg]
      intro hc
      exact hv hc.2
  | succ r ih =>
    intro fuel offset ps hrun hv hlen hfuel
    left
    obtain ⟨fuel, rfl⟩ : ∃ f, fuel = f + 1 := ⟨fuel - 1, by omega⟩
    unfold paddingScan
    have h0 : rd data offset = 255 := by simpa using hrun 0 (by omega)
    rw [if_pos ⟨by omega, h0⟩]
    rcases ih fuel (offset + 1) (u32 (ps + 0xFF))
      (fun i hi => by
        have := hrun (i + 1) (by omega)
        rwa [show offset + (i + 1) = offset + 1 + i from by omega] at this)
      (by rwa [show offset + (r + 1) = offset + 1 + r from by omega] at hv)
      (by omega) (by omega) with h | ⟨hr, h⟩
    · rw [h]
      refine Prod.ext (by simp; omega) ?_
      simp only [u32]; omega
    · subst hr
      rw [h]

/-- The function `parsePaddingLength` on `r` bytes `0xFF` followed by a byte
`v < 255`: it reads `r + 1` bytes and reports `255 * r + v` (as a `uint32_t`). -/
theorem parsePaddingLength_run (data : List Byte) (r : Nat)
    (hrun : ∀ i, i < r → rd data i = 255) (hv : rd data r < 255) (hlen : r < data.length) :
    parsePaddingLength data data.length = some (u32 (255 * r + rd data r), r + 1) := by
  unfold parsePaddingLength
  rw [if_neg (by omega)]
  rcases paddingScan_run data data.length r data.length 0 0
    (fun i hi => by rw [Nat.zero_add]; exact hrun i hi)
    (by rw [Nat.zero_add]; omega) (by omega) (by omega) with h | ⟨hr, h⟩
  · rw [h]
    simp only [Nat.zero_add]
    rw [if_neg (by omega)]
    simp only [u32, Option.some.injEq, Prod.mk.injEq, and_true]
    omega
  · subst hr
    rw [h]
    simp only
    rw [if_neg (by omega)]

/-- The function `parsePaddingLength` rejects the empty buffer and every buffer made
of `0xFF` bytes only. -/
theorem parsePaddingLength_unterminated (data : List Byte)
    (hall : ∀ i, i < data.length → rd data i = 255) :
    parsePaddingLength data data.length = none := by
  unfold parsePaddingLength
  by_cases h0 : data.length < 1
  · rw [if_pos h0]
  · rw [if_neg h0]
    obtain ⟨h1, h2, h3⟩ := paddingScan_spec data data.length data.length 0 0
    generalize paddingScan data data.length data.length 0 0 = res at h1 h2 h3
    obtain ⟨o, ps⟩ := res
    simp only at h1 h2 h3 ⊢
    have hend : data.length ≤ o := by
      rcases h3 (by omega) with h | h
      · exact h
      · by_contra hlt
        exact h (hall o (by omega))
    rw [if_pos hend]

/-- The iteration bound of `paddingScan` is never short: from `length - offset` on,
more fuel does not change the result. -/
theorem paddingScan_fuel (data : List Byte) (length : Nat) :
    ∀ (fuel offset ps : Nat), length - offset ≤ fuel →
      paddingScan data length (fuel + 1) offset ps = paddingScan data length fuel offset ps := by
  intro fuel
  induction fuel with
  | zero =>
    intro offset ps h
    rw [paddingScan, paddingScan, if_neg (by omega)]
  | succ fuel ih =>
    intro offset ps h
    conv_lhs => rw [paddingScan]
    conv_rhs => rw [paddingScan]
    split_ifs with h1
    · exact ih _ _ (by omega)
    · rfl

/-! ## Cases 0, 1 and 2 as equations -/

/-- Case 0 on a TOC-only buffer. -/
theorem parseCode0_toc_only (data : List Byte) (length : Nat) (fi : OpusFrameInfo)
    (h1 : length ≤ 1) :
    parseCode0 data length fi =
      some { fi with frame_count := 1, frame_sizes := [0], total_size := 1 } := by
  unfold parseCode0
  simp only
  rw [if_pos (by omega)]

/-- Case 0 when the self-delimited test fails: the plain branch. -/
theorem parseCode0_plain (data : List Byte) (length : Nat) (fi : OpusFrameInfo)
    (h1 : 1 < length)
    (hno : ∀ fs br, parseFrameSizeEncoding (data.drop 1) (length - 1) = some (fs, br) →
      ¬ (fs > 0 ∧ 1 + br + fs ≤ length)) :
    parseCode0 data length fi =
      if u32 (length - 1) > 1275 then none
      else some { fi with
        frame_count := 1
        frame_sizes := [u32 (length - 1)]
        total_size := u32 length } := by
  unfold parseCode0
  simp only
  rw [if_neg (by omega)]
  rcases hfse : parseFrameSizeEncoding (data.drop 1) (length - 1) with _ | ⟨fs, br⟩
  · rfl
  · simp only
    rw [if_neg (hno fs br hfse)]

/-- Case 0 when the self-delimited test passes. -/
theorem parseCode0_self (data : List Byte) (length : Nat) (fi : OpusFrameInfo)
    (fs br : Nat) (h1 : 1 < length)
    (hfse : parseFrameSizeEncoding (data.drop 1) (length - 1) = some (fs, br))
    (hfs : fs > 0) (hfit : 1 + br + fs ≤ length) :
    parseCode0 data length fi =
      some { fi with
        frame_count := 1
        is_self_delimiting := true
        frame_sizes := [fs]
        data_offset := 1 + br
        total_size := 1 + br + fs } := by
  unfold parseCode0
  simp only
  rw [if_neg (by omega), hfse]
  simp only
  rw [if_pos ⟨hfs, hfit⟩]

/-- Case 1 when the self-delimited test fails: the plain branch. -/
theorem parseCode1_plain (data : List Byte) (length : Nat) (fi : OpusFrameInfo)
    (h1 : 2 ≤ length)
    (hno : ∀ fs br, parseFrameSizeEncoding (data.drop 1) (length - 1) = some (fs, br) →
      ¬ (fs > 0 ∧ 1 + br + fs * 2 ≤ length)) :
    parseCode1 data length fi =
      if u32 (length - 1) % 2 ≠ 0 then none
      else if u32 (length - 1) / 2 > 1275 then none
      else some { fi with
        frame_sizes := [u32 (length - 1) / 2, u32 (length - 1) / 2]
        total_size := u32 length
        frame_count := 2 } := by
  unfold parseCode1
  simp only
  rw [if_neg (by omega)]
  rcases hfse : parseFrameSizeEncoding (data.drop 1) (length - 1) with _ | ⟨fs, br⟩
  · rfl
  · simp only
    rw [if_neg (hno fs br hfse)]

/-- Case 1 rejects a TOC-only buffer. -/
theorem parseCode1_short (data : List Byte) (length : Nat) (fi : OpusFrameInfo)
    (h1 : length < 2) : parseCode1 data length fi = none := by
  unfold parseCode1
  simp only
  rw [if_pos h1]

/-- Case 2 rejects a buffer whose first frame-length code cannot be decoded. -/
theorem parseCode2_no_code (data : List Byte) (length : Nat) (fi : OpusFrameInfo)
    (hfse : parseFrameSizeEncoding (data.drop 1) (length - 1) = none) :
    parseCode2 data length fi = none := by
  unfold parseCode2
  simp only
  rw [hfse]
  split_ifs <;> rfl

/-- Case 2 when the self-delimited test fails: the plain branch, which does not
write `data_offset`. -/
theorem parseCode2_plain (data : List Byte) (length : Nat) (fi : OpusFrameInfo)
    (f1 br : Nat)
    (hfse : parseFrameSizeEncoding (data.drop 1) (length - 1) = some (f1, br))
    (hno : ∀ f2 br2,
      parseFrameSizeEncoding (data.drop (1 + br)) (length - (1 + br)) = some (f2, br2) →
      ¬ (f1 > 0 ∧ f2 > 0 ∧ 1 + br + br2 + f1 + f2 ≤ length)) :
    parseCode2 data length fi =
      if f1 > 1275 then none
      else if 1 + br + f1 > length then none
      else if u32 (length - (1 + br) - f1) > 1275 then none
      else some { fi with
        frame_sizes := [f1, u32 (length - (1 + br) - f1)]
        total_size := u32 length
        frame_count := 2 } := by
  have hb := parseFrameSizeEncoding_bound hfse
  unfold parseCode2
  simp only
  rw [if_neg (by omega), hfse]
  simp only
  rcases hfse2 : parseFrameSizeEncoding (data.drop (1 + br)) (length - (1 + br))
    with _ | ⟨f2, br2⟩
  · simp only
    split_ifs <;> rfl
  · simp only
    rw [if_neg (hno f2 br2 hfse2)]
    split_ifs <;> rfl

/-! ## More buffers of case 3 and of more than `2^32` bytes -/

/-- The padding step with the padding flag set: the run it crossed, the byte that
closed it, the length it leaves and the total it reports. -/
theorem code3Padding_flagged {data : List Byte} {length offset lred P : Nat}
    (h : code3Padding data length 2 true = some (offset, lred, P)) :
    3 ≤ offset ∧ offset ≤ lred ∧ rd data (offset - 1) < 255 ∧
      (∀ i, 2 ≤ i → i + 1 < offset → rd data i = 255) ∧
      lred + (254 * (offset - 3) + rd data (offset - 1)) = length ∧
      P = u32 (254 * (offset - 3) + rd data (offset - 1)) := by
  unfold code3Padding at h
  rw [if_pos rfl] at h
  obtain ⟨h1, h2, h3, h4, h5, h6⟩ := paddingLoop_spec data length 2 length 0 offset lred P h
  rw [Nat.zero_add] at h6
  exact ⟨by omega, h2, h3, h4, h5, h6⟩

/-- The plain two-frame packet in a buffer of `2^32 + 8` bytes that starts with TOC
`0x02`, the frame-length code `1` and a zero byte. -/
theorem parseOpusPacket_code2_long (data : List Byte)
    (h0 : rd data 0 = 2) (h1 : rd data 1 = 1) (h2 : rd data 2 = 0)
    (hL : data.length = 4294967304) :
    parseFrameSizeEncoding (data.drop 1) (data.length - 1) = some (1, 1) ∧
      parseFrameSizeEncoding (data.drop (1 + 1)) (data.length - (1 + 1)) = some (0, 1) ∧
      ∃ info, parseOpusPacket data data.length = some info ∧
        info.frame_sizes = [1, 5] ∧ info.total_size = 8 ∧ info.data_offset = 1 ∧
        info.frame_count = 2 ∧ info.is_self_delimiting = false := by
  have hf1 : parseFrameSizeEncoding (data.drop 1) (data.length - 1) = some (1, 1) := by
    unfold parseFrameSizeEncoding
    rw [rd_drop, Nat.add_zero, h1, hL]
    rfl
  have hf2 : parseFrameSizeEncoding (data.drop (1 + 1)) (data.length - (1 + 1)) =
      some (0, 1) := by
    unfold parseFrameSizeEncoding
    rw [rd_drop, Nat.add_zero, h2, hL]
    rfl
  refine ⟨hf1, hf2, ?_⟩
  obtain ⟨m, b, f, -, heq⟩ := parseOpusPacket_eq data data.length (by omega)
  rw [heq, if_neg (by omega), if_neg (by omega), if_pos (by omega),
    parseCode2_plain data data.length _ 1 1 hf1
      (fun f2 br2 h hc => by
        rw [hf2] at h
        injection h with h
        injection h with e1 e2
        omega),
    hL]
  exact ⟨_, rfl, rfl, rfl, rfl, rfl, rfl⟩

/-- Case 3 rejects a buffer with the padding flag set whose bytes from offset 2 to the
end are all `0xFF`, or absent. -/
theorem parseOpusPacket_padding_unterminated (data : List Byte) (length : Nat)
    (hcode : rd data 0 % 4 = 3) (hflag : rd data 1 / 64 % 2 = 1)
    (hrun : ∀ i, 2 ≤ i → i < length → rd data i = 255) :
    parseOpusPacket data length = none := by
  rcases h : parseOpusPacket data length with _ | info
  · rfl
  · obtain ⟨-, -, offset, lred, P, hpad⟩ := parseOpusPacket_code3_inv hcode h
    have hp : (rd data 1 / 64 % 2 != 0) = true := by rw [hflag]; decide
    rw [hp] at hpad
    unfold code3Padding at hpad
    rw [if_pos rfl, paddingLoop_unterminated data length 2 length 0 hrun] at hpad
    cases hpad

/-- Case 0 reports at most the length it was given. -/
theorem parseCode0_total_le {data : List Byte} {length : Nat} {fi info : OpusFrameInfo}
    (hl : 1 ≤ length) (h : parseCode0 data length fi = some info) :
    info.total_size ≤ length := by
  unfold parseCode0 at h
  simp only at h
  rcases hfse : parseFrameSizeEncoding (data.drop 1) (length - 1) with _ | ⟨fs, br⟩
  · rw [hfse] at h
    simp only [u32] at h
    split_ifs at h <;> simp at h <;> subst h <;> (simp; try omega)
  · rw [hfse] at h
    simp only [u32] at h
    split_ifs at h <;> simp at h <;> subst h <;> simp <;> omega

/-- Case 1 reports at most the length it was given. -/
theorem parseCode1_total_le {data : List Byte} {length : Nat} {fi info : OpusFrameInfo}
    (h : parseCode1 data length fi = some info) :
    info.total_size ≤ length := by
  unfold parseCode1 at h
  simp only at h
  rcases hfse : parseFrameSizeEncoding (data.drop 1) (length - 1) with _ | ⟨fs, br⟩
  · rw [hfse] at h
    simp only [u32] at h
    split_ifs at h; simp at h; subst h; simp; omega
  · rw [hfse] at h
    simp only [u32] at h
    split_ifs at h <;> simp at h <;> subst h <;> simp <;> omega

/-- Case 2 reports at most the length it was given. -/
theorem parseCode2_total_le {data : List Byte} {length : Nat} {fi info : OpusFrameInfo}
    (h : parseCode2 data length fi = some info) :
    info.total_size ≤ length := by
  unfold parseCode2 at h
  simp only at h
  rcases hfse : parseFrameSizeEncoding (data.drop 1) (length - 1) with _ | ⟨f1, br⟩
  · rw [hfse] at h
    split_ifs at h
  · rw [hfse] at h
    simp only at h
    rcases hfse2 : parseFrameSizeEncoding (data.drop (1 + br)) (length - (1 + br))
      with _ | ⟨f2, br2⟩
    · rw [hfse2] at h
      simp only [u32] at h
      split_ifs at h <;> simp at h <;> subst h <;> simp <;> omega
    · rw [hfse2] at h
      simp only [u32] at h
      split_ifs at h <;> simp at h <;> subst h <;> simp <;> omega

/-- The CBR branch reports at most the length before the padding step took the
padding off. -/
theorem parseCbr_total_le {data : List Byte} {offset lred P c : Nat} {fi info : OpusFrameInfo}
    (h : parseCbr data offset lred P c fi = some info) :
    info.total_size ≤ lred + P := by
  unfold parseCbr at h
  simp only at h
  split_ifs at h with h1 h2 h3 h4 h5 h6 h7
  · simp only [Option.some.injEq] at h
    subst h
    show u32 (lred + P) ≤ lred + P
    unfold u32
    exact Nat.mod_le _ _
  · have hf := searchLoop_found data (rd data 0) (rd data 1) (u32 (offset + c * 1275 + P))
      (lred + P) (u32 (offset + c * 1275 + P) + 1 - u32 (offset + c * 10 + P))
      (u32 (offset + c * 10 + P)) h5
    simp only [Option.some.injEq] at h
    subst h
    show u32 _ ≤ lred + P
    have := Nat.mod_le (searchLoop data (rd data 0) (rd data 1) (u32 (offset + c * 1275 + P))
      (lred + P) (u32 (offset + c * 1275 + P) + 1 - u32 (offset + c * 10 + P))
      (u32 (offset + c * 10 + P))) 4294967296
    unfold u32 at *
    omega

/-- The parser never reports a `total_size` above the length it was given. -/
theorem parseOpusPacket_total_le {data : List Byte} {length : Nat} {info : OpusFrameInfo}
    (h : parseOpusPacket data length = some info) : info.total_size ≤ length := by
  have hpos := parseOpusPacket_length_pos h
  obtain ⟨m, b, f, -, heq⟩ := parseOpusPacket_eq data length hpos
  rw [heq] at h
  split_ifs at h with h0 h1 h2
  · exact parseCode0_total_le hpos h
  · exact parseCode1_total_le h
  · exact parseCode2_total_le h
  · obtain ⟨hl, hc, offset, lred, P, hpad⟩ := parseCode3_inv h
    rw [parseCode3_eq data length _ offset lred P hl hc rfl hpad] at h
    obtain ⟨-, -, -, -, X, hX, hP, -⟩ := code3Padding_spec hl hpad
    split_ifs at h
    · have := (parseVbr_facts h).2.1
      rw [this]
      exact Nat.zero_le _
    · have := parseCbr_total_le h
      have hle : u32 X ≤ X := Nat.mod_le _ _
      omega

/-! ## The sweep of the sample program: facts -/

/-- The VBR branch leaves `data_offset` at or after the offset it was entered with. -/
theorem parseVbr_data_offset {data : List Byte} {offset lred c : Nat} {fi info : OpusFrameInfo}
    (hol : offset ≤ lred) (hlen : lred < 4294967296)
    (h : parseVbr data offset lred c fi = some info) :
    offset ≤ info.data_offset := by
  unfold parseVbr at h
  rcases hv : vbrLoop data lred (c - 1) offset (u32 (lred - offset)) [] with _ | ⟨o', last, sizes⟩
  · rw [hv] at h
    cases h
  · rw [hv] at h
    simp only at h
    obtain ⟨sz, -, -, -, -, h5, h6, h7, -⟩ :=
      vbrLoop_spec data lred (c - 1) offset (u32 (lred - offset)) [] o' last sizes hv
    have ho : o' < 4294967296 := by
      by_cases hn : 0 < c - 1
      · have := h7 hn
        omega
      · omega
    split_ifs at h
    simp only [Option.some.injEq] at h
    subst h
    show offset ≤ u32 o'
    rw [u32_of_lt ho]
    exact h5

/-- An accepted packet without a resolved size, in a buffer shorter than `2^32` bytes:
it is a code-3 packet, its data start after the count byte, its sizes are at most
`1275` and its frame count is below `64`. -/
theorem parseOpusPacket_unresolved {data : List Byte} {length : Nat} {info : OpusFrameInfo}
    (hlen : length < 4294967296) (h : parseOpusPacket data length = some info)
    (ht : info.total_size = 0) :
    2 ≤ info.data_offset ∧ (∀ s ∈ info.frame_sizes, s ≤ 1275) ∧ info.frame_count < 64 := by
  have hpos := parseOpusPacket_length_pos h
  obtain ⟨m, b, f, -, heq⟩ := parseOpusPacket_eq data length hpos
  have h' := h
  rw [heq] at h'
  split_ifs at h' with h0 h1 h2
  · exact absurd ht (parseCode0_facts h').2.1
  · exact absurd ht (parseCode1_facts h').2.1
  · exact absurd ht (parseCode2_facts h').2.1
  · have hcode : rd data 0 % 4 = 3 := by
      have := Nat.mod_lt (rd data 0) (by decide : 0 < 4)
      omega
    obtain ⟨-, -, hfc, -⟩ := parseOpusPacket_code3_fields hcode h
    have h64 : rd data 1 % 64 < 64 := Nat.mod_lt _ (by decide)
    have hs := (parseCode3_facts rfl rfl h').1
    refine ⟨?_, hs, by omega⟩
    obtain ⟨hl, hc, offset, lred, P, hpad⟩ := parseCode3_inv h'
    rw [parseCode3_eq data length _ offset lred P hl hc rfl hpad] at h'
    obtain ⟨ho2, hol, -, -, X, hX, -⟩ := code3Padding_spec hl hpad
    split_ifs at h'
    · have := parseVbr_data_offset hol (by omega) h'
      omega
    · exact absurd ht (parseCbr_facts (by omega) h').2.1

/-- A successful probe stops at or after its starting point, inside the buffer, on a
position where the parser succeeds. -/
theorem probeLoop_spec (p : List Byte) (sz : Nat) :
    ∀ (n start next : Nat), probeLoop p sz n start = some next →
      start ≤ next ∧ next < sz ∧
      (parseOpusPacket (p.drop next) (sz - next)).isSome = true := by
  intro n
  induction n with
  | zero => intro start next h; simp [probeLoop] at h
  | succ n ih =>
    intro start next h
    unfold probeLoop at h
    by_cases hs : start < sz
    · rw [if_pos hs] at h
      rcases hp : parseOpusPacket (p.drop start) (sz - start) with _ | info
      · rw [hp] at h
        simp only at h
        obtain ⟨a, b, c⟩ := ih (start + 1) next h
        exact ⟨by omega, b, c⟩
      · rw [hp] at h
        simp only [Option.some.injEq] at h
        subst h
        exact ⟨le_refl _, hs, by rw [hp]; rfl⟩
    · rw [if_neg hs] at h
      cases h

/-- What one run of the body of the sweep does to the cursor, case by case. -/
theorem sweepBody_spec (p : List Byte) (sz co pc : Nat) (hsz : sz < 4294967296)
    (hco : co < sz) :
    co < (sweepBody p sz co pc).1 ∧
      ((sweepBody p sz co pc).2.2 = true ↔ sz ≤ (sweepBody p sz co pc).1) ∧
      (parseOpusPacket (p.drop co) (sz - co) = none →
        (sweepBody p sz co pc).1 = co + 1 ∧ (sweepBody p sz co pc).2.1 = pc) ∧
      (∀ info, parseOpusPacket (p.drop co) (sz - co) = some info →
        (sweepBody p sz co pc).2.1 = pc + 1 ∧
        (0 < info.total_size → (sweepBody p sz co pc).1 = co + info.total_size) ∧
        (info.total_size = 0 →
          (sweepBody p sz co pc).1 = co + 1 ∨
          (co + info.data_offset + info.frame_sizes.headD 0 * info.frame_count ≤
              (sweepBody p sz co pc).1 ∧
            (sweepBody p sz co pc).1 < sz ∧
            (parseOpusPacket (p.drop (sweepBody p sz co pc).1)
              (sz - (sweepBody p sz co pc).1)).isSome = true))) := by
  unfold sweepBody
  rcases hp : parseOpusPacket (p.drop co) (sz - co) with _ | info
  · simp
  · simp only
    by_cases ht : info.total_size > 0
    · rw [if_pos ht]
      refine ⟨by omega, by simp, by simp, ?_⟩
      intro info' h'
      injection h' with h'
      subst h'
      exact ⟨by first | rfl | trivial, fun _ => rfl, fun h0 => by omega⟩
    · rw [if_neg ht]
      have ht0 : info.total_size = 0 := by omega
      obtain ⟨hdo, hs, hfc⟩ := parseOpusPacket_unresolved (by omega) hp ht0
      have hend : (if info.frame_sizes.isEmpty = true then 0
          else u32 (info.frame_sizes.headD 0 * info.frame_count)) =
          info.frame_sizes.headD 0 * info.frame_count := by
        cases hfs : info.frame_sizes with
        | nil => simp
        | cons s t =>
          have hs1 : s ≤ 1275 := hs s (by rw [hfs]; exact List.mem_cons_self _ _)
          have hprod : s * info.frame_count ≤ 1275 * 63 :=
            Nat.mul_le_mul hs1 (by omega)
          simp only [List.isEmpty_cons, Bool.false_eq_true, if_false, List.headD_cons]
          exact u32_of_lt (by omega)
      rw [hend]
      rcases hpr : probeLoop p sz 1000
        (co + info.data_offset + info.frame_sizes.headD 0 * info.frame_count) with _ | next
      · simp only
        refine ⟨by omega, by simp, by simp, ?_⟩
        intro info' h'
        injection h' with h'
        subst h'
        exact ⟨by first | rfl | trivial, fun h0 => by omega,
          fun _ => Or.inl (by first | rfl | trivial)⟩
      · simp only
        obtain ⟨a, b, c⟩ := probeLoop_spec p sz 1000 _ next hpr
        refine ⟨by omega, by simp, by simp, ?_⟩
        intro info' h'
        injection h' with h'
        subst h'
        exact ⟨by first | rfl | trivial, fun h0 => by omega, fun _ => Or.inr ⟨a, b, c⟩⟩

/-- The sweep ends: with as many runs of the body as bytes are left, it returns, and
the cursor it returns is at or past the end of the data. -/
theorem sweep_fuel (p : List Byte) (sz : Nat) (hsz : sz < 4294967296) :
    ∀ (fuel co pc : Nat), sz - co ≤ fuel →
      ∃ co' pc', sweep p sz fuel co pc = some (co', pc') ∧ sz ≤ co' ∧ co ≤ co' ∧
        pc ≤ pc' ∧ pc' ≤ pc + (sz - co) := by
  intro fuel
  induction fuel with
  | zero =>
    intro co pc h
    unfold sweep
    rw [if_neg (by omega)]
    exact ⟨co, pc, rfl, by omega, le_refl _, le_refl _, by omega⟩
  | succ fuel ih =>
    intro co pc h
    unfold sweep
    by_cases hco : co < sz
    · rw [if_pos hco]
      simp only
      obtain ⟨h1, h2, h3, h4⟩ := sweepBody_spec p sz co pc hsz hco
      have hpc : pc ≤ (sweepBody p sz co pc).2.1 ∧ (sweepBody p sz co pc).2.1 ≤ pc + 1 := by
        rcases hp : parseOpusPacket (p.drop co) (sz - co) with _ | info
        · have := (h3 hp).2
          omega
        · have := (h4 info hp).1
          omega
      by_cases hb : (sweepBody p sz co pc).2.2 = true
      · rw [if_pos hb]
        exact ⟨_, _, rfl, h2.mp hb, by omega, by omega, by omega⟩
      · rw [if_neg hb]
        obtain ⟨co', pc', e, a, b, c, d⟩ :=
          ih (sweepBody p sz co pc).1 (sweepBody p sz co pc).2.1 (by omega)
        exact ⟨co', pc', e, a, by omega, by omega, by omega⟩
    · rw [if_neg hco]
      exact ⟨co, pc, rfl, by omega, le_refl _, le_refl _, by omega⟩

/-! ## Decoding again with the reported size as length -/

/-- A frame-length code decodes the same in every length that holds its bytes. -/
theorem parseFrameSizeEncoding_mono {data : List Byte} {l l' fs br : Nat}
    (h : parseFrameSizeEncoding data l = some (fs, br)) (hl : br ≤ l') :
    parseFrameSizeEncoding data l' = some (fs, br) := by
  have hb := parseFrameSizeEncoding_bound h
  unfold parseFrameSizeEncoding at h ⊢
  split_ifs at h with a1 a2 a3 a4 a5 <;> simp only [Option.some.injEq, Prod.mk.injEq] at h
  · obtain ⟨rfl, rfl⟩ := h
    rw [if_neg (by omega), if_pos a2]
  · obtain ⟨rfl, rfl⟩ := h
    rw [if_neg (by omega), if_neg a2, if_pos a3]
  · obtain ⟨rfl, rfl⟩ := h
    rw [if_neg (by omega), if_neg a2, if_neg a3, if_pos a4, if_neg (by omega)]

/-- Case 1 when the self-delimited test passes. -/
theorem parseCode1_self (data : List Byte) (length : Nat) (fi : OpusFrameInfo)
    (fs br : Nat) (h2 : 2 ≤ length)
    (hfse : parseFrameSizeEncoding (data.drop 1) (length - 1) = some (fs, br))
    (hfs : fs > 0) (hfit : 1 + br + fs * 2 ≤ length) :
    parseCode1 data length fi =
      some { fi with
        is_self_delimiting := true
        frame_sizes := [fs, fs]
        data_offset := 1 + br
        total_size := 1 + br + fs * 2
        frame_count := 2 } := by
  unfold parseCode1
  simp only
  rw [if_neg (by omega), hfse]
  simp only
  rw [if_pos ⟨hfs, hfit⟩]

/-- Case 2 when the self-delimited test passes. -/
theorem parseCode2_self (data : List Byte) (length : Nat) (fi : OpusFrameInfo)
    (f1 br f2 br2 : Nat)
    (hfse : parseFrameSizeEncoding (data.drop 1) (length - 1) = some (f1, br))
    (hfse2 : parseFrameSizeEncoding (data.drop (1 + br)) (length - (1 + br)) = some (f2, br2))
    (hf1 : f1 > 0) (hf2 : f2 > 0) (hfit : 1 + br + br2 + f1 + f2 ≤ length) :
    parseCode2 data length fi =
      some { fi with
        is_self_delimiting := true
        frame_sizes := [f1, f2]
        data_offset := 1 + br + br2
        total_size := 1 + br + br2 + f1 + f2
        frame_count := 2 } := by
  have hb := parseFrameSizeEncoding_bound hfse
  have hb2 := parseFrameSizeEncoding_bound hfse2
  unfold parseCode2
  simp only
  rw [if_neg (by omega), hfse]
  simp only
  rw [if_pos (by omega), hfse2]
  simp only
  rw [if_pos ⟨hf1, hf2, hfit⟩]

/-- Case 0 decodes to the same record when the length is cut to the reported size. -/
theorem parseCode0_redecode {data : List Byte} {length : Nat} {fi info : OpusFrameInfo}
    (hpos : 1 ≤ length) (hlen : length < 4294967296)
    (h : parseCode0 data length fi = some info) :
    parseCode0 data info.total_size fi = some info := by
  by_cases h1 : length ≤ 1
  · have h' := h
    rw [parseCode0_toc_only data length fi h1] at h'
    injection h' with h'
    subst h'
    show parseCode0 data 1 fi = _
    rw [parseCode0_toc_only data 1 fi (le_refl 1)]
  · by_cases hs : ∃ fs br, parseFrameSizeEncoding (data.drop 1) (length - 1) = some (fs, br) ∧
        fs > 0 ∧ 1 + br + fs ≤ length
    · obtain ⟨fs, br, hfse, hfs, hfit⟩ := hs
      have hb := parseFrameSizeEncoding_bound hfse
      rw [parseCode0_self data length fi fs br (by omega) hfse hfs hfit] at h
      injection h with h
      subst h
      show parseCode0 data (1 + br + fs) fi = _
      rw [parseCode0_self data (1 + br + fs) fi fs br (by omega)
        (parseFrameSizeEncoding_mono hfse (by omega)) hfs (le_refl _)]
    · have hno : ∀ fs br, parseFrameSizeEncoding (data.drop 1) (length - 1) = some (fs, br) →
          ¬ (fs > 0 ∧ 1 + br + fs ≤ length) :=
        fun fs br hf hc => hs ⟨fs, br, hf, hc.1, hc.2⟩
      have h' := h
      rw [parseCode0_plain data length fi (by omega) hno] at h'
      split_ifs at h'
      injection h' with h'
      have ht : info.total_size = length := by
        rw [← h']
        exact u32_of_lt hlen
      rw [ht]
      exact h

/-- Case 1 decodes to the same record when the length is cut to the reported size. -/
theorem parseCode1_redecode {data : List Byte} {length : Nat} {fi info : OpusFrameInfo}
    (hlen : length < 4294967296)
    (h : parseCode1 data length fi = some info) :
    parseCode1 data info.total_size fi = some info := by
  by_cases h1 : length < 2
  · rw [parseCode1_short data length fi h1] at h
    cases h
  · by_cases hs : ∃ fs br, parseFrameSizeEncoding (data.drop 1) (length - 1) = some (fs, br) ∧
        fs > 0 ∧ 1 + br + fs * 2 ≤ length
    · obtain ⟨fs, br, hfse, hfs, hfit⟩ := hs
      have hb := parseFrameSizeEncoding_bound hfse
      rw [parseCode1_self data length fi fs br (by omega) hfse hfs hfit] at h
      injection h with h
      subst h
      show parseCode1 data (1 + br + fs * 2) fi = _
      rw [parseCode1_self data (1 + br + fs * 2) fi fs br (by omega)
        (parseFrameSizeEncoding_mono hfse (by omega)) hfs (le_refl _)]
    · have hno : ∀ fs br, parseFrameSizeEncoding (data.drop 1) (length - 1) = some (fs, br) →
          ¬ (fs > 0 ∧ 1 + br + fs * 2 ≤ length) :=
        fun fs br hf hc => hs ⟨fs, br, hf, hc.1, hc.2⟩
      have h' := h
      rw [parseCode1_plain data length fi (by omega) hno] at h'
      split_ifs at h'
      injection h' with h'
      have ht : info.total_size = length := by
        rw [← h']
        exact u32_of_lt hlen
      rw [ht]
      exact h

/-- Case 2 decodes to the same record when the length is cut to the reported size. -/
theorem parseCode2_redecode {data : List Byte} {length : Nat} {fi info : OpusFrameInfo}
    (hlen : length < 4294967296)
    (h : parseCode2 data length fi = some info) :
    parseCode2 data info.total_size fi = some info := by
  rcases hfse : parseFrameSizeEncoding (data.drop 1) (length - 1) with _ | ⟨f1, br⟩
  · rw [parseCode2_no_code data length fi hfse] at h
    cases h
  · have hb := parseFrameSizeEncoding_bound hfse
    by_cases hs : ∃ f2 br2,
        parseFrameSizeEncoding (data.drop (1 + br)) (length - (1 + br)) = some (f2, br2) ∧
        f1 > 0 ∧ f2 > 0 ∧ 1 + br + br2 + f1 + f2 ≤ length
    · obtain ⟨f2, br2, hfse2, hf1, hf2, hfit⟩ := hs
      have hb2 := parseFrameSizeEncoding_bound hfse2
      rw [parseCode2_self data length fi f1 br f2 br2 hfse hfse2 hf1 hf2 hfit] at h
      injection h with h
      subst h
      show parseCode2 data (1 + br + br2 + f1 + f2) fi = _
      rw [parseCode2_self data (1 + br + br2 + f1 + f2) fi f1 br f2 br2
        (parseFrameSizeEncoding_mono hfse (by omega))
        (parseFrameSizeEncoding_mono hfse2 (by omega)) hf1 hf2 (le_refl _)]
    · have hno : ∀ f2 br2,
          parseFrameSizeEncoding (data.drop (1 + br)) (length - (1 + br)) = some (f2, br2) →
          ¬ (f1 > 0 ∧ f2 > 0 ∧ 1 + br + br2 + f1 + f2 ≤ length) :=
        fun f2 br2 hf hc => hs ⟨f2, br2, hf, hc.1, hc.2.1, hc.2.2⟩
      have h' := h
      rw [parseCode2_plain data length fi f1 br hfse hno] at h'
      split_ifs at h'
      injection h' with h'
      have ht : info.total_size = length := by
        rw [← h']
        exact u32_of_lt hlen
      rw [ht]
      exact h

/-- The padding step gives the same offset and total on every shorter length that
still holds the padding-length code and the padding. -/
theorem code3Padding_shorter {data : List Byte} {length offset lred P t : Nat} {hp : Bool}
    (hl : 1 < length) (hlen : length < 4294967296)
    (h : code3Padding data length 2 hp = some (offset, lred, P))
    (ht : offset + P ≤ t) :
    code3Padding data t 2 hp = some (offset, t - P, P) := by
  cases hp with
  | false =>
    obtain ⟨-, -, -, h4, -⟩ := code3Padding_spec hl h
    obtain ⟨rfl, rfl⟩ := h4 rfl
    rfl
  | true =>
    obtain ⟨h1, h2, h3, h4, h5, h6⟩ := code3Padding_flagged h
    have hX : u32 (254 * (offset - 3) + rd data (offset - 1)) =
        254 * (offset - 3) + rd data (offset - 1) := u32_of_lt (by omega)
    rw [hX] at h6
    unfold code3Padding
    rw [if_pos rfl, paddingLoop_run data (offset - 3) t 2 t 0 (rd data (offset - 1))
      (fun i hi => h4 (2 + i) (by omega) (by omega))
      (by rw [show 2 + (offset - 3) = offset - 1 by omega]) h3 (by omega) (by omega),
      Nat.zero_add, hX, ← h6, show 2 + (offset - 3) + 1 = offset by omega]

/-- Case 3 decodes to the same record when the length is cut to a reported size that
is not zero. -/
theorem parseCode3_redecode {data : List Byte} {length : Nat} {fi info : OpusFrameInfo}
    (hfi : fi.padding_size = 0) (hft : fi.total_size = 0) (hlen : length < 4294967296)
    (h : parseCode3 data length fi = some info) (ht : 0 < info.total_size) :
    parseCode3 data info.total_size fi = some info := by
  obtain ⟨hl, hc, offset, lred, P, hpad⟩ := parseCode3_inv h
  obtain ⟨ho2, hol, hLP, hP, hrun⟩ := code3Padding_exact hl hlen hpad
  have h64 : rd data 1 % 64 < 64 := Nat.mod_lt _ (by decide)
  have h' := h
  rw [parseCode3_eq data length fi offset lred P hl hc hfi hpad] at h'
  cases hv : (rd data 1 / 128 % 2 != 0) with
  | true =>
    rw [hv] at h'
    simp only [if_true] at h'
    have := (parseVbr_facts h').2.1
    have e : info.total_size = 0 := by rw [this]; exact hft
    omega
  | false =>
    rw [hv] at h'
    simp only [Bool.false_eq_true, if_false] at h'
    have hcbr : rd data 1 / 128 % 2 = 0 := by
      have h2 : rd data 1 / 128 % 2 < 2 := Nat.mod_lt _ (by decide)
      by_contra hne
      have : rd data 1 / 128 % 2 = 1 := by omega
      rw [this] at hv
      cases hv
    by_cases hmax : offset + rd data 1 % 64 * 1275 + P < 4294967296
    · by_cases hhi : offset + rd data 1 % 64 * 1275 + P < lred + P
      · rw [parseCbr_search data offset lred P _ _ hc hmax hhi] at h'
        have hf := searchLoop_found data (rd data 0) (rd data 1)
          (offset + rd data 1 % 64 * 1275 + P) (lred + P) (rd data 1 % 64 * 1265 + 1)
          (offset + rd data 1 % 64 * 10 + P)
        generalize searchLoop data (rd data 0) (rd data 1)
          (offset + rd data 1 % 64 * 1275 + P) (lred + P) (rd data 1 % 64 * 1265 + 1)
          (offset + rd data 1 % 64 * 10 + P) = s at hf h'
        split_ifs at h' with hs0 hd
        obtain ⟨f1, -, f3, f4, -⟩ := hf hs0
        simp only [Option.some.injEq] at h'
        subst h'
        show parseCode3 data s fi = _
        have hpad' := code3Padding_shorter (t := s) hl hlen hpad (by omega)
        rw [parseCode3_eq data s fi offset (s - P) P (by omega) hc hfi hpad', hv]
        simp only [Bool.false_eq_true, if_false]
        rw [parseCbr_in_range data offset (s - P) P _ _ hc (by omega) hmax (by omega) (by omega),
          show s - P - offset = s - offset - P by omega, if_pos hd,
          show s - P + P = s by omega]
      · by_cases hlo : offset + rd data 1 % 64 * 10 + P ≤ lred + P
        · have h'' := h'
          rw [parseCbr_in_range data offset lred P _ _ hc hol hmax hlo (by omega)] at h''
          split_ifs at h''
          simp only [Option.some.injEq] at h''
          have ht' : info.total_size = length := by
            rw [← h'']
            exact hLP
          rw [ht']
          exact h
        · rw [parseCbr_too_short data offset lred P _ _ hmax (by omega)] at h'
          cases h'
    · rw [parseCbr_wrapped_none data offset lred P _ _ h64 hol (by omega) hP hrun hcbr
        (by omega)] at h'
      cases h'

/-- Every accepted buffer shorter than `2^32` bytes with a reported size that is not
zero decodes to the same record when the length is cut to that size. -/
theorem parseOpusPacket_redecode {data : List Byte} {length : Nat} {info : OpusFrameInfo}
    (hlen : length < 4294967296) (h : parseOpusPacket data length = some info)
    (ht : 0 < info.total_size) :
    parseOpusPacket data info.total_size = some info := by
  have hpos := parseOpusPacket_length_pos h
  obtain ⟨m, b, f, hcfg, heq⟩ := parseOpusPacket_eq data length hpos
  obtain ⟨m', b', f', hcfg', heq'⟩ := parseOpusPacket_eq data info.total_size ht
  rw [hcfg] at hcfg'
  simp only [Option.some.injEq, Prod.mk.injEq] at hcfg'
  obtain ⟨rfl, rfl, rfl⟩ := hcfg'
  rw [heq] at h
  rw [heq']
  split_ifs at h ⊢ with h0 h1 h2
  · exact parseCode0_redecode hpos hlen h
  · exact parseCode1_redecode hlen h
  · exact parseCode2_redecode hlen h
  · exact parseCode3_redecode rfl rfl hlen h ht

/-- The plain two-frame code-1 packet in a buffer of `2^32 + 1` bytes that starts with
TOC `0x01` and a zero byte: accepted with `total_size = 1`, and rejected when the
length is cut to one byte. -/
theorem parseOpusPacket_code1_long (data : List Byte)
    (h0 : rd data 0 = 1) (h1 : rd data 1 = 0) (hL : data.length = 4294967297) :
    (∃ info, parseOpusPacket data data.length = some info ∧
        info.total_size = 1 ∧ info.frame_sizes = [0, 0] ∧ info.frame_count = 2 ∧
        info.is_self_delimiting = false) ∧
      parseOpusPacket data 1 = none := by
  constructor
  · have hf1 : parseFrameSizeEncoding (data.drop 1) (data.length - 1) = some (0, 1) := by
      unfold parseFrameSizeEncoding
      rw [rd_drop, Nat.add_zero, h1, hL]
      rfl
    obtain ⟨m, b, f, -, heq⟩ := parseOpusPacket_eq data data.length (by omega)
    rw [heq, if_neg (by omega), if_pos (by omega),
      parseCode1_plain data data.length _ (by omega)
        (fun fs br h hc => by
          rw [hf1] at h
          injection h with h
          injection h with e1 e2
          omega),
      hL]
    exact ⟨_, rfl, rfl, rfl, rfl, rfl⟩
  · obtain ⟨m, b, f, -, heq⟩ := parseOpusPacket_eq data 1 (le_refl 1)
    rw [heq, if_neg (by omega), if_pos (by omega), parseCode1_short data 1 _ (by decide)]

/-! ## The checked parser never faults -/

/-- A run that returned passes its result on. -/
theorem Checked.bind_ret {α β : Type} (a : α) (f : α → Checked β) :
    (Checked.ret a).bind f = f a := rfl

/-- A checked read inside the buffer gives the byte. -/
theorem readAt_eq {data : List Byte} {i : Nat} (h : i < data.length) :
    readAt data i = Checked.ret (rd data i) := by
  unfold readAt rd
  rw [List.getD_eq_getElem?_getD, List.getElem?_eq_getElem h]
  rfl

/-- A checked read outside the buffer faults. -/
theorem readAt_fault {data : List Byte} {i : Nat} (h : data.length ≤ i) :
    readAt data i = Checked.fault := by
  unfold readAt
  rw [List.getElem?_eq_none h]

/-- The frame-length decoder reads only inside a buffer of at least `length` bytes. -/
theorem parseFrameSizeEncodingChecked_eq {data : List Byte} {length : Nat}
    (h : length ≤ data.length) :
    parseFrameSizeEncodingChecked data length =
      Checked.ret (parseFrameSizeEncoding data length) := by
  unfold parseFrameSizeEncodingChecked parseFrameSizeEncoding
  by_cases h1 : length < 1
  · rw [if_pos h1, if_pos h1]
  · rw [if_neg h1, if_neg h1, readAt_eq (by omega), Checked.bind_ret]
    by_cases h2 : length < 2
    · split_ifs <;> rfl
    · rw [readAt_eq (by omega), Checked.bind_ret]
      split_ifs <;> rfl

/-- The remainder passed to the frame-length decoder lies inside the buffer. -/
theorem drop_length_le {data : List Byte} {length : Nat} (h : length ≤ data.length)
    (k : Nat) : length - k ≤ (data.drop k).length := by
  rw [List.length_drop]
  omega

/-- Case 0 reads only inside the buffer. -/
theorem parseCode0Checked_eq {data : List Byte} {length : Nat} (fi : OpusFrameInfo)
    (h : length ≤ data.length) :
    parseCode0Checked data length fi = Checked.ret (parseCode0 data length fi) := by
  unfold parseCode0Checked parseCode0
  simp only
  by_cases h1 : 1 ≥ length
  · rw [if_pos h1, if_pos h1]
  · rw [if_neg h1, if_neg h1, parseFrameSizeEncodingChecked_eq (drop_length_le h 1),
      Checked.bind_ret]
    rcases hfse : parseFrameSizeEncoding (data.drop 1) (length - 1) with _ | ⟨fs, br⟩
    · rfl
    · simp only
      split_ifs <;> rfl

/-- Case 1 reads only inside the buffer. -/
theorem parseCode1Checked_eq {data : List Byte} {length : Nat} (fi : OpusFrameInfo)
    (h : length ≤ data.length) :
    parseCode1Checked data length fi = Checked.ret (parseCode1 data length fi) := by
  unfold parseCode1Checked parseCode1
  simp only
  by_cases h1 : length < 2
  · rw [if_pos h1, if_pos h1]
  · rw [if_neg h1, if_neg h1, parseFrameSizeEncodingChecked_eq (drop_length_le h 1),
      Checked.bind_ret]
    rcases hfse : parseFrameSizeEncoding (data.drop 1) (length - 1) with _ | ⟨fs, br⟩
    · rfl
    · simp only
      split_ifs <;> rfl

/-- Case 2 reads only inside the buffer. -/
theorem parseCode2Checked_eq {data : List Byte} {length : Nat} (fi : OpusFrameInfo)
    (h : length ≤ data.length) :
    parseCode2Checked data length fi = Checked.ret (parseCode2 data length fi) := by
  unfold parseCode2Checked parseCode2
  simp only
  by_cases h1 : 1 ≥ length
  · rw [if_pos h1, if_pos h1]
  · rw [if_neg h1, if_neg h1, parseFrameSizeEncodingChecked_eq (drop_length_le h 1),
      Checked.bind_ret]
    rcases hfse : parseFrameSizeEncoding (data.drop 1) (length - 1) with _ | ⟨f1, br⟩
    · rfl
    · simp only
      by_cases h2 : 1 + br < length
      · rw [if_pos h2, if_pos h2,
          parseFrameSizeEncodingChecked_eq (drop_length_le h (1 + br)), Checked.bind_ret]
        rcases hfse2 : parseFrameSizeEncoding (data.drop (1 + br)) (length - (1 + br))
          with _ | ⟨f2, br2⟩
        · rfl
        · simp only
          split_ifs <;> rfl
      · rw [if_neg h2, if_neg h2]

/-- The padding loop reads only inside the buffer. -/
theorem paddingLoopChecked_eq (data : List Byte) :
    ∀ (fuel po len ps : Nat), len ≤ data.length →
      paddingLoopChecked data fuel po len ps =
        Checked.ret (paddingLoop data fuel po len ps) := by
  intro fuel
  induction fuel with
  | zero => intro po len ps _; rfl
  | succ fuel ih =>
    intro po len ps h
    unfold paddingLoopChecked paddingLoop
    by_cases h1 : po ≥ len
    · rw [if_pos h1, if_pos h1]
    · rw [if_neg h1, if_neg h1, readAt_eq (by omega), Checked.bind_ret]
      simp only
      by_cases h3 : rd data po = 255
      · simp only [if_pos h3]
        by_cases h2 : len < po + 1 + 254
        · rw [if_pos h2, if_pos h2]
        · rw [if_neg h2, if_neg h2]
          exact ih _ _ _ (by omega)
      · simp only [if_neg h3]
        split_ifs <;> rfl

/-- The loop of the VBR branch reads only inside the buffer. -/
theorem vbrLoopChecked_eq (data : List Byte) (length : Nat) (h : length ≤ data.length) :
    ∀ (n offset last : Nat) (acc : List Nat),
      vbrLoopChecked data length n offset last acc =
        Checked.ret (vbrLoop data length n offset last acc) := by
  intro n
  induction n with
  | zero => intro offset last acc; rfl
  | succ n ih =>
    intro offset last acc
    unfold vbrLoopChecked vbrLoop
    by_cases h1 : offset ≥ length
    · rw [if_pos h1, if_pos h1]
    · rw [if_neg h1, if_neg h1, parseFrameSizeEncodingChecked_eq (drop_length_le h offset),
        Checked.bind_ret]
      rcases hfse : parseFrameSizeEncoding (data.drop offset) (length - offset)
        with _ | ⟨fs, br⟩
      · rfl
      · simp only
        split_ifs
        · rfl
        · rfl
        · exact ih _ _ _

/-- The boundary search reads only inside the buffer. -/
theorem searchLoopChecked_eq (data : List Byte) (toc fcb mx orig : Nat)
    (h : orig ≤ data.length) :
    ∀ (n t : Nat),
      searchLoopChecked data toc fcb mx orig n t =
        Checked.ret (searchLoop data toc fcb mx orig n t) := by
  intro n
  induction n with
  | zero => intro t; rfl
  | succ n ih =>
    intro t
    unfold searchLoopChecked searchLoop
    by_cases hA : t ≤ mx ∧ t < orig
    · rw [if_pos hA, if_pos hA]
      by_cases hB : t + 1 < orig
      · rw [if_pos hB, readAt_eq (by omega), Checked.bind_ret]
        by_cases hC : rd data t = toc
        · rw [if_pos hC, readAt_eq (by omega), Checked.bind_ret]
          by_cases hD : rd data (t + 1) = fcb
          · rw [if_pos hD, if_pos ⟨hB, hC, hD⟩]
          · rw [if_neg hD, if_neg (fun hc => hD hc.2.2)]
            exact ih _
        · rw [if_neg hC, if_neg (fun hc => hC hc.2.1)]
          exact ih _
      · rw [if_neg hB, if_neg (fun hc => hB hc.1)]
        exact ih _
    · rw [if_neg hA, if_neg hA]

/-- The CBR branch reads only inside the buffer. -/
theorem parseCbrChecked_eq {data : List Byte} {offset length padding_size c : Nat}
    (fi : OpusFrameInfo) (h2 : 2 ≤ data.length) (h : length + padding_size ≤ data.length) :
    parseCbrChecked data offset length padding_size c fi =
      Checked.ret (parseCbr data offset length padding_size c fi) := by
  unfold parseCbrChecked parseCbr
  simp only
  by_cases a1 : length + padding_size ≥ u32 (offset + c * 10 + padding_size) ∧
      length + padding_size ≤ u32 (offset + c * 1275 + padding_size)
  · rw [if_pos a1, if_pos a1]
  · rw [if_neg a1, if_neg a1]
    by_cases a2 : length + padding_size > u32 (offset + c * 1275 + padding_size)
    · rw [if_pos a2, if_pos a2, readAt_eq (by omega), Checked.bind_ret,
        readAt_eq (by omega), Checked.bind_ret, searchLoopChecked_eq data _ _ _ _ h,
        Checked.bind_ret]
      split_ifs <;> rfl
    · rw [if_neg a2, if_neg a2]

/-- The VBR branch reads only inside the buffer. -/
theorem parseVbrChecked_eq {data : List Byte} {offset length c : Nat}
    (fi : OpusFrameInfo) (h : length ≤ data.length) :
    parseVbrChecked data offset length c fi =
      Checked.ret (parseVbr data offset length c fi) := by
  unfold parseVbrChecked parseVbr
  rw [vbrLoopChecked_eq data length h, Checked.bind_ret]
  rcases hv : vbrLoop data length (c - 1) offset (u32 (length - offset)) []
    with _ | ⟨o', last, sizes⟩
  · rfl
  · simp only
    split_ifs <;> rfl

/-- The padding step reads only inside the buffer. -/
theorem code3PaddingChecked_eq {data : List Byte} {length offset : Nat} (hp : Bool)
    (h : length ≤ data.length) :
    code3PaddingChecked data length offset hp =
      Checked.ret (code3Padding data length offset hp) := by
  unfold code3PaddingChecked code3Padding
  cases hp with
  | false => rfl
  | true =>
    rw [if_pos rfl, if_pos rfl]
    exact paddingLoopChecked_eq data length offset length 0 h

/-- Case 3 reads only inside the buffer. -/
theorem parseCode3Checked_eq {data : List Byte} {length : Nat} (fi : OpusFrameInfo)
    (h : length ≤ data.length) :
    parseCode3Checked data length fi = Checked.ret (parseCode3 data length fi) := by
  unfold parseCode3Checked parseCode3
  simp only [Nat.reduceAdd]
  by_cases h1 : 1 ≥ length
  · rw [if_pos h1, if_pos h1]
  · rw [if_neg h1, if_neg h1, readAt_eq (by omega), Checked.bind_ret]
    by_cases h2 : rd data 1 &&& 63 = 0
    · rw [if_pos h2, if_pos h2]
    · rw [if_neg h2, if_neg h2, code3PaddingChecked_eq _ h, Checked.bind_ret]
      rcases hpad : code3Padding data length 2 (rd data 1 >>> 6 &&& 1 != 0)
        with _ | ⟨offset, lred, P⟩
      · rfl
      · simp only
        obtain ⟨-, -, -, -, X, hX, hP, -⟩ := code3Padding_spec (by omega) hpad
        have hle : u32 X ≤ X := Nat.mod_le _ _
        by_cases hv : (rd data 1 >>> 7 &&& 1 != 0) = true
        · rw [if_pos hv, if_pos hv]
          exact parseVbrChecked_eq _ (by omega)
        · rw [if_neg hv, if_neg hv]
          exact parseCbrChecked_eq _ (by omega) (by omega)

/-- The checked parser dispatches on the frame-count code as the parser does. -/
theorem parseOpusPacketChecked_dispatch (data : List Byte) (length : Nat) (h : 1 ≤ length)
    (hd : length ≤ data.length) (m : OpusMode) (b : OpusBandwidth) (f : OpusFrameSize)
    (hmbf : getConfigInfo (rd data 0 / 8) = some (m, b, f)) :
    parseOpusPacketChecked data length =
      (if rd data 0 % 4 = 0 then
        parseCode0Checked data length
          (headerInfo (rd data 0) (rd data 0 / 8) (rd data 0 / 4 % 2 != 0) 0 m b f)
      else if rd data 0 % 4 = 1 then
        parseCode1Checked data length
          (headerInfo (rd data 0) (rd data 0 / 8) (rd data 0 / 4 % 2 != 0) 1 m b f)
      else if rd data 0 % 4 = 2 then
        parseCode2Checked data length
          (headerInfo (rd data 0) (rd data 0 / 8) (rd data 0 / 4 % 2 != 0) 2 m b f)
      else
        parseCode3Checked data length
          (headerInfo (rd data 0) (rd data 0 / 8) (rd data 0 / 4 % 2 != 0) 3 m b f)) := by
  have hlt := rd_lt data 0
  have hc : rd data 0 / 8 < 32 := by omega
  have h31 : rd data 0 / 8 % 32 = rd data 0 / 8 := Nat.mod_eq_of_lt hc
  unfold parseOpusPacketChecked parseTOC
  rw [if_neg (by omega), readAt_eq (by omega), Checked.bind_ret]
  simp only [and3_eq, and31_eq, shr3_eq, shr2_eq, Nat.and_one_is_mod, h31, hmbf]
  have h4 : rd data 0 % 4 < 4 := Nat.mod_lt _ (by decide)
  generalize rd data 0 % 4 = k at h4 ⊢
  interval_cases k <;> rfl

/-- With a length that is at most the size of the buffer, the checked parser never
faults and returns what the parser returns. -/
theorem parseOpusPacketChecked_eq (data : List Byte) (length : Nat)
    (hd : length ≤ data.length) :
    parseOpusPacketChecked data length = Checked.ret (parseOpusPacket data length) := by
  by_cases h : length < 1
  · unfold parseOpusPacketChecked parseOpusPacket
    rw [if_pos h, if_pos h]
  · obtain ⟨m, b, f, hmbf, heq⟩ := parseOpusPacket_eq data length (by omega)
    rw [heq, parseOpusPacketChecked_dispatch data length (by omega) hd m b f hmbf]
    split_ifs
    · exact parseCode0Checked_eq _ hd
    · exact parseCode1Checked_eq _ hd
    · exact parseCode2Checked_eq _ hd
    · exact parseCode3Checked_eq _ hd

/-! ## The claims -/

/-- C1 (code defect): on the plain code-2 packet `code2Plain` (4 bytes) the parser
succeeds with `total_size = 4`, `frame_sizes = [1, 1]`, `padding_size = 0` and
`data_offset = 1`, the value written before the `switch`: the plain branch of case 2
does not record the byte of the frame-length code, so the sum of the frame sizes,
`data_offset` and `padding_size` is 3, not `total_size`. -/
theorem code2_plain_size_sum_mismatch :
    code2Plain.length = 4 ∧
      ∃ info, parseOpusPacket code2Plain code2Plain.length = some info ∧
        info.frame_count_code = 2 ∧ info.is_self_delimiting = false ∧
        info.frame_sizes = [1, 1] ∧ info.data_offset = 1 ∧ info.padding_size = 0 ∧
        info.total_size = 4 ∧
        info.frame_sizes.sum + info.data_offset + info.padding_size ≠ info.total_size :=
  ⟨rfl, _, rfl, rfl, rfl, rfl, rfl, rfl, rfl, by decide⟩

/-- C2: every entry of `frame_sizes` of a buffer that `parseOpusPacket` accepts is at
most 1275, for each of the four frame-count codes, self-delimited or not, CBR or
VBR, and whatever the length. -/
theorem accepted_frame_sizes_le_1275 (data : List Byte) (length : Nat) (info : OpusFrameInfo)
    (h : parseOpusPacket data length = some info) :
    ∀ s ∈ info.frame_sizes, s ≤ 1275 := by
  obtain ⟨m, b, f, -, heq⟩ := parseOpusPacket_eq data length (parseOpusPacket_length_pos h)
  rw [heq] at h
  split_ifs at h
  · exact (parseCode0_facts h).1
  · exact (parseCode1_facts h).1
  · exact (parseCode2_facts h).1
  · exact (parseCode3_facts rfl rfl h).1

/-- C2 at the three-frame VBR packet `vbrThree`, accepted with sizes `[2, 3, 3]`. -/
theorem accepted_frame_sizes_le_1275_witness :
    parseOpusPacket vbrThree vbrThree.length = some vbrThreeInfo ∧
      ∀ s ∈ vbrThreeInfo.frame_sizes, s ≤ 1275 :=
  ⟨by decide,
    accepted_frame_sizes_le_1275 vbrThree vbrThree.length vbrThreeInfo (by decide)⟩

/-- C3 (refuted as stated): in the buffer `cbrWrapped` of 4311878621 bytes, a CBR
code-3 packet of one frame whose padding is `2^32 - 10`, the length exceeds
`max = offset + count * 1275 + padding`, the parser accepts, and `total_size` is
16909323, below `min = offset + count * 10 + padding`; the frame size is 10, not
`(total_size - offset - padding) / count`.  The 32-bit bounds of the search have
wrapped. -/
theorem cbr_search_wrapped_range :
    cbrWrapped.length = 4311878621 ∧
      rd cbrWrapped 0 % 4 = 3 ∧ rd cbrWrapped 1 / 128 % 2 = 0 ∧ rd cbrWrapped 1 % 64 = 1 ∧
      code3Padding cbrWrapped cbrWrapped.length 2 (rd cbrWrapped 1 / 64 % 2 != 0) =
        some (16909323, 16911335, 4294967286) ∧
      16909323 + 1 * 1275 + 4294967286 < cbrWrapped.length ∧
      ∃ info,
        parseOpusPacket cbrWrapped cbrWrapped.length = some info ∧
        info.total_size = 16909323 ∧
        ¬ (16909323 + 1 * 10 + 4294967286 ≤ info.total_size) ∧
        info.frame_sizes = [10] ∧
        (info.total_size - 16909323 - 4294967286) / 1 ≠ 10 := by
  have hL : cbrWrapped.length = 4311878621 := by
    unfold cbrWrapped
    rw [List.length_cons, List.length_cons, List.length_append, List.length_replicate,
      List.length_cons, List.length_cons, List.length_cons, List.length_replicate]
  have hrun : ∀ i, i < 16909320 → rd cbrWrapped (2 + i) = 255 := by
    intro i hi
    unfold cbrWrapped
    rw [rd_cons_cons, rd_replicate_append_left _ _ _ _ hi]
    rfl
  have hat : ∀ j, rd cbrWrapped (2 + (16909320 + j)) =
      rd (0x06 :: 0x03 :: 0x41 :: List.replicate 4294969296 0 : List Byte) j := by
    intro j
    unfold cbrWrapped
    rw [rd_cons_cons, rd_replicate_append_right]
  obtain ⟨hpad, info, a1, a2, a3, -⟩ := parseOpusPacket_wrapped_padding cbrWrapped rfl rfl hrun
    (hat 0) (hat 1) (hat 2) hL
  refine ⟨hL, rfl, rfl, rfl, hpad, by rw [hL]; decide, info, a1, a2, ?_, a3, ?_⟩
  · rw [a2]; decide
  · rw [a2]; decide

/-- C3 (as amended): for every CBR code-3 buffer shorter than `2^32` bytes whose
length exceeds `max = offset + count * 1275 + padding` (`offset` and `padding` as the
padding step leaves them): whenever `parseOpusPacket` accepts it, `total_size` is
the smallest position `t` with `min ≤ t ≤ max` (`min = offset + count * 10 +
padding`), `t + 1` inside the buffer, `data[t] = data[0]` and `data[t+1] = data[1]`,
and every frame size is `(t - offset - padding) / count`. -/
theorem cbr_search_total_size (data : List Byte) (offset lred padding : Nat)
    (info : OpusFrameInfo)
    (hlen : data.length < 4294967296)
    (hcode : rd data 0 % 4 = 3) (hcbr : rd data 1 / 128 % 2 = 0)
    (hpad : code3Padding data data.length 2 (rd data 1 / 64 % 2 != 0) =
      some (offset, lred, padding))
    (hbig : offset + rd data 1 % 64 * 1275 + padding < data.length)
    (hacc : parseOpusPacket data data.length = some info) :
    offset + rd data 1 % 64 * 10 + padding ≤ info.total_size ∧
      info.total_size ≤ offset + rd data 1 % 64 * 1275 + padding ∧
      info.total_size + 1 < data.length ∧
      rd data info.total_size = rd data 0 ∧
      rd data (info.total_size + 1) = rd data 1 ∧
      (∀ t, offset + rd data 1 % 64 * 10 + padding ≤ t → t < info.total_size →
        ¬ (t + 1 < data.length ∧ rd data t = rd data 0 ∧ rd data (t + 1) = rd data 1)) ∧
      info.frame_sizes = List.replicate (rd data 1 % 64)
        ((info.total_size - offset - padding) / (rd data 1 % 64)) ∧
      info.frame_count = rd data 1 % 64 ∧ info.data_offset = offset ∧
      info.padding_size = padding := by
  obtain ⟨hl, hcount, -⟩ := parseOpusPacket_code3_inv hcode hacc
  obtain ⟨ho2, hol, hLP, -, -⟩ := code3Padding_exact hl hlen hpad
  obtain ⟨fi, e1, e2, -, -, -, -, heq⟩ := parseOpusPacket_cbr data data.length offset lred padding
    hl hcode hcbr hcount hpad
  rw [heq, parseCbr_search data offset lred padding _ fi hcount (by omega) (by omega), hLP]
    at hacc
  have hf := searchLoop_found data (rd data 0) (rd data 1)
    (offset + rd data 1 % 64 * 1275 + padding) data.length (rd data 1 % 64 * 1265 + 1)
    (offset + rd data 1 % 64 * 10 + padding)
  generalize searchLoop data (rd data 0) (rd data 1)
    (offset + rd data 1 % 64 * 1275 + padding) data.length (rd data 1 % 64 * 1265 + 1)
    (offset + rd data 1 % 64 * 10 + padding) = r at hf hacc
  split_ifs at hacc with h0 hd
  simp only [Option.some.injEq] at hacc
  subst hacc
  obtain ⟨f1, -, f3, f4, f5, f6, f7⟩ := hf h0
  exact ⟨f1, f3, f4, f5, f6, f7, rfl, e1, rfl, e2⟩

/-- C3 (as amended) at `cbrStream` (2626 bytes, `offset = 2`, `padding = 0`, two
frames): the boundary is found at offset 24, the first of `[22, 2552]` that repeats
the first two bytes, and the frames have `(24 - 2 - 0) / 2` bytes. -/
theorem cbr_search_total_size_witness :
    parseOpusPacket cbrStream cbrStream.length = some cbrStreamInfo ∧
      cbrStreamInfo.total_size = 24 ∧
      2 + rd cbrStream 1 % 64 * 10 + 0 ≤ cbrStreamInfo.total_size ∧
      cbrStreamInfo.total_size ≤ 2 + rd cbrStream 1 % 64 * 1275 + 0 ∧
      rd cbrStream cbrStreamInfo.total_size = rd cbrStream 0 ∧
      rd cbrStream (cbrStreamInfo.total_size + 1) = rd cbrStream 1 ∧
      cbrStreamInfo.frame_sizes = List.replicate (rd cbrStream 1 % 64)
        ((cbrStreamInfo.total_size - 2 - 0) / (rd cbrStream 1 % 64)) := by
  have hacc : parseOpusPacket cbrStream cbrStream.length = some cbrStreamInfo := by
    rw [cbrStream_length]; decide
  have key := cbr_search_total_size cbrStream 2 2626 0 cbrStreamInfo
    (by rw [cbrStream_length]; decide) (by decide) (by decide)
    (by rw [cbrStream_length]; decide) (by rw [cbrStream_length]; decide) hacc
  exact ⟨hacc, rfl, key.1, key.2.1, key.2.2.2.1, key.2.2.2.2.1, key.2.2.2.2.2.2.1⟩

/-- C4 (refuted as stated): `cbrOddStream` (2625 bytes) is a CBR code-3 buffer of two
frames without padding, longer than `max = 2 + 2 * 1275`, with the TOC byte and the
count byte repeated at `t = 23`, inside `[22, 2552]` and first there; the parser
rejects it, because 2 does not divide the 21 bytes before `t`. -/
theorem cbr_search_match_rejected :
    cbrOddStream.length = 2625 ∧
      rd cbrOddStream 0 % 4 = 3 ∧ rd cbrOddStream 1 / 128 % 2 = 0 ∧
      rd cbrOddStream 1 % 64 = 2 ∧
      code3Padding cbrOddStream cbrOddStream.length 2 (rd cbrOddStream 1 / 64 % 2 != 0) =
        some (2, 2625, 0) ∧
      2 + 2 * 1275 + 0 < cbrOddStream.length ∧
      2 + 2 * 10 + 0 ≤ 23 ∧ 23 ≤ 2 + 2 * 1275 + 0 ∧
      rd cbrOddStream 22 ≠ rd cbrOddStream 0 ∧
      rd cbrOddStream 23 = rd cbrOddStream 0 ∧ rd cbrOddStream (23 + 1) = rd cbrOddStream 1 ∧
      parseOpusPacket cbrOddStream cbrOddStream.length = none := by
  rw [cbrOddStream_length]
  decide

/-- C4 (as amended): for every CBR code-3 buffer shorter than `2^32` bytes (frame
count at least 1, valid padding) that is longer than the maximum plausible packet
size and in which `t` is the first position of the plausible range
`[offset + count * 10 + padding, offset + count * 1275 + padding]` that holds the
packet's own TOC byte and frame-count byte, `parseOpusPacket` succeeds exactly when
the frame count divides `t - offset - padding`, and then reports `total_size = t`
and frames of `(t - offset - padding) / count` bytes. -/
theorem cbr_search_succeeds_iff (data : List Byte) (offset lred padding t : Nat)
    (hlen : data.length < 4294967296)
    (hcode : rd data 0 % 4 = 3) (hcbr : rd data 1 / 128 % 2 = 0)
    (hcount : 1 ≤ rd data 1 % 64)
    (hpad : code3Padding data data.length 2 (rd data 1 / 64 % 2 != 0) =
      some (offset, lred, padding))
    (hbig : offset + rd data 1 % 64 * 1275 + padding < data.length)
    (hlo : offset + rd data 1 % 64 * 10 + padding ≤ t)
    (hhi : t ≤ offset + rd data 1 % 64 * 1275 + padding)
    (hin : t + 1 < data.length)
    (htoc : rd data t = rd data 0) (hfcb : rd data (t + 1) = rd data 1)
    (hfirst : ∀ t', offset + rd data 1 % 64 * 10 + padding ≤ t' → t' < t →
      ¬ (t' + 1 < data.length ∧ rd data t' = rd data 0 ∧ rd data (t' + 1) = rd data 1)) :
    ((parseOpusPacket data data.length).isSome = true ↔
        rd data 1 % 64 ∣ (t - offset - padding)) ∧
      ∀ info, parseOpusPacket data data.length = some info →
        info.total_size = t ∧
        info.frame_sizes = List.replicate (rd data 1 % 64)
          ((t - offset - padding) / (rd data 1 % 64)) := by
  have hl : 1 < data.length := by omega
  obtain ⟨ho2, hol, hLP, -, -⟩ := code3Padding_exact hl hlen hpad
  obtain ⟨fi, e1, e2, -, -, -, -, heq⟩ := parseOpusPacket_cbr data data.length offset lred padding
    hl hcode hcbr (by omega) hpad
  rw [heq, parseCbr_search data offset lred padding _ fi (by omega) (by omega) (by omega), hLP]
  have hf := searchLoop_found data (rd data 0) (rd data 1)
    (offset + rd data 1 % 64 * 1275 + padding) data.length (rd data 1 % 64 * 1265 + 1)
    (offset + rd data 1 % 64 * 10 + padding)
  have hn := searchLoop_none data (rd data 0) (rd data 1)
    (offset + rd data 1 % 64 * 1275 + padding) data.length (rd data 1 % 64 * 1265 + 1)
    (offset + rd data 1 % 64 * 10 + padding) (by omega)
  generalize searchLoop data (rd data 0) (rd data 1)
    (offset + rd data 1 % 64 * 1275 + padding) data.length (rd data 1 % 64 * 1265 + 1)
    (offset + rd data 1 % 64 * 10 + padding) = r at hf hn
  have hr : r = t := by
    by_cases h0 : r = 0
    · exact absurd ⟨hin, htoc, hfcb⟩ (hn h0 t hlo (by omega) hhi)
    · obtain ⟨f1, -, f3, f4, f5, f6, f7⟩ := hf h0
      rcases Nat.lt_trichotomy r t with hlt | heq | hgt
      · exact absurd ⟨f4, f5, f6⟩ (hfirst r f1 hlt)
      · exact heq
      · exact absurd ⟨hin, htoc, hfcb⟩ (f7 t hlo hgt)
  subst hr
  rw [if_neg (by omega)]
  by_cases hd : rd data 1 % 64 ∣ (r - offset - padding)
  · rw [if_pos hd]
    refine ⟨by simp [hd], ?_⟩
    intro info hinfo
    simp only [Option.some.injEq] at hinfo
    subst hinfo
    exact ⟨rfl, rfl⟩
  · rw [if_neg hd]
    refine ⟨by simp [hd], ?_⟩
    intro info hinfo
    exact absurd hinfo (by simp)

/-- C4 (as amended) at `cbrStream`, whose first match is at offset 24. -/
theorem cbr_search_succeeds_iff_witness :
    ((parseOpusPacket cbrStream cbrStream.length).isSome = true ↔ 2 ∣ (24 - 2 - 0)) ∧
      ∀ info, parseOpusPacket cbrStream cbrStream.length = some info →
        info.total_size = 24 ∧ info.frame_sizes = List.replicate 2 ((24 - 2 - 0) / 2) :=
  cbr_search_succeeds_iff cbrStream 2 2626 0 24
    (by rw [cbrStream_length]; decide) (by decide) (by decide) (by decide)
    (by rw [cbrStream_length]; decide) (by rw [cbrStream_length]; decide)
    (by decide) (by decide) (by rw [cbrStream_length]; decide) (by decide) (by decide)
    (by
      intro t h1 h2
      have h3 : 22 ≤ t := h1
      rw [cbrStream_length]
      interval_cases t <;> decide)

/-- C5 (refuted as stated): `cbrShort` is a CBR code-3 buffer of 7 bytes with frame
count 1 and no padding, shorter than `min = 2 + 1 * 10`; the parser returns `false`
on it and reports nothing. -/
theorem cbr_unresolved_not_accepted :
    cbrShort.length = 7 ∧
      rd cbrShort 0 % 4 = 3 ∧ rd cbrShort 1 / 128 % 2 = 0 ∧ rd cbrShort 1 % 64 = 1 ∧
      code3Padding cbrShort cbrShort.length 2 (rd cbrShort 1 / 64 % 2 != 0) =
        some (2, 7, 0) ∧
      cbrShort.length < 2 + 1 * 10 + 0 ∧
      parseOpusPacket cbrShort cbrShort.length = none := by
  decide

/-- C5 (as amended): for every CBR code-3 buffer shorter than `2^32` bytes with a
non-zero frame count and well-formed padding whose boundary cannot be resolved (the
length is below `min = offset + count * 10 + padding`, or it exceeds
`max = offset + count * 1275 + padding` and no position of `[min, max]` holds the TOC
byte and the frame-count byte), `parseOpusPacket` fails. -/
theorem cbr_unresolved_fails (data : List Byte) (offset lred padding : Nat)
    (hlen : data.length < 4294967296)
    (hcode : rd data 0 % 4 = 3) (hcbr : rd data 1 / 128 % 2 = 0)
    (hcount : 1 ≤ rd data 1 % 64)
    (hpad : code3Padding data data.length 2 (rd data 1 / 64 % 2 != 0) =
      some (offset, lred, padding))
    (hun : data.length < offset + rd data 1 % 64 * 10 + padding ∨
      (offset + rd data 1 % 64 * 1275 + padding < data.length ∧
        ∀ t, offset + rd data 1 % 64 * 10 + padding ≤ t →
          t ≤ offset + rd data 1 % 64 * 1275 + padding →
          ¬ (t + 1 < data.length ∧ rd data t = rd data 0 ∧ rd data (t + 1) = rd data 1))) :
    parseOpusPacket data data.length = none := by
  have hl : 1 < data.length := by
    by_contra hl
    have := @rd_of_length_le data 1 (by omega)
    omega
  have hc63 : rd data 1 % 64 < 64 := Nat.mod_lt _ (by decide)
  obtain ⟨ho2, hol, hLP, hP, hrun⟩ := code3Padding_exact hl hlen hpad
  obtain ⟨fi, -, -, -, -, -, -, heq⟩ := parseOpusPacket_cbr data data.length offset lred padding
    hl hcode hcbr (by omega) hpad
  rw [heq]
  rcases hun with hshort | ⟨hbig, hno⟩
  · by_cases hw : offset + rd data 1 % 64 * 1275 + padding < 4294967296
    · exact parseCbr_too_short data offset lred padding _ fi hw (by omega)
    · exact parseCbr_wrapped_none data offset lred padding _ fi hc63 hol (by omega) hP hrun
        hcbr (by omega)
  · rw [parseCbr_search data offset lred padding _ fi (by omega) (by omega) (by omega), hLP]
    have hf := searchLoop_found data (rd data 0) (rd data 1)
      (offset + rd data 1 % 64 * 1275 + padding) data.length (rd data 1 % 64 * 1265 + 1)
      (offset + rd data 1 % 64 * 10 + padding)
    generalize searchLoop data (rd data 0) (rd data 1)
      (offset + rd data 1 % 64 * 1275 + padding) data.length (rd data 1 % 64 * 1265 + 1)
      (offset + rd data 1 % 64 * 10 + padding) = r at hf
    by_cases h0 : r = 0
    · rw [if_pos h0]
    · obtain ⟨f1, -, f3, f4, f5, f6, -⟩ := hf h0
      exact absurd ⟨f4, f5, f6⟩ (hno r f1 f3)

/-- C5 (as amended) at `cbrStream` cut after 12 bytes: 10 payload bytes do not reach
the minimum of `2 * 10`. -/
theorem cbr_unresolved_fails_witness :
    parseOpusPacket (cbrStream.take 12) (cbrStream.take 12).length = none :=
  cbr_unresolved_fails (cbrStream.take 12) 2 12 0 (by decide) (by decide) (by decide)
    (by decide) (by decide) (Or.inl (by decide))

/-- C6 (refuted as stated): the VBR code-3 packet `vbrOne` is accepted with
`total_size = 0` and `is_cbr = false`. -/
theorem vbr_total_size_zero :
    rd vbrOne 0 % 4 = 3 ∧ rd vbrOne 1 / 128 % 2 = 1 ∧
      ∃ info, parseOpusPacket vbrOne vbrOne.length = some info ∧
        info.frame_count_code = 3 ∧ info.is_cbr = false ∧ info.frame_sizes = [5] ∧
        info.total_size = 0 :=
  ⟨rfl, rfl, _, rfl, rfl, rfl, rfl, rfl⟩

/-- C6 (as amended): for every buffer that `parseOpusPacket` accepts,
`frame_count_code` is the low two bits of the TOC byte, `is_cbr` of a code-3 packet
says that bit 7 of the frame-count byte is clear, and `total_size = 0` holds exactly
for the code-3 packets with `is_cbr = false`: every accepted VBR code-3 packet has
`total_size = 0`, and every accepted code-0, code-1, code-2 and CBR code-3 packet
has `total_size ≠ 0`. -/
theorem total_size_zero_iff_code3_vbr (data : List Byte) (length : Nat) (info : OpusFrameInfo)
    (h : parseOpusPacket data length = some info) :
    info.frame_count_code = rd data 0 % 4 ∧
      (info.frame_count_code = 3 → info.is_cbr = (!(rd data 1 / 128 % 2 != 0))) ∧
      (info.total_size = 0 ↔ (info.frame_count_code = 3 ∧ info.is_cbr = false)) := by
  obtain ⟨m, b, f, -, heq⟩ := parseOpusPacket_eq data length (parseOpusPacket_length_pos h)
  rw [heq] at h
  have h4 : rd data 0 % 4 < 4 := Nat.mod_lt _ (by decide)
  split_ifs at h with h0 h1 h2
  · obtain ⟨-, a2, a3⟩ := parseCode0_facts h
    have a4 : info.frame_count_code = 0 := a3
    refine ⟨by omega, by omega, ?_⟩
    constructor
    · intro hz; exact absurd hz a2
    · intro hz; omega
  · obtain ⟨-, a2, a3⟩ := parseCode1_facts h
    have a4 : info.frame_count_code = 1 := a3
    refine ⟨by omega, by omega, ?_⟩
    constructor
    · intro hz; exact absurd hz a2
    · intro hz; omega
  · obtain ⟨-, a2, a3⟩ := parseCode2_facts h
    have a4 : info.frame_count_code = 2 := a3
    refine ⟨by omega, by omega, ?_⟩
    constructor
    · intro hz; exact absurd hz a2
    · intro hz; omega
  · obtain ⟨-, a2, a3, a4⟩ := parseCode3_facts rfl rfl h
    have a5 : info.frame_count_code = 3 := a2
    refine ⟨by omega, fun _ => a3, ?_⟩
    rw [a4]
    constructor
    · intro hz; exact ⟨a5, hz⟩
    · intro hz; exact hz.2

/-- C6 (as amended) at `cbrFour`: a CBR packet, with `total_size = 42`. -/
theorem total_size_zero_iff_code3_vbr_witness :
    parseOpusPacket cbrFour cbrFour.length = some cbrFourInfo ∧
      cbrFourInfo.frame_count_code = rd cbrFour 0 % 4 ∧
      (cbrFourInfo.frame_count_code = 3 →
        cbrFourInfo.is_cbr = (!(rd cbrFour 1 / 128 % 2 != 0))) ∧
      (cbrFourInfo.total_size = 0 ↔
        (cbrFourInfo.frame_count_code = 3 ∧ cbrFourInfo.is_cbr = false)) :=
  ⟨by decide,
    total_size_zero_iff_code3_vbr cbrFour cbrFour.length cbrFourInfo (by decide)⟩

/-- C7: for every CBR code-3 buffer without padding whose frame count `c` (the low
six bits of byte 1) is at least 1 and whose length is `2 + n` with
`10 * c ≤ n ≤ 1275 * c`, `parseOpusPacket` succeeds exactly when `c` divides `n`, and
then `frame_count = c`, `frame_sizes` is `c` copies of `n / c`, `data_offset = 2` and
`total_size = 2 + n`. -/
theorem cbr_exact_length (data : List Byte) (n : Nat)
    (hcode : rd data 0 % 4 = 3) (hcbr : rd data 1 / 128 % 2 = 0)
    (hnopad : rd data 1 / 64 % 2 = 0) (hcount : 1 ≤ rd data 1 % 64)
    (hlen : data.length = 2 + n)
    (hlo : 10 * (rd data 1 % 64) ≤ n) (hhi : n ≤ 1275 * (rd data 1 % 64)) :
    ((parseOpusPacket data data.length).isSome = true ↔ rd data 1 % 64 ∣ n) ∧
      ∀ info, parseOpusPacket data data.length = some info →
        info.frame_count = rd data 1 % 64 ∧
        info.frame_sizes = List.replicate (rd data 1 % 64) (n / (rd data 1 % 64)) ∧
        info.data_offset = 2 ∧ info.total_size = 2 + n := by
  have hpad : code3Padding data data.length 2 (rd data 1 / 64 % 2 != 0) =
      some (2, data.length, 0) := by
    simp [code3Padding, hnopad]
  obtain ⟨fi, e1, -, -, -, -, -, heq⟩ := parseOpusPacket_cbr data data.length 2 data.length 0
    (by omega) hcode hcbr (by omega) hpad
  have hc63 : rd data 1 % 64 < 64 := Nat.mod_lt _ (by decide)
  rw [heq, parseCbr_in_range data 2 data.length 0 _ fi (by omega) (by omega) (by omega)
    (by omega) (by omega), hlen, Nat.add_sub_cancel_left]
  by_cases hd : rd data 1 % 64 ∣ n
  · rw [if_pos hd]
    refine ⟨by simp [hd], ?_⟩
    intro info hinfo
    simp only [Option.some.injEq] at hinfo
    subst hinfo
    exact ⟨e1, rfl, rfl, rfl⟩
  · rw [if_neg hd]
    refine ⟨by simp [hd], ?_⟩
    intro info hinfo
    exact absurd hinfo (by simp)

/-- C7 at `cbrFour`: `c = 4` and `n = 40` give `[10, 10, 10, 10]` and
`total_size = 42`. -/
theorem cbr_exact_length_witness :
    (4 ∣ 40) ∧ (parseOpusPacket cbrFour cbrFour.length).isSome = true ∧
      ∀ info, parseOpusPacket cbrFour cbrFour.length = some info →
        info.frame_count = 4 ∧ info.frame_sizes = [10, 10, 10, 10] ∧
          info.data_offset = 2 ∧ info.total_size = 42 :=
  ⟨by decide,
    (cbr_exact_length cbrFour 40 (by decide) (by decide) (by decide) (by decide)
      (by decide) (by decide) (by decide)).1.mpr (by decide),
    (cbr_exact_length cbrFour 40 (by decide) (by decide) (by decide) (by decide)
      (by decide) (by decide) (by decide)).2⟩

/-- C8 (refuted as stated): `vbrLong` is a VBR code-3 buffer of `2^32 + 100` bytes
with one frame and no padding; the parser accepts it with `frame_sizes = [98]` and
`data_offset = 2`, which do not add up to the length (the remainder
`2^32 + 98`, above 1275, was reduced modulo `2^32`). -/
theorem vbr_long_buffer_remainder :
    vbrLong.length = 4294967396 ∧
      rd vbrLong 0 % 4 = 3 ∧ rd vbrLong 1 / 128 % 2 = 1 ∧
      ∃ info,
        parseOpusPacket vbrLong vbrLong.length = some info ∧
        info.frame_sizes = [98] ∧ info.data_offset = 2 ∧ info.padding_size = 0 ∧
        info.data_offset + info.frame_sizes.sum + info.padding_size ≠ vbrLong.length := by
  have hL : vbrLong.length = 4294967396 := by
    unfold vbrLong
    rw [List.length_cons, List.length_cons, List.length_replicate]
  refine ⟨hL, rfl, rfl, ?_⟩
  obtain ⟨info, a1, a2, a3, a4, -⟩ := parseOpusPacket_vbr_long vbrLong rfl rfl hL
  refine ⟨info, a1, a2, a3, a4, ?_⟩
  rw [a2, a3, a4, hL]
  decide

/-- C8 (as amended): for every VBR code-3 buffer shorter than `2^32` bytes that
`parseOpusPacket` accepts with frame count `c`: the first `c - 1` entries of
`frame_sizes` are the values of the `c - 1` consecutive frame-length codes that
follow the frame-count byte and the padding-length bytes, `data_offset` is the
offset after these codes, no entry exceeds 1275, and the last entry is the data
that remains, so that `data_offset + sum(frame_sizes) + padding_size` is the buffer
length; and such a buffer is rejected when that remainder would be negative or
above 1275. -/
theorem vbr_frame_sizes (data : List Byte)
    (hlen : data.length < 4294967296)
    (hcode : rd data 0 % 4 = 3) (hvbr : rd data 1 / 128 % 2 = 1) :
    (∀ info, parseOpusPacket data data.length = some info →
      ∃ offset lred padding sizes,
        code3Padding data data.length 2 (rd data 1 / 64 % 2 != 0) =
          some (offset, lred, padding) ∧
        frameLengthCodes data lred (rd data 1 % 64 - 1) offset =
          some (sizes, info.data_offset) ∧
        info.frame_count = rd data 1 % 64 ∧ info.padding_size = padding ∧
        info.frame_sizes =
          sizes ++ [data.length - padding - info.data_offset - sizes.sum] ∧
        info.frame_sizes.length = rd data 1 % 64 ∧
        (∀ s ∈ info.frame_sizes, s ≤ 1275) ∧
        info.data_offset + info.frame_sizes.sum + info.padding_size = data.length) ∧
    (∀ offset lred padding sizes last_offset,
      code3Padding data data.length 2 (rd data 1 / 64 % 2 != 0) =
        some (offset, lred, padding) →
      frameLengthCodes data lred (rd data 1 % 64 - 1) offset = some (sizes, last_offset) →
      (data.length < last_offset + sizes.sum + padding ∨
        1275 < data.length - padding - last_offset - sizes.sum) →
      parseOpusPacket data data.length = none) := by
  have part1 : ∀ info, parseOpusPacket data data.length = some info →
      ∃ offset lred padding sizes,
        code3Padding data data.length 2 (rd data 1 / 64 % 2 != 0) =
          some (offset, lred, padding) ∧
        frameLengthCodes data lred (rd data 1 % 64 - 1) offset =
          some (sizes, info.data_offset) ∧
        info.frame_count = rd data 1 % 64 ∧ info.padding_size = padding ∧
        info.frame_sizes =
          sizes ++ [data.length - padding - info.data_offset - sizes.sum] ∧
        info.frame_sizes.length = rd data 1 % 64 ∧
        (∀ s ∈ info.frame_sizes, s ≤ 1275) ∧
        info.data_offset + info.frame_sizes.sum + info.padding_size = data.length := by
    intro info hacc
    obtain ⟨hl, hcount, offset, lred, P, hpad⟩ := parseOpusPacket_code3_inv hcode hacc
    obtain ⟨ho2, hol, hLP, -, -⟩ := code3Padding_exact hl hlen hpad
    obtain ⟨fi, e1, e2, -, -, -, -, -, heq⟩ := parseOpusPacket_vbr data data.length offset lred P
      hl hcode hvbr hcount hpad
    rw [heq] at hacc
    have hc63 : rd data 1 % 64 < 64 := Nat.mod_lt _ (by decide)
    obtain ⟨sizes, s1, s2, s3, s4, s5, s6, s7⟩ := parseVbr_spec hc63 hol (by omega) hacc
    have hrem : data.length - P - info.data_offset - sizes.sum =
        lred - info.data_offset - sizes.sum := by omega
    refine ⟨offset, lred, P, sizes, hpad, s1, by rw [s6, e1], by rw [s7, e2], ?_, ?_, s5, ?_⟩
    · rw [s4, hrem]
    · rw [s4, List.length_append, s2, List.length_singleton]; omega
    · rw [s4, List.sum_append, List.sum_singleton, s7, e2]; omega
  refine ⟨part1, ?_⟩
  intro offset lred padding sizes last_offset hpad hcodes hbad
  rcases hres : parseOpusPacket data data.length with _ | info
  · rfl
  · exfalso
    obtain ⟨o2, l2, p2, sz2, a1, a2, -, a4, a5, -, a7, a8⟩ := part1 info hres
    rw [hpad] at a1
    simp only [Option.some.injEq, Prod.mk.injEq] at a1
    obtain ⟨rfl, rfl, rfl⟩ := a1
    rw [hcodes] at a2
    simp only [Option.some.injEq, Prod.mk.injEq] at a2
    obtain ⟨rfl, rfl⟩ := a2
    have hlast := a7 (data.length - padding - info.data_offset - sizes.sum)
      (by rw [a5]; simp)
    rw [a5, List.sum_append, List.sum_singleton, a4] at a8
    omega

/-- C8 (as amended) at `vbrThree`: the codes `2` and `3` are read, 3 bytes remain, and
offset, sizes and padding add up to the 12 bytes of the buffer. -/
theorem vbr_frame_sizes_witness :
    parseOpusPacket vbrThree vbrThree.length = some vbrThreeInfo ∧
      frameLengthCodes vbrThree 12 (rd vbrThree 1 % 64 - 1) 2 = some ([2, 3], 4) ∧
      vbrThreeInfo.frame_sizes = [2, 3] ++ [3] ∧
      vbrThreeInfo.data_offset + vbrThreeInfo.frame_sizes.sum + vbrThreeInfo.padding_size =
        vbrThree.length := by
  have hacc : parseOpusPacket vbrThree vbrThree.length = some vbrThreeInfo := by decide
  obtain ⟨_, _, _, _, _, _, _, _, _, _, _, hsum⟩ :=
    (vbr_frame_sizes vbrThree (by decide) (by decide) (by decide)).1 vbrThreeInfo hacc
  exact ⟨hacc, by decide, rfl, hsum⟩

/-- C9: `parseFrameSizeEncoding` on a whole buffer is the frame-length decoder of the
specification, `refFrameLength`; it fails exactly on the empty buffer and on a
one-byte buffer whose byte is 252 or more. -/
theorem parseFrameSizeEncoding_eq_ref (data : List Byte) :
    parseFrameSizeEncoding data data.length = refFrameLength data ∧
      (parseFrameSizeEncoding data data.length = none ↔
        data = [] ∨ ∃ b0 : Byte, data = [b0] ∧ 252 ≤ b0.val) := by
  cases data with
  | nil => simp [parseFrameSizeEncoding, refFrameLength]
  | cons b0 rest =>
    have hb := b0.isLt
    cases rest with
    | nil =>
      simp only [parseFrameSizeEncoding, refFrameLength, rd, List.getD_cons_zero,
        List.length_cons, List.length_nil]
      split_ifs <;> simp <;> omega
    | cons b1 tl =>
      simp only [parseFrameSizeEncoding, refFrameLength, rd, List.getD_cons_zero,
        List.getD_cons_succ, List.length_cons]
      split_ifs <;> simp <;> omega

/-- C10: frame-length round trip.  For `n ≤ 251` the one-byte buffer `[n]` decodes
to size `n` with one byte consumed; for `252 ≤ n ≤ 1275` the numbers
`b0 = 252 + n mod 4` and `b1 = (n - b0) / 4` are bytes and the buffer `[b0, b1]`
decodes to size `n` with two bytes consumed. -/
theorem frame_length_round_trip (n : Nat) (hn : n ≤ 1275) :
    (n ≤ 251 → ∃ h : n < 256, parseFrameSizeEncoding [⟨n, h⟩] 1 = some (n, 1)) ∧
      (252 ≤ n →
        ∃ (h0 : 252 + n % 4 < 256) (h1 : (n - (252 + n % 4)) / 4 < 256),
          parseFrameSizeEncoding [⟨252 + n % 4, h0⟩, ⟨(n - (252 + n % 4)) / 4, h1⟩] 2 =
            some (n, 2)) := by
  constructor
  · intro h
    refine ⟨by omega, ?_⟩
    simp only [parseFrameSizeEncoding, rd, List.getD_cons_zero]
    split_ifs <;> first | rfl | omega | (simp; omega)
  · intro h
    refine ⟨by omega, by omega, ?_⟩
    simp only [parseFrameSizeEncoding, rd, List.getD_cons_zero, List.getD_cons_succ]
    split_ifs <;> first | rfl | omega | (simp; omega)

/-- C10 at the two ends of the two-byte range and at the largest one-byte size. -/
theorem frame_length_round_trip_witness :
    parseFrameSizeEncoding [251] 1 = some (251, 1) ∧
      parseFrameSizeEncoding [252, 0] 2 = some (252, 2) ∧
      parseFrameSizeEncoding [255, 255] 2 = some (1275, 2) := by
  obtain ⟨_, h1⟩ := (frame_length_round_trip 251 (by decide)).1 (by decide)
  obtain ⟨_, _, h2⟩ := (frame_length_round_trip 252 (by decide)).2 (by decide)
  obtain ⟨_, _, h3⟩ := (frame_length_round_trip 1275 (by decide)).2 (by decide)
  exact ⟨h1, h2, h3⟩

/-- C12 (code defect): on the two bytes `(255, 1)` the function `parsePaddingLength`
returns the padding `256`, not `255`, with two bytes read; `[254]` gives `254` and
`[0]` gives `0`; and on every buffer made of `r` bytes `255` followed by a byte
`v < 255` it returns `255 * r + v` reduced modulo `2^32`, with `bytes_read = r + 1`:
each byte `255` counts for `255`, where the padding loop of `parseOpusPacket` and the
comment in the function itself count `254`. -/
theorem parsePaddingLength_adds_255 :
    parsePaddingLength paddingCode255 paddingCode255.length = some (256, 2) ∧
      256 ≠ 254 * 1 + 1 ∧
      parsePaddingLength [254] 1 = some (254, 1) ∧
      parsePaddingLength [0] 1 = some (0, 1) ∧
      ∀ (data : List Byte) (r : Nat), r < data.length →
        (∀ i, i < r → rd data i = 255) → rd data r < 255 →
        parsePaddingLength data data.length = some (u32 (255 * r + rd data r), r + 1) :=
  ⟨by decide, by decide, by decide, by decide,
    fun data r hlen hrun hv => parsePaddingLength_run data r hrun hv hlen⟩

/-- C13: a padding run with no terminator is rejected: `parsePaddingLength` fails on
every buffer that is empty or consists only of `0xFF` bytes, and `parseOpusPacket`
fails on every code-3 buffer with the padding flag (bit 6 of the count byte) set whose
bytes from offset 2 to the end are all `0xFF`, or absent. -/
theorem unterminated_padding_rejected :
    (∀ data : List Byte, (∀ i, i < data.length → rd data i = 255) →
      parsePaddingLength data data.length = none) ∧
    (∀ (data : List Byte) (length : Nat), rd data 0 % 4 = 3 → rd data 1 / 64 % 2 = 1 →
      (∀ i, 2 ≤ i → i < length → rd data i = 255) →
      parseOpusPacket data length = none) :=
  ⟨fun data hall => parsePaddingLength_unterminated data hall,
    fun data length hcode hflag hrun =>
      parseOpusPacket_padding_unterminated data length hcode hflag hrun⟩

/-- C13 at the empty buffer, at `[0xFF, 0xFF]`, at `vbrUnterminated` (two `0xFF` bytes
after the count byte) and at `[0x03, 0xC1]` (nothing after the count byte). -/
theorem unterminated_padding_rejected_witness :
    parsePaddingLength [] 0 = none ∧
      parsePaddingLength [0xFF, 0xFF] 2 = none ∧
      parseOpusPacket vbrUnterminated 4 = none ∧
      parseOpusPacket [0x03, 0xC1] 2 = none :=
  ⟨unterminated_padding_rejected.1 [] (by decide),
    unterminated_padding_rejected.1 [0xFF, 0xFF] (by decide),
    unterminated_padding_rejected.2 vbrUnterminated 4 (by decide) (by decide) (by decide),
    unterminated_padding_rejected.2 [0x03, 0xC1] 2 (by decide) (by decide) (by decide)⟩

/-- C14: for every code-0 buffer shorter than `2^32` bytes (the TOC-only buffer
included) on which the self-delimited test of case 0 does not pass (the bytes after the
TOC are not a frame-length code of a non-zero size `fs` on `br` bytes with
`1 + br + fs ≤ length`; in particular when no frame-length code followed by its payload
fits the buffer at all), `parseOpusPacket` succeeds exactly when `length - 1 ≤ 1275`,
and it then reports `frame_count = 1`, `frame_sizes = [length - 1]`,
`total_size = length`, `data_offset = 1` and `is_self_delimiting = false`. -/
theorem code0_implicit_single_frame (data : List Byte) (length : Nat)
    (hlen : length < 4294967296) (hpos : 1 ≤ length)
    (hcode : rd data 0 % 4 = 0)
    (hno : ∀ fs br, parseFrameSizeEncoding (data.drop 1) (length - 1) = some (fs, br) →
      0 < fs → length < 1 + br + fs) :
    ((parseOpusPacket data length).isSome = true ↔ length - 1 ≤ 1275) ∧
      ∀ info, parseOpusPacket data length = some info →
        info.frame_count = 1 ∧ info.frame_sizes = [length - 1] ∧
        info.total_size = length ∧ info.data_offset = 1 ∧
        info.is_self_delimiting = false := by
  obtain ⟨m, b, f, -, heq⟩ := parseOpusPacket_eq data length hpos
  rw [heq, if_pos hcode]
  by_cases h1 : length ≤ 1
  · obtain rfl : length = 1 := by omega
    rw [parseCode0_toc_only data 1 _ (le_refl 1)]
    refine ⟨by simp, ?_⟩
    intro info h
    injection h with h
    subst h
    exact ⟨rfl, rfl, rfl, rfl, rfl⟩
  · rw [parseCode0_plain data length _ (by omega)
      (fun fs br h hc => by have := hno fs br h hc.1; omega),
      u32_of_lt (by omega : length - 1 < 4294967296), u32_of_lt hlen]
    by_cases h2 : length - 1 > 1275
    · rw [if_pos h2]
      refine ⟨by simp; omega, ?_⟩
      intro info h
      simp at h
    · rw [if_neg h2]
      refine ⟨by simp; omega, ?_⟩
      intro info h
      injection h with h
      subst h
      exact ⟨rfl, rfl, rfl, rfl, rfl⟩

/-- C14 at the two buffers the claim names: `[0x00, 0x02, 0x02]` decodes to one frame
of size `2` with `total_size = 3`, and the TOC-only buffer `[0x00]` to
`frame_sizes = [0]` with `total_size = 1`. -/
theorem code0_implicit_single_frame_witness :
    (((parseOpusPacket code0Plain 3).isSome = true ↔ 3 - 1 ≤ 1275) ∧
      ∀ info, parseOpusPacket code0Plain 3 = some info →
        info.frame_count = 1 ∧ info.frame_sizes = [3 - 1] ∧
        info.total_size = 3 ∧ info.data_offset = 1 ∧
        info.is_self_delimiting = false) ∧
    (((parseOpusPacket [0x00] 1).isSome = true ↔ 1 - 1 ≤ 1275) ∧
      ∀ info, parseOpusPacket [0x00] 1 = some info →
        info.frame_count = 1 ∧ info.frame_sizes = [1 - 1] ∧
        info.total_size = 1 ∧ info.data_offset = 1 ∧
        info.is_self_delimiting = false) ∧
    (parseOpusPacket code0Plain 3).map (fun info => (info.frame_sizes, info.total_size)) =
      some ([2], 3) ∧
    (parseOpusPacket [0x00] 1).map (fun info => (info.frame_sizes, info.total_size)) =
      some ([0], 1) :=
  ⟨code0_implicit_single_frame code0Plain 3 (by decide) (by decide) (by decide)
      (fun fs br h _ => by
        have e : parseFrameSizeEncoding (code0Plain.drop 1) (3 - 1) = some (2, 1) := by decide
        rw [e] at h
        injection h with h
        injection h with h1 h2
        omega),
    code0_implicit_single_frame [0x00] 1 (by decide) (by decide) (by decide)
      (fun fs br h _ => by
        have e : parseFrameSizeEncoding (([0x00] : List Byte).drop 1) (1 - 1) = none := by
          decide
        rw [e] at h
        cases h),
    by decide, by decide⟩

/-- C15 (refuted as stated): in `code0Zero = [0x00, 0x00]` the byte after the TOC is the
frame-length code of size `s = 0` on `k = 1` byte, and `1 + k + s ≤ 2`, but
`parseOpusPacket` reports the plain interpretation: `is_self_delimiting = false`, one
frame of `1` byte, `data_offset = 1`. -/
theorem code0_zero_size_not_self_delimited :
    rd code0Zero 0 % 4 = 0 ∧ 2 ≤ code0Zero.length ∧
      parseFrameSizeEncoding (code0Zero.drop 1) (code0Zero.length - 1) = some (0, 1) ∧
      1 + 1 + 0 ≤ code0Zero.length ∧
      ∃ info, parseOpusPacket code0Zero code0Zero.length = some info ∧
        info.is_self_delimiting = false ∧ info.frame_sizes = [1] ∧
        info.data_offset = 1 ∧ info.total_size = 2 :=
  ⟨by decide, by decide, by decide, by decide, _, rfl, rfl, rfl, rfl, rfl⟩

/-- C15 (as amended): for every code-0 buffer of length at least `2` whose bytes after
the TOC decode as a frame-length code of declared size `s ≥ 1` on `k` bytes with
`1 + k + s ≤ length`, `parseOpusPacket` succeeds with `is_self_delimiting = true`,
`frame_count = 1`, `frame_sizes = [s]`, `data_offset = 1 + k` and
`total_size = 1 + k + s`. -/
theorem code0_self_delimited (data : List Byte) (length s k : Nat)
    (h2 : 2 ≤ length) (hcode : rd data 0 % 4 = 0)
    (hfse : parseFrameSizeEncoding (data.drop 1) (length - 1) = some (s, k))
    (hs : 1 ≤ s) (hfit : 1 + k + s ≤ length) :
    ∃ info, parseOpusPacket data length = some info ∧
      info.is_self_delimiting = true ∧ info.frame_count = 1 ∧ info.frame_sizes = [s] ∧
      info.data_offset = 1 + k ∧ info.total_size = 1 + k + s := by
  obtain ⟨m, b, f, -, heq⟩ := parseOpusPacket_eq data length (by omega)
  rw [heq, if_pos hcode, parseCode0_self data length _ s k (by omega) hfse hs hfit]
  exact ⟨_, rfl, rfl, rfl, rfl, rfl, rfl⟩

/-- C15 (as amended) at `code0Self = [0x00, 0x02, 0xAA, 0xBB]`: size `2` on one byte. -/
theorem code0_self_delimited_witness :
    ∃ info, parseOpusPacket code0Self 4 = some info ∧
      info.is_self_delimiting = true ∧ info.frame_count = 1 ∧ info.frame_sizes = [2] ∧
      info.data_offset = 1 + 1 ∧ info.total_size = 1 + 1 + 2 :=
  code0_self_delimited code0Self 4 2 1 (by decide) (by decide) (by decide) (by decide)
    (by decide)

/-- C16: for every code-1 buffer whose remaining byte count `N = length - 1` is odd
with `N > 1` and on which the self-delimited test of case 1 does not pass (the bytes
after the TOC are not a frame-length code of a non-zero size `fs` on `br` bytes with
`1 + br + 2 * fs ≤ length`; in particular when no frame-length code whose size,
doubled, fits the buffer exists at all), `parseOpusPacket` fails. -/
theorem code1_odd_rejected (data : List Byte) (length : Nat)
    (hcode : rd data 0 % 4 = 1) (hodd : (length - 1) % 2 = 1) (hN : 1 < length - 1)
    (hno : ∀ fs br, parseFrameSizeEncoding (data.drop 1) (length - 1) = some (fs, br) →
      0 < fs → length < 1 + br + fs * 2) :
    parseOpusPacket data length = none := by
  obtain ⟨m, b, f, -, heq⟩ := parseOpusPacket_eq data length (by omega)
  rw [heq, if_neg (by omega), if_pos hcode]
  rw [parseCode1_plain data length _ (by omega)
    (fun fs br h hc => by have := hno fs br h hc.1; omega)]
  rw [if_pos (by unfold u32; omega)]

/-- C16 at `code1Odd = [0x01, 0x05, 0xAA, 0xBB]`: three bytes after the TOC, and the
frame-length code `5` announces two frames that do not fit. -/
theorem code1_odd_rejected_witness : parseOpusPacket code1Odd 4 = none :=
  code1_odd_rejected code1Odd 4 (by decide) (by decide) (by decide)
    (fun fs br h _ => by
      have e : parseFrameSizeEncoding (code1Odd.drop 1) (4 - 1) = some (5, 1) := by decide
      rw [e] at h
      injection h with h
      injection h with h1 h2
      omega)

/-- C17 (refuted as stated): the TOC-only code-1 buffer `[0x01]` has an even remaining
byte count `0`, with `0 / 2 ≤ 1275`, and no frame-length code after the TOC, but
`parseOpusPacket` rejects it. -/
theorem code1_toc_only_rejected :
    rd code1TocOnly 0 % 4 = 1 ∧ (code1TocOnly.length - 1) % 2 = 0 ∧
      (code1TocOnly.length - 1) / 2 ≤ 1275 ∧
      parseFrameSizeEncoding (code1TocOnly.drop 1) (code1TocOnly.length - 1) = none ∧
      parseOpusPacket code1TocOnly code1TocOnly.length = none :=
  ⟨by decide, by decide, by decide, by decide, by decide⟩

/-- C17 (as amended): for every code-1 buffer of at least two bytes on which the
self-delimited test of case 1 does not pass and whose remaining byte count
`length - 1` is even with `(length - 1) / 2 ≤ 1275`, `parseOpusPacket` succeeds with
two frames of size `(length - 1) / 2` each, `total_size = length`, `data_offset = 1`
and `is_self_delimiting = false`. -/
theorem code1_even_split (data : List Byte) (length : Nat)
    (h2 : 2 ≤ length) (hcode : rd data 0 % 4 = 1)
    (heven : (length - 1) % 2 = 0) (hle : (length - 1) / 2 ≤ 1275)
    (hno : ∀ fs br, parseFrameSizeEncoding (data.drop 1) (length - 1) = some (fs, br) →
      0 < fs → length < 1 + br + fs * 2) :
    ∃ info, parseOpusPacket data length = some info ∧
      info.frame_count = 2 ∧
      info.frame_sizes = [(length - 1) / 2, (length - 1) / 2] ∧
      info.total_size = length ∧ info.data_offset = 1 ∧
      info.is_self_delimiting = false := by
  obtain ⟨m, b, f, -, heq⟩ := parseOpusPacket_eq data length (by omega)
  rw [heq, if_neg (by omega), if_pos hcode]
  rw [parseCode1_plain data length _ h2
    (fun fs br h hc => by have := hno fs br h hc.1; omega),
    u32_of_lt (by omega : length - 1 < 4294967296), u32_of_lt (by omega : length < 4294967296),
    if_neg (by omega), if_neg (by omega)]
  exact ⟨_, rfl, rfl, rfl, rfl, rfl, rfl⟩

/-- C17 (as amended) at `code1Even = [0x01, 0x05, 0xAA, 0xBB, 0xCC]`: two frames of
two bytes. -/
theorem code1_even_split_witness :
    ∃ info, parseOpusPacket code1Even 5 = some info ∧
      info.frame_count = 2 ∧
      info.frame_sizes = [(5 - 1) / 2, (5 - 1) / 2] ∧
      info.total_size = 5 ∧ info.data_offset = 1 ∧
      info.is_self_delimiting = false :=
  code1_even_split code1Even 5 (by decide) (by decide) (by decide) (by decide)
    (fun fs br h _ => by
      have e : parseFrameSizeEncoding (code1Even.drop 1) (5 - 1) = some (5, 1) := by decide
      rw [e] at h
      injection h with h
      injection h with h1 h2
      omega)

/-- C18 (refuted as stated): `code2Long` is a code-2 buffer of `2^32 + 8` bytes whose
first frame-length code is `f1 = 1` on `k = 1` byte and on which the self-delimited
test does not pass (the second code announces size `0`); `length - 1 - k - f1` is
`2^32 + 5`, above `1275`, but the parser accepts the buffer with
`frame_sizes = [1, 5]` and `total_size = 8`.  And on `code2Plain`, where the claim's
condition holds, `data_offset` is `1`, not `1 + k = 2`. -/
theorem code2_long_buffer_accepted :
    code2Long.length = 4294967304 ∧ rd code2Long 0 % 4 = 2 ∧
      parseFrameSizeEncoding (code2Long.drop 1) (code2Long.length - 1) = some (1, 1) ∧
      parseFrameSizeEncoding (code2Long.drop (1 + 1)) (code2Long.length - (1 + 1)) =
        some (0, 1) ∧
      ¬ (code2Long.length - 1 - 1 - 1 ≤ 1275) ∧
      (∃ info, parseOpusPacket code2Long code2Long.length = some info ∧
        info.is_self_delimiting = false ∧ info.frame_sizes = [1, 5] ∧
        info.total_size = 8 ∧ info.total_size ≠ code2Long.length) ∧
      parseFrameSizeEncoding (code2Plain.drop 1) (code2Plain.length - 1) = some (1, 1) ∧
      ∃ info, parseOpusPacket code2Plain code2Plain.length = some info ∧
        info.is_self_delimiting = false ∧ info.frame_sizes = [1, 1] ∧
        info.data_offset = 1 ∧ info.data_offset ≠ 1 + 1 := by
  have hL : code2Long.length = 4294967304 := by
    unfold code2Long
    rw [List.length_cons, List.length_cons, List.length_replicate]
  have h2 : rd code2Long 2 = 0 := by
    unfold code2Long
    rw [show (2 : Nat) = 2 + 0 from rfl, rd_cons_cons,
      show (4294967302 : Nat) = 4294967301 + 1 from rfl, List.replicate_succ]
    rfl
  obtain ⟨a1, a2, info, a3, a4, a5, -, -, a8⟩ :=
    parseOpusPacket_code2_long code2Long rfl rfl h2 hL
  refine ⟨hL, rfl, a1, a2, by rw [hL]; decide, ⟨info, a3, a8, a4, a5, ?_⟩, by decide,
    _, rfl, rfl, rfl, rfl, by decide⟩
  rw [a5, hL]
  decide

/-- C18 (as amended): for every code-2 buffer, a buffer with no decodable first
frame-length code (TOC only, or a truncated two-byte code) is rejected; and when the
buffer is shorter than `2^32` bytes, its first frame-length code decodes to `f1` on `k`
bytes and the self-delimited test of case 2 does not pass, `parseOpusPacket` succeeds
exactly when `1 + k + f1 ≤ length` and `length - 1 - k - f1 ≤ 1275`, and it then
reports `frame_count = 2`, `frame_sizes = [f1, length - 1 - k - f1]`,
`total_size = length` and `is_self_delimiting = false`. -/
theorem code2_explicit_first_size (data : List Byte) (length : Nat)
    (hpos : 1 ≤ length) (hcode : rd data 0 % 4 = 2) :
    (parseFrameSizeEncoding (data.drop 1) (length - 1) = none →
      parseOpusPacket data length = none) ∧
    ∀ f1 k, length < 4294967296 →
      parseFrameSizeEncoding (data.drop 1) (length - 1) = some (f1, k) →
      (∀ f2 k2,
        parseFrameSizeEncoding (data.drop (1 + k)) (length - (1 + k)) = some (f2, k2) →
        0 < f1 → 0 < f2 → length < 1 + k + k2 + f1 + f2) →
      ((parseOpusPacket data length).isSome = true ↔
        (1 + k + f1 ≤ length ∧ length - 1 - k - f1 ≤ 1275)) ∧
      ∀ info, parseOpusPacket data length = some info →
        info.frame_count = 2 ∧ info.frame_sizes = [f1, length - 1 - k - f1] ∧
        info.total_size = length ∧ info.is_self_delimiting = false := by
  obtain ⟨m, b, f, -, heq⟩ := parseOpusPacket_eq data length hpos
  rw [heq, if_neg (by omega), if_neg (by omega), if_pos hcode]
  refine ⟨fun hnone => parseCode2_no_code data length _ hnone, ?_⟩
  intro f1 k hlen hfse hno
  have hb := parseFrameSizeEncoding_bound hfse
  rw [parseCode2_plain data length _ f1 k hfse
    (fun f2 k2 h hc => by have := hno f2 k2 h hc.1 hc.2.1; omega),
    u32_of_lt (by omega : length - (1 + k) - f1 < 4294967296), u32_of_lt hlen,
    if_neg (by omega)]
  by_cases h1 : 1 + k + f1 > length
  · rw [if_pos h1]
    refine ⟨by simp; omega, ?_⟩
    intro info h
    simp at h
  · rw [if_neg h1]
    by_cases h2 : length - (1 + k) - f1 > 1275
    · rw [if_pos h2]
      refine ⟨by simp; omega, ?_⟩
      intro info h
      simp at h
    · rw [if_neg h2]
      refine ⟨by simp; omega, ?_⟩
      intro info h
      injection h with h
      subst h
      exact ⟨rfl, by
        show [f1, length - (1 + k) - f1] = [f1, length - 1 - k - f1]
        rw [show length - (1 + k) - f1 = length - 1 - k - f1 by omega], rfl, rfl⟩

/-- C18 (as amended) at `code2Plain = [0x02, 0x01, 0xAA, 0xBB]`: `f1 = 1` on `k = 1`
byte, the second code `0xAA` announces more than the buffer holds, and the packet is
accepted with `frame_sizes = [1, 1]` and `total_size = 4`; the TOC-only buffer `[0x02]`
is rejected. -/
theorem code2_explicit_first_size_witness :
    parseOpusPacket [0x02] 1 = none ∧
      ((parseOpusPacket code2Plain 4).isSome = true ↔ (1 + 1 + 1 ≤ 4 ∧ 4 - 1 - 1 - 1 ≤ 1275)) ∧
      ∀ info, parseOpusPacket code2Plain 4 = some info →
        info.frame_count = 2 ∧ info.frame_sizes = [1, 4 - 1 - 1 - 1] ∧
        info.total_size = 4 ∧ info.is_self_delimiting = false :=
  ⟨(code2_explicit_first_size [0x02] 1 (by decide) (by decide)).1 (by decide),
    (code2_explicit_first_size code2Plain 4 (by decide) (by decide)).2 1 1 (by decide) (by decide)
      (fun f2 k2 h _ _ => by
        have e : parseFrameSizeEncoding (code2Plain.drop (1 + 1)) (4 - (1 + 1)) =
            some (170, 1) := by decide
        rw [e] at h
        injection h with h
        injection h with h1 h2
        omega)⟩

/-- C19 (refuted as stated): `cbrFortyNine` is a CBR code-3 buffer whose count byte is
`49`; `parseOpusPacket` accepts it with `frame_count = 49`, above `48`. -/
theorem frame_count_49_accepted :
    cbrFortyNine.length = 492 ∧ rd cbrFortyNine 0 % 4 = 3 ∧
      rd cbrFortyNine 1 &&& 0x3F = 49 ∧
      ∃ info, parseOpusPacket cbrFortyNine cbrFortyNine.length = some info ∧
        info.frame_count = 49 ∧ ¬ (info.frame_count ≤ 48) ∧
        info.total_size = 492 ∧ info.data_offset = 2 := by
  have hL : cbrFortyNine.length = 492 := by
    unfold cbrFortyNine
    rw [List.length_append, List.length_replicate]
    rfl
  obtain ⟨fi, e1, -, -, -, -, -, heq⟩ := parseOpusPacket_cbr cbrFortyNine 492 2 492 0
    (by decide) (by decide) (by decide) (by decide) rfl
  have hc : rd cbrFortyNine 1 % 64 = 49 := by decide
  rw [hc] at heq e1
  rw [parseCbr_in_range cbrFortyNine 2 492 0 49 fi (by decide) (by decide) (by decide)
    (by decide) (by decide), if_pos (by decide)] at heq
  refine ⟨hL, by decide, by decide, ?_⟩
  rw [hL]
  exact ⟨_, heq, e1, by rw [e1]; decide, rfl, rfl⟩

/-- C19 (as amended): for every code-3 buffer, `frame_count` of an accepted buffer is
the low six bits of the frame-count byte and lies between `1` and `63`, and a buffer
whose frame count is `0` is rejected. -/
theorem code3_frame_count (data : List Byte) (length : Nat) (hcode : rd data 0 % 4 = 3) :
    (∀ info, parseOpusPacket data length = some info →
      info.frame_count = rd data 1 &&& 0x3F ∧ info.frame_count = rd data 1 % 64 ∧
      1 ≤ info.frame_count ∧ info.frame_count ≤ 63) ∧
    (rd data 1 &&& 0x3F = 0 → parseOpusPacket data length = none) := by
  refine ⟨?_, ?_⟩
  · intro info h
    obtain ⟨-, hcount, hfc, -⟩ := parseOpusPacket_code3_fields hcode h
    have h64 : rd data 1 % 64 < 64 := Nat.mod_lt _ (by decide)
    refine ⟨by rw [and63_eq]; exact hfc, hfc, by omega, by omega⟩
  · intro hz
    rw [and63_eq] at hz
    exact parseOpusPacket_count_zero data length hcode hz

/-- C19 (as amended) at `cbrFour` (four frames) and at the count byte `0`. -/
theorem code3_frame_count_witness :
    (cbrFourInfo.frame_count = rd cbrFour 1 &&& 0x3F ∧
      cbrFourInfo.frame_count = rd cbrFour 1 % 64 ∧
      1 ≤ cbrFourInfo.frame_count ∧ cbrFourInfo.frame_count ≤ 63) ∧
    parseOpusPacket [0x03, 0x00, 0xAA] 3 = none :=
  ⟨(code3_frame_count cbrFour cbrFour.length (by decide)).1 cbrFourInfo (by decide),
    (code3_frame_count [0x03, 0x00, 0xAA] 3 (by decide)).2 (by decide)⟩

/-- C20: `parseTOC` succeeds on every byte `toc`, with `config = toc / 8` (at most
`31`), `stereo` saying that bit 2 of `toc` is set, and `frame_count_code = toc mod 4`,
so that `toc = 8 * config + 4 * stereo + frame_count_code`; and every buffer that
`parseOpusPacket` accepts has `toc_byte = data[0]` and the `config`, `stereo` and
`frame_count_code` that `parseTOC` returns on it. -/
theorem parseTOC_total :
    (∀ toc : Byte, ∃ config stereo fcc,
      parseTOC toc.val = some (config, stereo, fcc) ∧
      config = toc.val / 8 ∧ config ≤ 31 ∧
      (stereo = true ↔ toc.val / 4 % 2 = 1) ∧ fcc = toc.val % 4 ∧
      toc.val = 8 * config + 4 * (if stereo then 1 else 0) + fcc) ∧
    (∀ (data : List Byte) (length : Nat) (info : OpusFrameInfo),
      parseOpusPacket data length = some info →
      info.toc_byte = rd data 0 ∧
      parseTOC (rd data 0) = some (info.config, info.stereo, info.frame_count_code)) := by
  refine ⟨?_, ?_⟩
  · intro toc
    have hlt : toc.val < 256 := toc.isLt
    refine ⟨toc.val / 8, toc.val / 4 % 2 != 0, toc.val % 4, ?_, rfl, by omega, ?_, rfl, ?_⟩
    · unfold parseTOC
      rw [shr3_eq, and31_eq, shr2_eq, Nat.and_one_is_mod, and3_eq,
        Nat.mod_eq_of_lt (by omega : toc.val / 8 < 32)]
    · have h2 : toc.val / 4 % 2 < 2 := Nat.mod_lt _ (by decide)
      by_cases hb : toc.val / 4 % 2 = 0
      · simp [hb]
      · have hb1 : toc.val / 4 % 2 = 1 := by omega
        simp [hb1]
    · have h2 : toc.val / 4 % 2 < 2 := Nat.mod_lt _ (by decide)
      by_cases hb : toc.val / 4 % 2 = 0
      · simp [hb]; omega
      · have hb1 : toc.val / 4 % 2 = 1 := by omega
        simp [hb1]; omega
  · intro data length info h
    obtain ⟨h1, h2, h3, h4, -⟩ := parseOpusPacket_header h
    have hlt := rd_lt data 0
    refine ⟨h1, ?_⟩
    unfold parseTOC
    rw [shr3_eq, and31_eq, shr2_eq, Nat.and_one_is_mod, and3_eq,
      Nat.mod_eq_of_lt (by omega : rd data 0 / 8 < 32), h2, h3, h4]

/-- C21: `getConfigInfo` agrees with the configuration table of the specification on
every config: it succeeds for every config in `[0, 31]` with the mode, bandwidth and
duration of the table and fails for every config above `31`; and the config that
`parseTOC` extracts from a byte is always at most `31`, so that `parseOpusPacket`
never takes the branch of a failed lookup: on every non-empty buffer the lookup
succeeds and the result is the one of the case selected by the frame-count code. -/
theorem getConfigInfo_table :
    (∀ config, getConfigInfo config = refConfigTable config) ∧
    (∀ config, config ≤ 31 → (getConfigInfo config).isSome = true) ∧
    (∀ config, 31 < config → getConfigInfo config = none) ∧
    (∀ (toc : Byte) (config : Nat) (stereo : Bool) (fcc : Nat),
      parseTOC toc.val = some (config, stereo, fcc) →
      config ≤ 31 ∧ (getConfigInfo config).isSome = true) ∧
    (∀ (data : List Byte) (length : Nat), 1 ≤ length →
      ∃ m b f, getConfigInfo (rd data 0 / 8) = some (m, b, f) ∧
        parseOpusPacket data length =
          (if rd data 0 % 4 = 0 then
            parseCode0 data length
              (headerInfo (rd data 0) (rd data 0 / 8) (rd data 0 / 4 % 2 != 0) 0 m b f)
          else if rd data 0 % 4 = 1 then
            parseCode1 data length
              (headerInfo (rd data 0) (rd data 0 / 8) (rd data 0 / 4 % 2 != 0) 1 m b f)
          else if rd data 0 % 4 = 2 then
            parseCode2 data length
              (headerInfo (rd data 0) (rd data 0 / 8) (rd data 0 / 4 % 2 != 0) 2 m b f)
          else
            parseCode3 data length
              (headerInfo (rd data 0) (rd data 0 / 8) (rd data 0 / 4 % 2 != 0) 3 m b f))) := by
  refine ⟨?_, fun config h => getConfigInfo_isSome config (by omega), ?_, ?_,
    fun data length h => parseOpusPacket_eq data length h⟩
  · intro config
    by_cases h : config ≤ 31
    · interval_cases config <;> rfl
    · have hg : getConfigInfo config = none := by
        unfold getConfigInfo
        rw [if_pos (by omega)]
      have hr : refConfigTable config = none := by
        unfold refConfigTable
        split_ifs <;> first | omega | rfl
      rw [hg, hr]
  · intro config h
    unfold getConfigInfo
    rw [if_pos h]
  · intro toc config stereo fcc h
    have hlt : toc.val < 256 := toc.isLt
    unfold parseTOC at h
    rw [shr3_eq, and31_eq] at h
    simp only [Option.some.injEq, Prod.mk.injEq] at h
    have hc : config ≤ 31 := by omega
    exact ⟨hc, getConfigInfo_isSome config (by omega)⟩

/-- C22 (refuted as stated): on the one-byte buffer `[0x04]` the parser succeeds with
`stereo = true`, since bit 2 of `0x04` is set. -/
theorem toc04_stereo_set :
    tocStereo = [0x04] ∧ rd tocStereo 0 / 4 % 2 = 1 ∧
      ∃ info, parseOpusPacket tocStereo tocStereo.length = some info ∧
        info.stereo = true ∧ info.stereo ≠ false :=
  ⟨rfl, by decide, tocStereoInfo, by decide, rfl, by decide⟩

/-- C22 (as amended): decoding the one-byte buffer `[0x04]` succeeds with `config = 0`,
`stereo = true`, `frame_count_code = 0`, mode SILK-only, bandwidth NB, frame duration
10 ms and `total_size = 1` (one frame of size `0`). -/
theorem toc04_decodes :
    tocStereo = [0x04] ∧
      ∃ info, parseOpusPacket tocStereo tocStereo.length = some info ∧
        info.config = 0 ∧ info.stereo = true ∧ info.frame_count_code = 0 ∧
        info.mode = OpusMode.SILK_ONLY ∧ info.bandwidth = OpusBandwidth.NB ∧
        info.frame_size = OpusFrameSize.FRAME_10_MS ∧ info.total_size = 1 ∧
        info.frame_count = 1 ∧ info.frame_sizes = [0] :=
  ⟨rfl, tocStereoInfo, by decide, rfl, rfl, rfl, rfl, rfl, rfl, rfl, rfl, rfl⟩

/-- C23: `findNextPacket` succeeds exactly when `current_offset < length` and
`parseOpusPacket` on the bytes from `current_offset` to the end succeeds with
`total_size > 0`; it then returns `next_offset = current_offset + total_size`, with
`current_offset < next_offset ≤ length`; and the parser never reports a `total_size`
above the number of bytes it was given. -/
theorem findNextPacket_spec (data : List Byte) (length current_offset : Nat) :
    ((findNextPacket data length current_offset).isSome = true ↔
      (current_offset < length ∧
        ∃ info, parseOpusPacket (data.drop current_offset) (length - current_offset) =
          some info ∧ 0 < info.total_size)) ∧
    (∀ next_offset, findNextPacket data length current_offset = some next_offset →
      ∃ info, parseOpusPacket (data.drop current_offset) (length - current_offset) =
          some info ∧
        next_offset = current_offset + info.total_size ∧
        current_offset < next_offset ∧ next_offset ≤ length) ∧
    (∀ info, parseOpusPacket (data.drop current_offset) (length - current_offset) =
        some info → info.total_size ≤ length - current_offset) := by
  refine ⟨?_, ?_, fun info h => parseOpusPacket_total_le h⟩
  · unfold findNextPacket
    by_cases hco : length = 0 ∨ current_offset ≥ length
    · rw [if_pos hco]
      simp only [Option.isSome_none, Bool.false_eq_true, false_iff, not_and]
      intro h
      omega
    · rw [if_neg hco]
      rcases hp : parseOpusPacket (data.drop current_offset) (length - current_offset)
        with _ | info
      · simp
      · have hle := parseOpusPacket_total_le hp
        simp only [Option.some.injEq, exists_eq_left']
        by_cases ht : info.total_size > 0 ∧ current_offset + info.total_size ≤ length
        · rw [if_pos ht]
          simp only [Option.isSome_some, true_iff]
          exact ⟨by omega, ht.1⟩
        · rw [if_neg ht]
          simp only [Option.isSome_none, Bool.false_eq_true, false_iff, not_and]
          intro _
          omega
  · intro next_offset h
    unfold findNextPacket at h
    by_cases hco : length = 0 ∨ current_offset ≥ length
    · rw [if_pos hco] at h
      cases h
    · rw [if_neg hco] at h
      rcases hp : parseOpusPacket (data.drop current_offset) (length - current_offset)
        with _ | info
      · rw [hp] at h
        cases h
      · rw [hp] at h
        simp only at h
        by_cases ht : info.total_size > 0 ∧ current_offset + info.total_size ≤ length
        · rw [if_pos ht] at h
          injection h with h
          exact ⟨info, rfl, h.symm, by omega, by omega⟩
        · rw [if_neg ht] at h
          cases h

/-- C23 at `twoPackets`, two packets of 4 and 3 bytes: from offset 0 the next packet is
at 4, from offset 4 it is at 7, the end of the buffer, and at the end nothing is
found. -/
theorem findNextPacket_spec_witness :
    (∃ info, parseOpusPacket (twoPackets.drop 0) (7 - 0) = some info ∧
        4 = 0 + info.total_size ∧ 0 < 4 ∧ 4 ≤ 7) ∧
      (∃ info, parseOpusPacket (twoPackets.drop 4) (7 - 4) = some info ∧
        7 = 4 + info.total_size ∧ 4 < 7 ∧ 7 ≤ 7) ∧
      ¬ ((findNextPacket twoPackets 7 7).isSome = true) :=
  ⟨(findNextPacket_spec twoPackets 7 0).2.1 4 (by decide),
    (findNextPacket_spec twoPackets 7 4).2.1 7 (by decide),
    fun h => absurd ((findNextPacket_spec twoPackets 7 7).1.mp h).1 (by decide)⟩

/-- C24: in the sweep `while (current_offset < sz)` of the sample program, over the
`sz ≤ BUFSIZE` bytes of its buffer, every run of the body strictly increases
`current_offset`: by `total_size > 0` on a resolved packet; on an unresolved packet
(`total_size = 0`) either by one byte or to a probed position, inside the buffer and
at or beyond `data_offset + frame_sizes[0] * frame_count`, where the parser succeeds;
and by exactly one byte on a decode failure.  The body leaves the loop only when the
cursor has reached `sz`.  So the sweep from any cursor returns after at most as many
runs of the body as bytes are left (at most `sz` from cursor 0), with the cursor at or
past `sz`: no decode failure ends it early. -/
theorem sweep_advances (p : List Byte) (sz : Nat) (hsz : sz ≤ BUFSIZE) :
    (∀ co pc, co < sz →
      co < (sweepBody p sz co pc).1 ∧
      ((sweepBody p sz co pc).2.2 = true ↔ sz ≤ (sweepBody p sz co pc).1) ∧
      (parseOpusPacket (p.drop co) (sz - co) = none →
        (sweepBody p sz co pc).1 = co + 1) ∧
      (∀ info, parseOpusPacket (p.drop co) (sz - co) = some info →
        (0 < info.total_size → (sweepBody p sz co pc).1 = co + info.total_size) ∧
        (info.total_size = 0 →
          (sweepBody p sz co pc).1 = co + 1 ∨
          (co + info.data_offset + info.frame_sizes.headD 0 * info.frame_count ≤
              (sweepBody p sz co pc).1 ∧
            (sweepBody p sz co pc).1 < sz ∧
            (parseOpusPacket (p.drop (sweepBody p sz co pc).1)
              (sz - (sweepBody p sz co pc).1)).isSome = true)))) ∧
    (∀ co pc, ∃ co' pc', sweep p sz (sz - co) co pc = some (co', pc') ∧
      sz ≤ co' ∧ co ≤ co') ∧
    (∃ co' pc', sweep p sz sz 0 0 = some (co', pc') ∧ sz ≤ co' ∧ pc' ≤ sz) := by
  have hlt : sz < 4294967296 := by
    have : BUFSIZE = 33554432 := rfl
    omega
  refine ⟨?_, ?_, ?_⟩
  · intro co pc hco
    obtain ⟨h1, h2, h3, h4⟩ := sweepBody_spec p sz co pc hlt hco
    exact ⟨h1, h2, fun hp => (h3 hp).1, fun info hp => (h4 info hp).2⟩
  · intro co pc
    obtain ⟨co', pc', e, a, b, -⟩ := sweep_fuel p sz hlt (sz - co) co pc (le_refl _)
    exact ⟨co', pc', e, a, b⟩
  · obtain ⟨co', pc', e, a, -, -, d⟩ := sweep_fuel p sz hlt sz 0 0 (by omega)
    exact ⟨co', pc', e, a, by omega⟩

/-- C24 at `vbrOne` (7 bytes): the sweep meets an unresolved VBR packet at 0 (no
probe succeeds, one byte forward), a decode failure at 1 (one byte forward) and a
resolved packet of 5 bytes at 2, and returns with the cursor at 7 after these three
runs, having counted two packets. -/
theorem sweep_advances_witness :
    vbrOne.length = 7 ∧ 7 ≤ BUFSIZE ∧
      (sweepBody vbrOne 7 0 0).1 = 1 ∧ (sweepBody vbrOne 7 1 1).1 = 2 ∧
      (sweepBody vbrOne 7 2 1).1 = 7 ∧
      sweep vbrOne 7 3 0 0 = some (7, 2) ∧
      (∃ co' pc', sweep vbrOne 7 7 0 0 = some (co', pc') ∧ 7 ≤ co' ∧ pc' ≤ 7) :=
  ⟨by decide, by decide, by decide, by decide, by decide, by decide,
    (sweep_advances vbrOne 7 (by decide)).2.2⟩

/-- C25: when `length` is at most the real size of the buffer (in particular when it is
that size), `parseOpusPacket` never reads outside `[0, length)`: the parser in which
every access (`data[0]`, the frame-count byte, the padding bytes, `data[0]`, `data[1]`,
`data[try_size]` and `data[try_size + 1]` of the boundary search, and the one or two
bytes that `parseFrameSizeEncoding` reads of its remainder) is checked against the
buffer never faults and returns what `parseOpusPacket` returns; the same holds of
`parseFrameSizeEncoding` on every remainder; and a checked read faults exactly
outside the buffer. -/
theorem parseOpusPacket_reads_in_bounds (data : List Byte) (length : Nat)
    (hd : length ≤ data.length) :
    parseOpusPacketChecked data length = Checked.ret (parseOpusPacket data length) ∧
      (∀ k, parseFrameSizeEncodingChecked (data.drop k) (length - k) =
        Checked.ret (parseFrameSizeEncoding (data.drop k) (length - k))) ∧
      (∀ i, readAt data i = Checked.fault ↔ data.length ≤ i) := by
  refine ⟨parseOpusPacketChecked_eq data length hd,
    fun k => parseFrameSizeEncodingChecked_eq (drop_length_le hd k), ?_⟩
  intro i
  constructor
  · intro h
    by_contra hlt
    rw [readAt_eq (by omega)] at h
    cases h
  · exact readAt_fault

/-- C25 at `cbrStream` (the boundary search runs on it) and at `vbrPadded` (padding
bytes and a frame-length code are read); on the other hand the checked parser faults on
the one-byte buffer `[0x00]` when it is given the length `2`. -/
theorem parseOpusPacket_reads_in_bounds_witness :
    parseOpusPacketChecked cbrStream cbrStream.length =
        Checked.ret (parseOpusPacket cbrStream cbrStream.length) ∧
      parseOpusPacket cbrStream cbrStream.length = some cbrStreamInfo ∧
      parseOpusPacketChecked vbrPadded vbrPadded.length =
        Checked.ret (parseOpusPacket vbrPadded vbrPadded.length) ∧
      parseOpusPacketChecked [0x00] 2 = Checked.fault :=
  ⟨(parseOpusPacket_reads_in_bounds cbrStream cbrStream.length (le_refl _)).1,
    by rw [cbrStream_length]; decide,
    (parseOpusPacket_reads_in_bounds vbrPadded vbrPadded.length (le_refl _)).1,
    by decide⟩

/-- C26 (refuted as stated): `code1Long` is a code-1 buffer of `2^32 + 1` bytes, TOC
`0x01` and zeros.  The parser accepts it with two frames of size `0` and
`total_size = 1` (the length reduced modulo `2^32`), and rejects the same buffer with
the length `1`. -/
theorem redecode_long_code1_rejected :
    code1Long.length = 4294967297 ∧
      ∃ info, parseOpusPacket code1Long code1Long.length = some info ∧
        info.total_size = 1 ∧ 0 < info.total_size ∧ info.frame_sizes = [0, 0] ∧
        parseOpusPacket code1Long info.total_size = none := by
  have hL : code1Long.length = 4294967297 := by
    unfold code1Long
    rw [List.length_cons, List.length_replicate]
  have h1 : rd code1Long 1 = 0 := by
    unfold code1Long
    rw [show (4294967296 : Nat) = 4294967295 + 1 from rfl, List.replicate_succ]
    rfl
  obtain ⟨⟨info, a1, a2, a3, -⟩, hnone⟩ := parseOpusPacket_code1_long code1Long rfl h1 hL
  refine ⟨hL, info, a1, a2, by omega, a3, ?_⟩
  rw [a2]
  exact hnone

/-- C26 (as amended): for every buffer shorter than `2^32` bytes on which
`parseOpusPacket data length` succeeds with `total_size = t > 0`, `parseOpusPacket data t`
also succeeds and yields the same record, so the same `frame_count`, `frame_sizes`,
`data_offset`, `padding_size`, `is_self_delimiting`, `is_cbr`, `has_padding` and
`total_size = t`; this includes the sizes found by the CBR boundary search. -/
theorem redecode_stable (data : List Byte) (length : Nat) (info : OpusFrameInfo)
    (hlen : length < 4294967296) (h : parseOpusPacket data length = some info)
    (ht : 0 < info.total_size) :
    ∃ info', parseOpusPacket data info.total_size = some info' ∧
      info'.frame_count = info.frame_count ∧ info'.frame_sizes = info.frame_sizes ∧
      info'.data_offset = info.data_offset ∧ info'.padding_size = info.padding_size ∧
      info'.is_self_delimiting = info.is_self_delimiting ∧ info'.is_cbr = info.is_cbr ∧
      info'.has_padding = info.has_padding ∧ info'.total_size = info.total_size ∧
      info' = info :=
  ⟨info, parseOpusPacket_redecode hlen h ht, rfl, rfl, rfl, rfl, rfl, rfl, rfl, rfl, rfl⟩

/-- C26 (as amended) at `cbrStream`: the boundary search in the 2626-byte stream
reports `total_size = 24`, and the first 24 bytes decode to the same two frames of 11
bytes; and at the self-delimited packet at the start of `twoPackets`, of 4 bytes. -/
theorem redecode_stable_witness :
    cbrStreamInfo.total_size = 24 ∧ cbrStreamInfo.total_size < cbrStream.length ∧
      (∃ info', parseOpusPacket cbrStream cbrStreamInfo.total_size = some info' ∧
        info'.frame_count = cbrStreamInfo.frame_count ∧
        info'.frame_sizes = cbrStreamInfo.frame_sizes ∧
        info'.data_offset = cbrStreamInfo.data_offset ∧
        info'.padding_size = cbrStreamInfo.padding_size ∧
        info'.is_self_delimiting = cbrStreamInfo.is_self_delimiting ∧
        info'.is_cbr = cbrStreamInfo.is_cbr ∧
        info'.has_padding = cbrStreamInfo.has_padding ∧
        info'.total_size = cbrStreamInfo.total_size ∧
        info' = cbrStreamInfo) ∧
      parseOpusPacket cbrStream 24 = some cbrStreamInfo :=
  ⟨rfl, by rw [cbrStream_length]; decide,
    redecode_stable cbrStream cbrStream.length cbrStreamInfo
      (by rw [cbrStream_length]; decide) (by rw [cbrStream_length]; decide) (by decide),
    by decide⟩

end OpusAnalyzer
